import Mathlib

/-!
# Verification of the AI-ColorTune color-grading core

A shallow embedding, in Lean 4, of the core logic of the AI-ColorTune
repository (`backend/app/core/color_params.py`, `backend/app/core/image_ops.py`,
`backend/app/services/image_processor.py`, `backend/app/services/ai_provider.py`),
together with theorems settling the frozen claims about it.

Modelling conventions:
* Python `int`/`float` values are modelled as rationals (`ℚ`).  The numeric
  code under study only uses `+ - * / min max abs` comparisons and truncation
  at the points the theorems exercise, so rational arithmetic is exact there.
* Parsed-JSON values (the input of the sanitizer) are modelled by the
  inductive type `JVal`; Python `dict`s become insertion-ordered association
  lists.  Parsed JSON never aliases, so in-place `dict` mutation is modelled
  functionally.
* Fallible Python code (statements that can raise) is modelled in the
  `Except Unit` monad; `Except.error ()` means "this raises".
* Transcendental / library primitives that the claims never evaluate
  (sRGB gamma, cubic splines, `cos`, Gaussian blur, RNG noise, OpenCV
  grayscale) are abstracted as fields of an environment structure `Env`;
  theorems quantify over every environment, so they hold in particular for
  the real primitives.
-/

namespace ColorTune

/-! ## Rational helpers shared by the embedding -/

/-- Models `color_params._clamp`: `max(lo, min(hi, value))`. -/
def _clamp (value lo hi : ℚ) : ℚ := max lo (min hi value)

/-- Models `np.clip(x, 0.0, 1.0)` on a scalar. -/
def clip01 (x : ℚ) : ℚ := max 0 (min 1 x)

/-- Generic `np.clip(x, lo, hi)` on a scalar. -/
def npclip (x lo hi : ℚ) : ℚ := max lo (min hi x)

/-- Python `int(x)` / numpy `astype(int)`: truncation toward zero. -/
def pyTrunc (q : ℚ) : ℤ := if 0 ≤ q then ⌊q⌋ else -⌊-q⌋

/-- Python float `%` (sign follows the divisor; here only used with a
positive divisor, where it is `a - b * ⌊a / b⌋`). -/
def qmod (a b : ℚ) : ℚ := a - b * ⌊a / b⌋

/-! ## The JSON value model

`JVal` models a value obtained from `json.loads`: `None`, booleans, numbers
(`int` and `float` are merged into `ℚ`), strings, lists and insertion-ordered
string-keyed dicts. -/

inductive JVal where
  | jnull : JVal
  | jbool : Bool → JVal
  | jnum : ℚ → JVal
  | jstr : String → JVal
  | jarr : List JVal → JVal
  | jobj : List (String × JVal) → JVal

/-- Entry list of a Python dict. -/
abbrev Entries := List (String × JVal)

/-- Python `key in d` / `d[key]` (first — unique in a real dict — match). -/
def jget : Entries → String → Option JVal
  | [], _ => none
  | (k, v) :: rest, key => if k = key then some v else jget rest key

/-- Python `d[key] = v`: replace in place, or append a fresh key at the end
(insertion order). -/
def jset : Entries → String → JVal → Entries
  | [], key, v => [(key, v)]
  | (k, w) :: rest, key, v =>
      if k = key then (k, v) :: rest else (k, w) :: jset rest key v

/-- Models `isinstance(x, (int, float))` — `bool` is a subclass of `int` in Python. -/
def pyIsNumber : JVal → Bool
  | .jnum _ => true
  | .jbool _ => true
  | _ => false

/-- The numeric value of a Python number (`float(x)` for `int`/`float`/`bool`). -/
def pyNumVal : JVal → ℚ
  | .jnum q => q
  | .jbool b => if b then 1 else 0
  | _ => 0

/-! ### Python `float(str)`

A model of `float()` applied to a string: optional surrounding whitespace,
an optional sign, then either `digits`, `digits.digits`, `digits.`, or
`.digits`, with an optional decimal exponent.  Python additionally accepts
`inf`/`infinity`/`nan` spellings and `_` digit separators; `pyParseFloat`
below omits those, which is conservative for its only use, the sanitizer's
raise analysis: treating such strings as raising only narrows the safe-input
hypothesis of the never-raises theorem.  The pydantic-coercion model used by
the validator, `pydParseFloat` further below, does handle them (there,
misclassifying a coercible `inf`/`nan` string as a type error would hide a
genuine range error). -/

def isWsChar (c : Char) : Bool :=
  c = ' ' ∨ c = '\t' ∨ c = '\n' ∨ c = '\r' ∨ c = '\x0b' ∨ c = '\x0c'

def digitsToNat (cs : List Char) : ℕ :=
  cs.foldl (fun acc c => acc * 10 + (c.toNat - '0'.toNat)) 0

/-- Parse an unsigned decimal exponent with optional sign. -/
def parseExp (cs : List Char) : Option ℤ :=
  match cs with
  | [] => none
  | '+' :: ds => if ds ≠ [] ∧ ds.all Char.isDigit then some (digitsToNat ds) else none
  | '-' :: ds => if ds ≠ [] ∧ ds.all Char.isDigit then some (-(digitsToNat ds : ℤ)) else none
  | ds => if ds.all Char.isDigit then some (digitsToNat ds) else none

/-- Parse the mantissa `digits[.digits]` (at least one digit overall). -/
def parseMantissa (cs : List Char) : Option ℚ :=
  let intPart := cs.takeWhile Char.isDigit
  let rest := cs.dropWhile Char.isDigit
  match rest with
  | [] => if intPart = [] then none else some (digitsToNat intPart)
  | '.' :: fracCs =>
      if fracCs.all Char.isDigit ∧ (intPart ≠ [] ∨ fracCs ≠ []) then
        some ((digitsToNat intPart : ℚ) +
          (digitsToNat fracCs : ℚ) / (10 : ℚ) ^ fracCs.length)
      else none
  | _ => none

def parseSignedBody (cs : List Char) : Option ℚ :=
  match cs with
  | '+' :: rest => parseMantissaExp rest
  | '-' :: rest => (parseMantissaExp rest).map Neg.neg
  | rest => parseMantissaExp rest
where
  parseMantissaExp (cs : List Char) : Option ℚ :=
    let mantCs := cs.takeWhile (fun c => c.isDigit ∨ c = '.')
    let rest := cs.dropWhile (fun c => c.isDigit ∨ c = '.')
    match rest with
    | [] => parseMantissa mantCs
    | 'e' :: expCs => do
        let m ← parseMantissa mantCs
        let e ← parseExp expCs
        pure (m * (10 : ℚ) ^ e)
    | 'E' :: expCs => do
        let m ← parseMantissa mantCs
        let e ← parseExp expCs
        pure (m * (10 : ℚ) ^ e)
    | _ => none

/-- Models `float(s)` for a Python `str` `s`: `some q` if it parses, else it raises. -/
def pyParseFloat (s : String) : Option ℚ :=
  parseSignedBody ((s.toList.dropWhile isWsChar).reverse.dropWhile isWsChar).reverse

/-- Python `float(x)` on an arbitrary value: numbers and numeric strings
convert; `None`, lists, dicts and non-numeric strings raise. -/
def pyFloat : JVal → Except Unit ℚ
  | .jnum q => .ok q
  | .jbool b => .ok (if b then 1 else 0)
  | .jstr s =>
      match pyParseFloat s with
      | some q => .ok q
      | none => .error ()
  | _ => .error ()

/-! ## `color_params.sanitize_ai_params` -/

/-- Models `color_params._CLAMP_RULES` (iterated in insertion order). -/
def _CLAMP_RULES : List (String × ℚ × ℚ) :=
  [("basic.exposure", -3, 3),
   ("basic.contrast", -100, 100),
   ("basic.highlights", -100, 100),
   ("basic.shadows", -100, 100),
   ("basic.whites", -100, 100),
   ("basic.blacks", -100, 100),
   ("color.temperature", 2000, 12000),
   ("color.tint", -100, 100),
   ("color.vibrance", -100, 100),
   ("color.saturation", -100, 100),
   ("effects.clarity", -100, 100),
   ("effects.dehaze", -100, 100),
   ("effects.vignette", -100, 100),
   ("effects.grain", 0, 100),
   ("effects.texture", -100, 100),
   ("effects.fade", 0, 100),
   ("effects.sharpening", 0, 100),
   ("effects.sharpen_radius", 1/2, 5),
   ("split_toning.balance", -100, 100)]

/-- Python `dotpath.split(".")` (e.g. `"basic.exposure" ↦ ["basic", "exposure"]`,
`"" ↦ [""]`). -/
def splitDotAux : List Char → List Char → List String
  | [], acc => [String.mk acc.reverse]
  | '.' :: rest, acc => String.mk acc.reverse :: splitDotAux rest []
  | c :: rest, acc => splitDotAux rest (c :: acc)

def pySplitDot (s : String) : List String := splitDotAux s.toList []

/-- The per-rule walk of `sanitize_ai_params`'s first loop: follow
`parts[:-1]` through nested dicts (silently stopping when a step is not a
dict or lacks the key), then clamp `obj[parts[-1]]` when it is numeric. -/
def clampPathE (entries : Entries) : List String → ℚ → ℚ → Entries
  | [], _, _ => entries
  | [key], lo, hi =>
      match jget entries key with
      | some x =>
          if pyIsNumber x then
            jset entries key (.jnum (_clamp (pyNumVal x) lo hi))
          else entries
      | none => entries
  | p :: rest, lo, hi =>
      match jget entries p with
      | some (.jobj inner) => jset entries p (.jobj (clampPathE inner rest lo hi))
      | _ => entries

/-- One iteration of the `for dotpath, (lo, hi) in _CLAMP_RULES.items()` loop. -/
def clampRule (raw : Entries) (dotpath : String) (lo hi : ℚ) : Entries :=
  clampPathE raw (pySplitDot dotpath) lo hi

/-- The `if key in d: d[key] = _clamp(float(d[key]), lo, hi)` pattern
(`float(...)` raises on values it cannot convert). -/
def clampField (ch : Entries) (key : String) (lo hi : ℚ) : Except Unit Entries :=
  match jget ch key with
  | some v => do
      let q ← pyFloat v
      pure (jset ch key (.jnum (_clamp q lo hi)))
  | none => pure ch

/-- The `effects` block: force `grain` to `0`, then clamp `clarity` to
`[-30, 30]` and `dehaze` to `[-20, 25]` when present. -/
def sanitizeEffects (raw : Entries) : Except Unit Entries :=
  match jget raw "effects" with
  | some (.jobj e0) => do
      let e1 := jset e0 "grain" (.jnum 0)
      let e2 ← clampField e1 "clarity" (-30) 30
      let e3 ← clampField e2 "dehaze" (-20) 25
      pure (jset raw "effects" (.jobj e3))
  | _ => pure raw

/-- One iteration of `for channel in hsl.values()`: when they are present in a
dict-valued channel, clamp `hue` to `[-180, 180]` and `saturation` /
`luminance` to `[-100, 100]`. -/
def sanitizeChannel (kv : String × JVal) : Except Unit (String × JVal) :=
  match kv.2 with
  | .jobj ch => do
      let c1 ← clampField ch "hue" (-180) 180
      let c2 ← clampField c1 "saturation" (-100) 100
      let c3 ← clampField c2 "luminance" (-100) 100
      pure (kv.1, JVal.jobj c3)
  | _ => pure kv

/-- The `hsl` block over all channels in insertion order. -/
def sanitizeHSL (raw : Entries) : Except Unit Entries :=
  match jget raw "hsl" with
  | some (.jobj hs) => do
      let hs' ← hs.mapM sanitizeChannel
      pure (jset raw "hsl" (.jobj hs'))
  | _ => pure raw

/-- One split-toning zone: clamp `hue` to `[0, 360]`, `saturation` to
`[0, 100]` when the zone is a dict. -/
def sanitizeZone (st : Entries) (key : String) : Except Unit Entries :=
  match jget st key with
  | some (.jobj ch) => do
      let c1 ← clampField ch "hue" 0 360
      let c2 ← clampField c1 "saturation" 0 100
      pure (jset st key (.jobj c2))
  | _ => pure st

/-- The `split_toning` block over the `highlights`, `midtones`, `shadows` zones. -/
def sanitizeSplitToning (raw : Entries) : Except Unit Entries :=
  match jget raw "split_toning" with
  | some (.jobj st0) => do
      let st1 ← sanitizeZone st0 "highlights"
      let st2 ← sanitizeZone st1 "midtones"
      let st3 ← sanitizeZone st2 "shadows"
      pure (jset raw "split_toning" (.jobj st3))
  | _ => pure raw

/-- Models `isinstance(p, (list, tuple)) and len(p) >= 2` (parsed JSON has no tuples). -/
def keepPoint : JVal → Bool
  | .jarr xs => 2 ≤ xs.length
  | _ => false

/-- Models `min(255, v)` / `max(0, ...)` raise a `TypeError` on non-numbers;
on numbers this is `int(_clamp(v, 0, 255))` (truncation of a value in
`[0, 255]`, hence `⌊·⌋`). -/
def clampCoord (v : JVal) : Except Unit ℚ :=
  if pyIsNumber v then .ok (⌊_clamp (pyNumVal v) 0 255⌋ : ℤ) else .error ()

/-- Models `[int(_clamp(p[0], 0, 255)), int(_clamp(p[1], 0, 255))]` for a kept point. -/
def sanitizePoint : JVal → Except Unit JVal
  | .jarr (x :: y :: _) => do
      let qx ← clampCoord x
      let qy ← clampCoord y
      pure (.jarr [.jnum qx, .jnum qy])
  | _ => .error ()

/-- One tone-curve array: keep points that are sequences of length `≥ 2`, and
clamp/truncate their first two coordinates. -/
def sanitizeCurve (tc : Entries) (key : String) : Except Unit Entries :=
  match jget tc key with
  | some (.jarr pts) => do
      let pts' ← (pts.filter keepPoint).mapM sanitizePoint
      pure (jset tc key (.jarr pts'))
  | _ => pure tc

/-- The `tone_curve` block over the `points`, `red`, `green`, `blue` arrays. -/
def sanitizeToneCurve (raw : Entries) : Except Unit Entries :=
  match jget raw "tone_curve" with
  | some (.jobj tc0) => do
      let tc1 ← sanitizeCurve tc0 "points"
      let tc2 ← sanitizeCurve tc1 "red"
      let tc3 ← sanitizeCurve tc2 "green"
      let tc4 ← sanitizeCurve tc3 "blue"
      pure (jset raw "tone_curve" (.jobj tc4))
  | _ => pure raw

/-- The first loop of `sanitize_ai_params`: apply every `_CLAMP_RULES` entry. -/
def rulesPass (raw : Entries) : Entries :=
  _CLAMP_RULES.foldl (fun acc rule => clampRule acc rule.1 rule.2.1 rule.2.2) raw

/-- Models `color_params.sanitize_ai_params`: clamp the `_CLAMP_RULES` paths, then
apply the `effects`, `hsl`, `split_toning` and `tone_curve` blocks in source
order.  `Except.error ()` marks the inputs on which the Python function
raises (a `float(...)` conversion or a `min`/`max` comparison failing). -/
def sanitize_ai_params (raw : Entries) : Except Unit Entries := do
  let r1 := rulesPass raw
  let r2 ← sanitizeEffects r1
  let r3 ← sanitizeHSL r2
  let r4 ← sanitizeSplitToning r3
  sanitizeToneCurve r4

/-! ### Association-list lemmas -/

theorem jget_jset_self (e : Entries) (k : String) (v : JVal) :
    jget (jset e k v) k = some v := by
  induction e with
  | nil => simp [jset, jget]
  | cons kv rest ih =>
      by_cases h : kv.1 = k
      · simp [jset, h, jget]
      · simp [jset, h, jget, ih]

theorem jget_jset_other (e : Entries) (k k' : String) (v : JVal) (h : k ≠ k') :
    jget (jset e k v) k' = jget e k' := by
  induction e with
  | nil => simp [jset, jget, h]
  | cons kv rest ih =>
      by_cases hk : kv.1 = k
      · simp [jset, hk, jget, h]
      · simp only [jset, if_neg hk]
        by_cases hk' : kv.1 = k'
        · simp [jget, hk']
        · simp [jget, hk', ih]

/-- Reading a nested field two dicts deep. -/
def getPath2 (raw : Entries) (a b : String) : Option JVal :=
  match jget raw a with
  | some (.jobj e) => jget e b
  | _ => none

/-- What one `_CLAMP_RULES` iteration does to the value at its own path. -/
def clampStep (lo hi : ℚ) (x : JVal) : JVal :=
  if pyIsNumber x then .jnum (_clamp (pyNumVal x) lo hi) else x

theorem getPath2_eq_jget (raw : Entries) (a b : String) (e : Entries)
    (h : jget raw a = some (.jobj e)) : getPath2 raw a b = jget e b := by
  simp [getPath2, h]

theorem clampPathE_single (e : Entries) (b : String) (lo hi : ℚ) :
    clampPathE e [b] lo hi =
      match jget e b with
      | some x => if pyIsNumber x then jset e b (.jnum (_clamp (pyNumVal x) lo hi)) else e
      | none => e := rfl

theorem jget_clampPathE_single (e : Entries) (b b' : String) (lo hi : ℚ) :
    jget (clampPathE e [b] lo hi) b' =
      if b' = b then (jget e b).map (clampStep lo hi) else jget e b' := by
  rw [clampPathE_single]
  by_cases hb : b' = b
  · subst hb
    cases hx : jget e b' with
    | none => simp [hx, clampStep]
    | some x =>
        by_cases hn : pyIsNumber x
        · simp [hx, hn, jget_jset_self, clampStep]
        · simp [hx, hn, clampStep]
  · cases hx : jget e b with
    | none => simp [hx, hb]
    | some x =>
        by_cases hn : pyIsNumber x
        · simp [hx, hn, jget_jset_other _ _ _ _ (fun he => hb he.symm), hb]
        · simp [hx, hn, hb]

theorem clampPathE_pair (raw : Entries) (a b : String) (lo hi : ℚ) :
    clampPathE raw [a, b] lo hi =
      match jget raw a with
      | some (.jobj inner) => jset raw a (.jobj (clampPathE inner [b] lo hi))
      | _ => raw := rfl

/-- Effect of one rule on the nested value at any 2-level path. -/
theorem getPath2_clampRule (raw : Entries) (dp u v a b : String) (lo hi : ℚ)
    (hsplit : pySplitDot dp = [u, v]) :
    getPath2 (clampRule raw dp lo hi) a b =
      if a = u ∧ b = v then (getPath2 raw a b).map (clampStep lo hi)
      else getPath2 raw a b := by
  unfold clampRule
  rw [hsplit, clampPathE_pair]
  cases hu : jget raw u with
  | none =>
      by_cases hab : a = u ∧ b = v
      · obtain ⟨ha, hb⟩ := hab; subst ha; subst hb
        simp [getPath2, hu]
      · simp [hab]
  | some x =>
      cases x with
      | jobj inner =>
          by_cases ha : a = u
          · subst ha
            have : jget (jset raw a (JVal.jobj (clampPathE inner [v] lo hi))) a =
                some (JVal.jobj (clampPathE inner [v] lo hi)) := jget_jset_self _ _ _
            by_cases hb : b = v
            · subst hb
              rw [getPath2_eq_jget _ _ _ _ this, getPath2_eq_jget _ _ _ _ hu,
                jget_clampPathE_single]
              simp
            · simp only [hb, and_false, if_false]
              rw [getPath2_eq_jget _ _ _ _ this, getPath2_eq_jget _ _ _ _ hu,
                jget_clampPathE_single, if_neg hb]
          · simp only [ha, false_and, if_false]
            unfold getPath2
            rw [jget_jset_other _ _ _ _ (fun he => ha he.symm)]
      | jnull => by_cases hab : a = u ∧ b = v
                 · obtain ⟨ha, hb⟩ := hab; subst ha; subst hb; simp [getPath2, hu]
                 · simp [hab]
      | jbool _ => by_cases hab : a = u ∧ b = v
                   · obtain ⟨ha, hb⟩ := hab; subst ha; subst hb; simp [getPath2, hu]
                   · simp [hab]
      | jnum _ => by_cases hab : a = u ∧ b = v
                  · obtain ⟨ha, hb⟩ := hab; subst ha; subst hb; simp [getPath2, hu]
                  · simp [hab]
      | jstr _ => by_cases hab : a = u ∧ b = v
                  · obtain ⟨ha, hb⟩ := hab; subst ha; subst hb; simp [getPath2, hu]
                  · simp [hab]
      | jarr _ => by_cases hab : a = u ∧ b = v
                  · obtain ⟨ha, hb⟩ := hab; subst ha; subst hb; simp [getPath2, hu]
                  · simp [hab]

/-- A rule does not change top-level keys other than the head of its path. -/
theorem jget_clampRule_other (raw : Entries) (dp u v k : String) (lo hi : ℚ)
    (hsplit : pySplitDot dp = [u, v]) (hk : k ≠ u) :
    jget (clampRule raw dp lo hi) k = jget raw k := by
  unfold clampRule
  rw [hsplit, clampPathE_pair]
  cases hu : jget raw u with
  | none => rfl
  | some x =>
      cases x <;> first
        | rfl
        | exact jget_jset_other _ _ _ _ (fun he => hk he.symm)

/-- Whether a top-level value is a dict. -/
def isObjO : Option JVal → Bool
  | some (.jobj _) => true
  | _ => false

theorem isObjO_jget_clampRule (raw : Entries) (dp u v k : String) (lo hi : ℚ)
    (hsplit : pySplitDot dp = [u, v]) :
    isObjO (jget (clampRule raw dp lo hi) k) = isObjO (jget raw k) := by
  by_cases hk : k = u
  · subst hk
    unfold clampRule
    rw [hsplit, clampPathE_pair]
    cases hu : jget raw k with
    | none => simp [hu]
    | some x =>
        cases x <;> simp [hu, isObjO, jget_jset_self]
  · rw [jget_clampRule_other raw dp u v k lo hi hsplit hk]

/-- Models `rulesPass` on an arbitrary rule list, pointwise on a 2-level path. -/
theorem getPath2_foldRules (rules : List (String × ℚ × ℚ)) (raw : Entries) (a b : String)
    (h2 : ∀ r ∈ rules, (pySplitDot r.1).length = 2) :
    getPath2 (rules.foldl (fun acc rule => clampRule acc rule.1 rule.2.1 rule.2.2) raw) a b =
      rules.foldl
        (fun o rule =>
          if pySplitDot rule.1 = [a, b] then o.map (clampStep rule.2.1 rule.2.2) else o)
        (getPath2 raw a b) := by
  induction rules generalizing raw with
  | nil => rfl
  | cons r rs ih =>
      have hr := h2 r (List.mem_cons_self r rs)
      obtain ⟨u, v, huv⟩ := List.length_eq_two.mp hr
      simp only [List.foldl_cons]
      rw [ih _ (fun r' hr' => h2 r' (List.mem_cons_of_mem r hr'))]
      rw [getPath2_clampRule raw r.1 u v a b r.2.1 r.2.2 huv]
      by_cases hab : a = u ∧ b = v
      · obtain ⟨ha, hb⟩ := hab; subst ha; subst hb
        rw [if_pos ⟨rfl, rfl⟩, if_pos huv]
      · rw [if_neg hab, if_neg]
        rw [huv]
        intro hcon
        obtain ⟨hu, hv⟩ := List.cons.injEq .. ▸ hcon
        exact hab ⟨hu.symm, (by injection hcon with h1 h2; injection h2 with h3; exact h3.symm)⟩

/-- Top-level keys that head no rule path are untouched by a rule list. -/
theorem jget_foldRules_other (rules : List (String × ℚ × ℚ)) (raw : Entries) (k : String)
    (h : ∀ r ∈ rules, ∃ u v, pySplitDot r.1 = [u, v] ∧ k ≠ u) :
    jget (rules.foldl (fun acc rule => clampRule acc rule.1 rule.2.1 rule.2.2) raw) k =
      jget raw k := by
  induction rules generalizing raw with
  | nil => rfl
  | cons r rs ih =>
      obtain ⟨u, v, huv, hk⟩ := h r (List.mem_cons_self r rs)
      simp only [List.foldl_cons]
      rw [ih _ (fun r' hr' => h r' (List.mem_cons_of_mem r hr'))]
      exact jget_clampRule_other raw r.1 u v k r.2.1 r.2.2 huv hk

/-- Dict-ness of every top-level value is preserved by a rule list. -/
theorem isObjO_jget_foldRules (rules : List (String × ℚ × ℚ)) (raw : Entries) (k : String)
    (h2 : ∀ r ∈ rules, (pySplitDot r.1).length = 2) :
    isObjO (jget (rules.foldl (fun acc rule => clampRule acc rule.1 rule.2.1 rule.2.2) raw) k) =
      isObjO (jget raw k) := by
  induction rules generalizing raw with
  | nil => rfl
  | cons r rs ih =>
      have hr := h2 r (List.mem_cons_self r rs)
      obtain ⟨u, v, huv⟩ := List.length_eq_two.mp hr
      simp only [List.foldl_cons]
      rw [ih _ (fun r' hr' => h2 r' (List.mem_cons_of_mem r hr'))]
      exact isObjO_jget_clampRule raw r.1 u v k r.2.1 r.2.2 huv

/-- The rules matching a given 2-level path. -/
def matchingRules (rules : List (String × ℚ × ℚ)) (a b : String) : List (String × ℚ × ℚ) :=
  rules.filter fun rule => pySplitDot rule.1 = [a, b]

theorem foldRules_cond_eq_matching (rules : List (String × ℚ × ℚ)) (a b : String)
    (o : Option JVal) :
    rules.foldl
        (fun o rule =>
          if pySplitDot rule.1 = [a, b] then o.map (clampStep rule.2.1 rule.2.2) else o) o =
      (matchingRules rules a b).foldl
        (fun o rule => o.map (clampStep rule.2.1 rule.2.2)) o := by
  induction rules generalizing o with
  | nil => rfl
  | cons r rs ih =>
      by_cases hr : pySplitDot r.1 = [a, b]
      · simp only [List.foldl_cons, if_pos hr, matchingRules, List.filter_cons,
          decide_eq_true hr]
        exact ih _
      · simp only [List.foldl_cons, if_neg hr, matchingRules, List.filter_cons]
        rw [decide_eq_false hr]
        exact ih _

/-! ### Lemmas about the sanitizer's fallible blocks -/

theorem exceptBind_ok {α β : Type} (x : Except Unit α) (f : α → Except Unit β) (b : β)
    (h : (x >>= f) = .ok b) : ∃ a, x = .ok a ∧ f a = .ok b := by
  cases x with
  | error e => simp [Bind.bind, Except.bind] at h
  | ok a => exact ⟨a, rfl, by simpa [Bind.bind, Except.bind] using h⟩

/-- Models `float(...)` succeeds on the value (or the key is absent). -/
def floatableOpt : Option JVal → Bool
  | some v => (pyFloat v).isOk
  | none => true

theorem clampField_ok (ch ch' : Entries) (key : String) (lo hi : ℚ)
    (h : clampField ch key lo hi = .ok ch') :
    (∀ k, k ≠ key → jget ch' k = jget ch k) ∧
    ((jget ch key = none ∧ ch' = ch) ∨
      ∃ q, jget ch' key = some (.jnum (_clamp q lo hi))) := by
  unfold clampField at h
  cases hv : jget ch key with
  | none =>
      rw [hv] at h
      have hch : ch' = ch := by simpa [pure, Except.pure] using h.symm
      subst hch
      exact ⟨fun _ _ => rfl, Or.inl ⟨rfl, rfl⟩⟩
  | some v =>
      rw [hv] at h
      obtain ⟨q, _, hpure⟩ := exceptBind_ok _ _ _ h
      have hch : ch' = jset ch key (.jnum (_clamp q lo hi)) := by
        simpa [pure, Except.pure] using hpure.symm
      subst hch
      refine ⟨fun k hk => jget_jset_other _ _ _ _ (fun he => hk he.symm), ?_⟩
      exact Or.inr ⟨q, jget_jset_self _ _ _⟩

theorem clampField_isOk (ch : Entries) (key : String) (lo hi : ℚ)
    (hf : floatableOpt (jget ch key) = true) :
    ∃ ch', clampField ch key lo hi = .ok ch' := by
  cases hv : jget ch key with
  | none =>
      refine ⟨ch, ?_⟩
      unfold clampField
      rw [hv]
      rfl
  | some v =>
      rw [hv] at hf
      simp only [floatableOpt] at hf
      cases hq : pyFloat v with
      | error e => rw [hq] at hf; simp [Except.isOk, Except.toBool] at hf
      | ok q =>
          refine ⟨jset ch key (.jnum (_clamp q lo hi)), ?_⟩
          unfold clampField
          rw [hv]
          show (pyFloat v >>= fun q => pure (jset ch key (JVal.jnum (_clamp q lo hi)))) = _
          rw [hq]
          rfl

theorem sanitizeEffects_not_obj (r : Entries) (h : isObjO (jget r "effects") = false) :
    sanitizeEffects r = .ok r := by
  unfold sanitizeEffects
  cases hv : jget r "effects" with
  | none => rfl
  | some x => cases x <;> first
      | rfl
      | (rw [hv] at h; simp [isObjO] at h)

theorem sanitizeEffects_ok_other (r r' : Entries) (k : String)
    (h : sanitizeEffects r = .ok r') (hk : k ≠ "effects") :
    jget r' k = jget r k := by
  unfold sanitizeEffects at h
  cases hv : jget r "effects" with
  | none => rw [hv] at h; cases h; rfl
  | some x =>
      cases x with
      | jobj e0 =>
          rw [hv] at h
          obtain ⟨e2, _, h2⟩ := exceptBind_ok _ _ _ h
          obtain ⟨e3, _, h3⟩ := exceptBind_ok _ _ _ h2
          have : r' = jset r "effects" (.jobj e3) := by
            simpa [pure, Except.pure] using h3.symm
          subst this
          exact jget_jset_other _ _ _ _ (fun he => hk he.symm)
      | jnull => rw [hv] at h; cases h; rfl
      | jbool _ => rw [hv] at h; cases h; rfl
      | jnum _ => rw [hv] at h; cases h; rfl
      | jstr _ => rw [hv] at h; cases h; rfl
      | jarr _ => rw [hv] at h; cases h; rfl

/-- The field at `o` is absent or holds a number clamped into `[lo, hi]`. -/
def FieldClamped (lo hi : ℚ) (o : Option JVal) : Prop :=
  o = none ∨ ∃ q, o = some (.jnum (_clamp q lo hi))

theorem sanitizeEffects_obj_ok (r r' : Entries) (e0 : Entries)
    (hj : jget r "effects" = some (.jobj e0))
    (h : sanitizeEffects r = .ok r') :
    ∃ e3, r' = jset r "effects" (.jobj e3) ∧
      jget e3 "grain" = some (.jnum 0) ∧
      (∀ k, k ≠ "grain" → k ≠ "clarity" → k ≠ "dehaze" → jget e3 k = jget e0 k) ∧
      ((jget e0 "clarity" = none ∧ jget e3 "clarity" = none) ∨
        ∃ q, jget e3 "clarity" = some (.jnum (_clamp q (-30) 30))) ∧
      ((jget e0 "dehaze" = none ∧ jget e3 "dehaze" = none) ∨
        ∃ q, jget e3 "dehaze" = some (.jnum (_clamp q (-20) 25))) := by
  unfold sanitizeEffects at h
  rw [hj] at h
  obtain ⟨e2, hcl, h2⟩ := exceptBind_ok _ _ _ h
  obtain ⟨e3, hdh, h3⟩ := exceptBind_ok _ _ _ h2
  have hr' : r' = jset r "effects" (.jobj e3) := by
    simpa [pure, Except.pure] using h3.symm
  obtain ⟨hclo, hclv⟩ := clampField_ok _ _ _ _ _ hcl
  obtain ⟨hdho, hdhv⟩ := clampField_ok _ _ _ _ _ hdh
  have hg1 : jget (jset e0 "grain" (JVal.jnum 0)) "grain" = some (.jnum 0) :=
    jget_jset_self _ _ _
  refine ⟨e3, hr', ?_, ?_, ?_, ?_⟩
  · rw [hdho "grain" (by decide), hclo "grain" (by decide), hg1]
  · intro k hkg hkc hkd
    rw [hdho k hkd, hclo k hkc, jget_jset_other _ _ _ _ (fun he => hkg he.symm)]
  · rcases hclv with ⟨hnone, he2⟩ | ⟨q, hq⟩
    · left
      constructor
      · rw [← jget_jset_other e0 "grain" "clarity" (JVal.jnum 0) (by decide)]
        exact hnone
      · rw [hdho "clarity" (by decide), he2, hnone]
    · right
      exact ⟨q, by rw [hdho "clarity" (by decide)]; exact hq⟩
  · rcases hdhv with ⟨hnone, he3eq⟩ | ⟨q, hq⟩
    · left
      constructor
      · rw [← jget_jset_other e0 "grain" "dehaze" (JVal.jnum 0) (by decide),
          ← hclo "dehaze" (by decide)]
        exact hnone
      · rw [he3eq]; exact hnone
    · exact Or.inr ⟨q, hq⟩

/-- Models `float(...)` succeeds on `clarity`/`dehaze` of a dict-valued `effects`. -/
def effectsFloatable : Option JVal → Bool
  | some (.jobj e) => floatableOpt (jget e "clarity") && floatableOpt (jget e "dehaze")
  | _ => true

theorem sanitizeEffects_isOk (r : Entries)
    (hsafe : effectsFloatable (jget r "effects") = true) :
    ∃ r', sanitizeEffects r = .ok r' := by
  unfold sanitizeEffects
  cases hv : jget r "effects" with
  | none => exact ⟨r, rfl⟩
  | some x =>
      cases x with
      | jobj e0 =>
          rw [hv] at hsafe
          simp only [effectsFloatable, Bool.and_eq_true] at hsafe
          obtain ⟨hc, hd⟩ := hsafe
          have hc1 : floatableOpt (jget (jset e0 "grain" (JVal.jnum 0)) "clarity") = true := by
            rw [jget_jset_other _ _ _ _ (by decide)]; exact hc
          obtain ⟨e2, he2⟩ := clampField_isOk _ "clarity" (-30) 30 hc1
          obtain ⟨hst, _⟩ := clampField_ok _ _ _ _ _ he2
          have hd2 : floatableOpt (jget e2 "dehaze") = true := by
            rw [hst "dehaze" (by decide), jget_jset_other _ _ _ _ (by decide)]
            exact hd
          obtain ⟨e3, he3⟩ := clampField_isOk _ "dehaze" (-20) 25 hd2
          refine ⟨jset r "effects" (.jobj e3), ?_⟩
          show (clampField (jset e0 "grain" (JVal.jnum 0)) "clarity" (-30) 30 >>= fun e2 =>
            clampField e2 "dehaze" (-20) 25 >>= fun e3 =>
              pure (jset r "effects" (JVal.jobj e3))) = _
          rw [he2]
          show (clampField e2 "dehaze" (-20) 25 >>= fun e3 =>
            pure (jset r "effects" (JVal.jobj e3))) = _
          rw [he3]
          rfl
      | jnull => exact ⟨r, rfl⟩
      | jbool _ => exact ⟨r, rfl⟩
      | jnum _ => exact ⟨r, rfl⟩
      | jstr _ => exact ⟨r, rfl⟩
      | jarr _ => exact ⟨r, rfl⟩

/-! ### Split-toning zone lemmas -/

/-- Models `float(...)` succeeds on `hue` and `saturation` of a dict-valued zone. -/
def zoneFloatable : Option JVal → Bool
  | some (.jobj c) => floatableOpt (jget c "hue") && floatableOpt (jget c "saturation")
  | _ => true

/-- Any dict sitting at the zone key has clamped `hue` / `saturation`. -/
def ZoneOK (st : Entries) (key : String) : Prop :=
  ∀ ch, jget st key = some (.jobj ch) →
    FieldClamped 0 360 (jget ch "hue") ∧ FieldClamped 0 100 (jget ch "saturation")

theorem sanitizeZone_ok (st st' : Entries) (key : String)
    (h : sanitizeZone st key = .ok st') :
    (∀ k, k ≠ key → jget st' k = jget st k) ∧ ZoneOK st' key := by
  unfold sanitizeZone at h
  cases hv : jget st key with
  | none =>
      rw [hv] at h
      cases h
      exact ⟨fun _ _ => rfl, fun ch hch => by rw [hv] at hch; cases hch⟩
  | some x =>
      cases x with
      | jobj ch0 =>
          rw [hv] at h
          obtain ⟨c1, hc1, h1⟩ := exceptBind_ok _ _ _ h
          obtain ⟨c2, hc2, h2⟩ := exceptBind_ok _ _ _ h1
          have hst' : st' = jset st key (.jobj c2) := by
            simpa [pure, Except.pure] using h2.symm
          subst hst'
          obtain ⟨hs1, hv1⟩ := clampField_ok _ _ _ _ _ hc1
          obtain ⟨hs2, hv2⟩ := clampField_ok _ _ _ _ _ hc2
          refine ⟨fun k hk => jget_jset_other _ _ _ _ (fun he => hk he.symm), ?_⟩
          intro ch hch
          rw [jget_jset_self] at hch
          injection hch with hch
          injection hch with hch
          subst hch
          constructor
          · rcases hv1 with ⟨hn, hc1e⟩ | ⟨q, hq⟩
            · left; rw [hs2 "hue" (by decide), hc1e]; exact hn
            · right; exact ⟨q, by rw [hs2 "hue" (by decide)]; exact hq⟩
          · rcases hv2 with ⟨hn, hc2e⟩ | ⟨q, hq⟩
            · left; rw [hc2e]; exact hn
            · right; exact ⟨q, hq⟩
      | jnull => rw [hv] at h; cases h
                 exact ⟨fun _ _ => rfl, fun ch hch => by rw [hv] at hch; cases hch⟩
      | jbool _ => rw [hv] at h; cases h
                   exact ⟨fun _ _ => rfl, fun ch hch => by rw [hv] at hch; cases hch⟩
      | jnum _ => rw [hv] at h; cases h
                  exact ⟨fun _ _ => rfl, fun ch hch => by rw [hv] at hch; cases hch⟩
      | jstr _ => rw [hv] at h; cases h
                  exact ⟨fun _ _ => rfl, fun ch hch => by rw [hv] at hch; cases hch⟩
      | jarr _ => rw [hv] at h; cases h
                  exact ⟨fun _ _ => rfl, fun ch hch => by rw [hv] at hch; cases hch⟩

theorem sanitizeZone_isOk (st : Entries) (key : String)
    (hsafe : zoneFloatable (jget st key) = true) :
    ∃ st', sanitizeZone st key = .ok st' := by
  cases hv : jget st key with
  | none => exact ⟨st, by unfold sanitizeZone; rw [hv]; rfl⟩
  | some x =>
      cases x with
      | jobj ch0 =>
          rw [hv] at hsafe
          simp only [zoneFloatable, Bool.and_eq_true] at hsafe
          obtain ⟨c1, hc1⟩ := clampField_isOk ch0 "hue" 0 360 hsafe.1
          obtain ⟨hs1, _⟩ := clampField_ok _ _ _ _ _ hc1
          have hsat : floatableOpt (jget c1 "saturation") = true := by
            rw [hs1 "saturation" (by decide)]; exact hsafe.2
          obtain ⟨c2, hc2⟩ := clampField_isOk c1 "saturation" 0 100 hsat
          refine ⟨jset st key (.jobj c2), ?_⟩
          unfold sanitizeZone
          rw [hv]
          show (clampField ch0 "hue" 0 360 >>= fun c1 =>
            clampField c1 "saturation" 0 100 >>= fun c2 =>
              pure (jset st key (JVal.jobj c2))) = _
          rw [hc1]
          show (clampField c1 "saturation" 0 100 >>= fun c2 =>
            pure (jset st key (JVal.jobj c2))) = _
          rw [hc2]
          rfl
      | jnull => exact ⟨st, by unfold sanitizeZone; rw [hv]; rfl⟩
      | jbool _ => exact ⟨st, by unfold sanitizeZone; rw [hv]; rfl⟩
      | jnum _ => exact ⟨st, by unfold sanitizeZone; rw [hv]; rfl⟩
      | jstr _ => exact ⟨st, by unfold sanitizeZone; rw [hv]; rfl⟩
      | jarr _ => exact ⟨st, by unfold sanitizeZone; rw [hv]; rfl⟩

theorem sanitizeSplitToning_ok_other (r r' : Entries) (k : String)
    (h : sanitizeSplitToning r = .ok r') (hk : k ≠ "split_toning") :
    jget r' k = jget r k := by
  unfold sanitizeSplitToning at h
  cases hv : jget r "split_toning" with
  | none => rw [hv] at h; cases h; rfl
  | some x =>
      cases x with
      | jobj st0 =>
          rw [hv] at h
          obtain ⟨st1, _, h1⟩ := exceptBind_ok _ _ _ h
          obtain ⟨st2, _, h2⟩ := exceptBind_ok _ _ _ h1
          obtain ⟨st3, _, h3⟩ := exceptBind_ok _ _ _ h2
          have : r' = jset r "split_toning" (.jobj st3) := by
            simpa [pure, Except.pure] using h3.symm
          subst this
          exact jget_jset_other _ _ _ _ (fun he => hk he.symm)
      | jnull => rw [hv] at h; cases h; rfl
      | jbool _ => rw [hv] at h; cases h; rfl
      | jnum _ => rw [hv] at h; cases h; rfl
      | jstr _ => rw [hv] at h; cases h; rfl
      | jarr _ => rw [hv] at h; cases h; rfl

theorem sanitizeSplitToning_obj_ok (r r' : Entries) (st0 : Entries)
    (hj : jget r "split_toning" = some (.jobj st0))
    (h : sanitizeSplitToning r = .ok r') :
    ∃ st3, r' = jset r "split_toning" (.jobj st3) ∧
      (∀ k, k ≠ "highlights" → k ≠ "midtones" → k ≠ "shadows" →
        jget st3 k = jget st0 k) ∧
      ZoneOK st3 "highlights" ∧ ZoneOK st3 "midtones" ∧ ZoneOK st3 "shadows" := by
  unfold sanitizeSplitToning at h
  rw [hj] at h
  obtain ⟨st1, hz1, h1⟩ := exceptBind_ok _ _ _ h
  obtain ⟨st2, hz2, h2⟩ := exceptBind_ok _ _ _ h1
  obtain ⟨st3, hz3, h3⟩ := exceptBind_ok _ _ _ h2
  have hr' : r' = jset r "split_toning" (.jobj st3) := by
    simpa [pure, Except.pure] using h3.symm
  obtain ⟨ho1, hp1⟩ := sanitizeZone_ok _ _ _ hz1
  obtain ⟨ho2, hp2⟩ := sanitizeZone_ok _ _ _ hz2
  obtain ⟨ho3, hp3⟩ := sanitizeZone_ok _ _ _ hz3
  refine ⟨st3, hr', ?_, ?_, ?_, hp3⟩
  · intro k hk1 hk2 hk3
    rw [ho3 k hk3, ho2 k hk2, ho1 k hk1]
  · intro ch hch
    rw [ho3 "highlights" (by decide), ho2 "highlights" (by decide)] at hch
    exact hp1 ch hch
  · intro ch hch
    rw [ho3 "midtones" (by decide)] at hch
    exact hp2 ch hch

/-- Models `float(...)` succeeds in all three zones of a dict-valued `split_toning`. -/
def stFloatable : Option JVal → Bool
  | some (.jobj st) => zoneFloatable (jget st "highlights") &&
      zoneFloatable (jget st "midtones") && zoneFloatable (jget st "shadows")
  | _ => true

theorem sanitizeSplitToning_isOk (r : Entries)
    (hsafe : stFloatable (jget r "split_toning") = true) :
    ∃ r', sanitizeSplitToning r = .ok r' := by
  cases hv : jget r "split_toning" with
  | none => exact ⟨r, by unfold sanitizeSplitToning; rw [hv]; rfl⟩
  | some x =>
      cases x with
      | jobj st0 =>
          rw [hv] at hsafe
          simp only [stFloatable, Bool.and_eq_true] at hsafe
          obtain ⟨⟨hh, hm⟩, hs⟩ := hsafe
          obtain ⟨st1, hz1⟩ := sanitizeZone_isOk st0 "highlights" hh
          obtain ⟨ho1, _⟩ := sanitizeZone_ok _ _ _ hz1
          obtain ⟨st2, hz2⟩ := sanitizeZone_isOk st1 "midtones"
            (by rw [ho1 "midtones" (by decide)]; exact hm)
          obtain ⟨ho2, _⟩ := sanitizeZone_ok _ _ _ hz2
          obtain ⟨st3, hz3⟩ := sanitizeZone_isOk st2 "shadows"
            (by rw [ho2 "shadows" (by decide), ho1 "shadows" (by decide)]; exact hs)
          refine ⟨jset r "split_toning" (.jobj st3), ?_⟩
          unfold sanitizeSplitToning
          rw [hv]
          show (sanitizeZone st0 "highlights" >>= fun st1 =>
            sanitizeZone st1 "midtones" >>= fun st2 =>
              sanitizeZone st2 "shadows" >>= fun st3 =>
                pure (jset r "split_toning" (JVal.jobj st3))) = _
          rw [hz1]
          show (sanitizeZone st1 "midtones" >>= fun st2 =>
            sanitizeZone st2 "shadows" >>= fun st3 =>
              pure (jset r "split_toning" (JVal.jobj st3))) = _
          rw [hz2]
          show (sanitizeZone st2 "shadows" >>= fun st3 =>
            pure (jset r "split_toning" (JVal.jobj st3))) = _
          rw [hz3]
          rfl
      | jnull => exact ⟨r, by unfold sanitizeSplitToning; rw [hv]; rfl⟩
      | jbool _ => exact ⟨r, by unfold sanitizeSplitToning; rw [hv]; rfl⟩
      | jnum _ => exact ⟨r, by unfold sanitizeSplitToning; rw [hv]; rfl⟩
      | jstr _ => exact ⟨r, by unfold sanitizeSplitToning; rw [hv]; rfl⟩
      | jarr _ => exact ⟨r, by unfold sanitizeSplitToning; rw [hv]; rfl⟩

/-! ### HSL block lemmas -/

/-- Models `float(...)` succeeds on the three fields of a dict-valued channel. -/
def channelFloatable : JVal → Bool
  | .jobj c => floatableOpt (jget c "hue") && floatableOpt (jget c "saturation") &&
      floatableOpt (jget c "luminance")
  | _ => true

/-- A sanitized HSL channel dict: all three fields absent or clamped. -/
def ChannelOK (c : Entries) : Prop :=
  FieldClamped (-180) 180 (jget c "hue") ∧
  FieldClamped (-100) 100 (jget c "saturation") ∧
  FieldClamped (-100) 100 (jget c "luminance")

theorem sanitizeChannel_ok (kv kv' : String × JVal) (h : sanitizeChannel kv = .ok kv') :
    kv'.1 = kv.1 ∧ ∀ c', kv'.2 = .jobj c' → ChannelOK c' := by
  unfold sanitizeChannel at h
  cases hv : kv.2 with
  | jobj ch =>
      rw [hv] at h
      obtain ⟨c1, hc1, h1⟩ := exceptBind_ok _ _ _ h
      obtain ⟨c2, hc2, h2⟩ := exceptBind_ok _ _ _ h1
      obtain ⟨c3, hc3, h3⟩ := exceptBind_ok _ _ _ h2
      have hkv' : kv' = (kv.1, JVal.jobj c3) := by
        simpa [pure, Except.pure] using h3.symm
      subst hkv'
      obtain ⟨hs1, hv1⟩ := clampField_ok _ _ _ _ _ hc1
      obtain ⟨hs2, hv2⟩ := clampField_ok _ _ _ _ _ hc2
      obtain ⟨hs3, hv3⟩ := clampField_ok _ _ _ _ _ hc3
      refine ⟨rfl, fun c' hc' => ?_⟩
      injection hc' with hc'
      subst hc'
      refine ⟨?_, ?_, ?_⟩
      · rcases hv1 with ⟨hn, he⟩ | ⟨q, hq⟩
        · left
          rw [hs3 "hue" (by decide), hs2 "hue" (by decide), he]
          exact hn
        · right
          exact ⟨q, by rw [hs3 "hue" (by decide), hs2 "hue" (by decide)]; exact hq⟩
      · rcases hv2 with ⟨hn, he⟩ | ⟨q, hq⟩
        · left
          rw [hs3 "saturation" (by decide), he]
          exact hn
        · right
          exact ⟨q, by rw [hs3 "saturation" (by decide)]; exact hq⟩
      · rcases hv3 with ⟨hn, he⟩ | ⟨q, hq⟩
        · left; rw [he]; exact hn
        · right; exact ⟨q, hq⟩
  | jnull =>
      rw [hv] at h; cases h
      exact ⟨rfl, fun c' hc' => by rw [hv] at hc'; cases hc'⟩
  | jbool b =>
      rw [hv] at h; cases h
      exact ⟨rfl, fun c' hc' => by rw [hv] at hc'; cases hc'⟩
  | jnum q =>
      rw [hv] at h; cases h
      exact ⟨rfl, fun c' hc' => by rw [hv] at hc'; cases hc'⟩
  | jstr s =>
      rw [hv] at h; cases h
      exact ⟨rfl, fun c' hc' => by rw [hv] at hc'; cases hc'⟩
  | jarr xs =>
      rw [hv] at h; cases h
      exact ⟨rfl, fun c' hc' => by rw [hv] at hc'; cases hc'⟩

theorem sanitizeChannel_isOk (kv : String × JVal)
    (hsafe : channelFloatable kv.2 = true) :
    ∃ kv', sanitizeChannel kv = .ok kv' := by
  cases hv : kv.2 with
  | jobj ch =>
      rw [hv] at hsafe
      simp only [channelFloatable, Bool.and_eq_true] at hsafe
      obtain ⟨⟨hh, hs⟩, hl⟩ := hsafe
      obtain ⟨c1, hc1⟩ := clampField_isOk ch "hue" (-180) 180 hh
      obtain ⟨ho1, _⟩ := clampField_ok _ _ _ _ _ hc1
      obtain ⟨c2, hc2⟩ := clampField_isOk c1 "saturation" (-100) 100
        (by rw [ho1 "saturation" (by decide)]; exact hs)
      obtain ⟨ho2, _⟩ := clampField_ok _ _ _ _ _ hc2
      obtain ⟨c3, hc3⟩ := clampField_isOk c2 "luminance" (-100) 100
        (by rw [ho2 "luminance" (by decide), ho1 "luminance" (by decide)]; exact hl)
      refine ⟨(kv.1, .jobj c3), ?_⟩
      unfold sanitizeChannel
      rw [hv]
      show (clampField ch "hue" (-180) 180 >>= fun c1 =>
        clampField c1 "saturation" (-100) 100 >>= fun c2 =>
          clampField c2 "luminance" (-100) 100 >>= fun c3 =>
            pure (kv.1, JVal.jobj c3)) = _
      rw [hc1]
      show (clampField c1 "saturation" (-100) 100 >>= fun c2 =>
        clampField c2 "luminance" (-100) 100 >>= fun c3 =>
          pure (kv.1, JVal.jobj c3)) = _
      rw [hc2]
      show (clampField c2 "luminance" (-100) 100 >>= fun c3 =>
        pure (kv.1, JVal.jobj c3)) = _
      rw [hc3]
      rfl
  | jnull => exact ⟨kv, by unfold sanitizeChannel; rw [hv]; rfl⟩
  | jbool b => exact ⟨kv, by unfold sanitizeChannel; rw [hv]; rfl⟩
  | jnum q => exact ⟨kv, by unfold sanitizeChannel; rw [hv]; rfl⟩
  | jstr s => exact ⟨kv, by unfold sanitizeChannel; rw [hv]; rfl⟩
  | jarr xs => exact ⟨kv, by unfold sanitizeChannel; rw [hv]; rfl⟩

theorem mapM_sanitizeChannel_ok (hs hs' : Entries)
    (h : hs.mapM sanitizeChannel = .ok hs') :
    ∀ name c', jget hs' name = some (.jobj c') → ChannelOK c' := by
  induction hs generalizing hs' with
  | nil =>
      rw [List.mapM_nil] at h
      cases h
      intro name c' hc'
      cases hc'
  | cons kv rest ih =>
      rw [List.mapM_cons] at h
      obtain ⟨kv', hkv, h1⟩ := exceptBind_ok _ _ _ h
      obtain ⟨rest', hrest, h2⟩ := exceptBind_ok _ _ _ h1
      have hhs' : hs' = kv' :: rest' := by
        simpa [pure, Except.pure] using h2.symm
      subst hhs'
      intro name c' hc'
      obtain ⟨hfst, hpost⟩ := sanitizeChannel_ok _ _ hkv
      unfold jget at hc'
      by_cases hn : kv'.1 = name
      · rw [if_pos hn] at hc'
        injection hc' with hc'
        exact hpost c' hc'
      · rw [if_neg hn] at hc'
        exact ih rest' hrest name c' hc'

theorem mapM_sanitizeChannel_isOk (hs : Entries)
    (hsafe : hs.all (fun kv => channelFloatable kv.2) = true) :
    ∃ hs', hs.mapM sanitizeChannel = .ok hs' := by
  induction hs with
  | nil => exact ⟨[], rfl⟩
  | cons kv rest ih =>
      rw [List.all_cons, Bool.and_eq_true] at hsafe
      obtain ⟨kv', hkv⟩ := sanitizeChannel_isOk kv hsafe.1
      obtain ⟨rest', hrest⟩ := ih hsafe.2
      refine ⟨kv' :: rest', ?_⟩
      rw [List.mapM_cons, hkv]
      show (rest.mapM sanitizeChannel >>= fun rest' => pure (kv' :: rest')) = _
      rw [hrest]
      rfl

theorem sanitizeHSL_ok_other (r r' : Entries) (k : String)
    (h : sanitizeHSL r = .ok r') (hk : k ≠ "hsl") :
    jget r' k = jget r k := by
  unfold sanitizeHSL at h
  cases hv : jget r "hsl" with
  | none => rw [hv] at h; cases h; rfl
  | some x =>
      cases x with
      | jobj hs =>
          rw [hv] at h
          obtain ⟨hs', _, h1⟩ := exceptBind_ok _ _ _ h
          have : r' = jset r "hsl" (.jobj hs') := by
            simpa [pure, Except.pure] using h1.symm
          subst this
          exact jget_jset_other _ _ _ _ (fun he => hk he.symm)
      | jnull => rw [hv] at h; cases h; rfl
      | jbool _ => rw [hv] at h; cases h; rfl
      | jnum _ => rw [hv] at h; cases h; rfl
      | jstr _ => rw [hv] at h; cases h; rfl
      | jarr _ => rw [hv] at h; cases h; rfl

theorem sanitizeHSL_obj_ok (r r' : Entries) (hs : Entries)
    (hj : jget r "hsl" = some (.jobj hs))
    (h : sanitizeHSL r = .ok r') :
    ∃ hs', r' = jset r "hsl" (.jobj hs') ∧
      ∀ name c', jget hs' name = some (.jobj c') → ChannelOK c' := by
  unfold sanitizeHSL at h
  rw [hj] at h
  obtain ⟨hs', hmap, h1⟩ := exceptBind_ok _ _ _ h
  have : r' = jset r "hsl" (.jobj hs') := by
    simpa [pure, Except.pure] using h1.symm
  exact ⟨hs', this, mapM_sanitizeChannel_ok _ _ hmap⟩

/-- Models `float(...)` succeeds on every channel of a dict-valued `hsl`. -/
def hslFloatable : Option JVal → Bool
  | some (.jobj hs) => hs.all fun kv => channelFloatable kv.2
  | _ => true

theorem sanitizeHSL_isOk (r : Entries)
    (hsafe : hslFloatable (jget r "hsl") = true) :
    ∃ r', sanitizeHSL r = .ok r' := by
  cases hv : jget r "hsl" with
  | none => exact ⟨r, by unfold sanitizeHSL; rw [hv]; rfl⟩
  | some x =>
      cases x with
      | jobj hs =>
          rw [hv] at hsafe
          simp only [hslFloatable] at hsafe
          obtain ⟨hs', hmap⟩ := mapM_sanitizeChannel_isOk hs hsafe
          refine ⟨jset r "hsl" (.jobj hs'), ?_⟩
          unfold sanitizeHSL
          rw [hv]
          show (hs.mapM sanitizeChannel >>= fun hs' =>
            pure (jset r "hsl" (JVal.jobj hs'))) = _
          rw [hmap]
          rfl
      | jnull => exact ⟨r, by unfold sanitizeHSL; rw [hv]; rfl⟩
      | jbool _ => exact ⟨r, by unfold sanitizeHSL; rw [hv]; rfl⟩
      | jnum _ => exact ⟨r, by unfold sanitizeHSL; rw [hv]; rfl⟩
      | jstr _ => exact ⟨r, by unfold sanitizeHSL; rw [hv]; rfl⟩
      | jarr _ => exact ⟨r, by unfold sanitizeHSL; rw [hv]; rfl⟩

/-! ### Tone-curve block lemmas -/

/-- A point the comprehension keeps does not make `min`/`max` raise. -/
def SafePoint : JVal → Bool
  | .jarr (x :: y :: _) => pyIsNumber x && pyIsNumber y
  | _ => true

/-- The value a tone-curve point contributes after sanitization (`none` =
dropped): kept iff it is a sequence of length `≥ 2` with comparable (numeric)
first two coordinates, which are clamped to `[0, 255]` and truncated. -/
def sanitizePointSpec : JVal → Option JVal
  | .jarr (x :: y :: _) =>
      if pyIsNumber x && pyIsNumber y then
        some (.jarr [.jnum (⌊_clamp (pyNumVal x) 0 255⌋ : ℤ),
          .jnum (⌊_clamp (pyNumVal y) 0 255⌋ : ℤ)])
      else none
  | _ => none

/-- Models `float(...)`-comparability of every kept point in a curve array. -/
def curveSafe : Option JVal → Bool
  | some (.jarr pts) => pts.all SafePoint
  | _ => true

theorem sanitizePoint_ok_spec (p v : JVal) (h : sanitizePoint p = .ok v) :
    sanitizePointSpec p = some v := by
  unfold sanitizePoint at h
  cases p with
  | jarr xs =>
      match xs, h with
      | x :: y :: rest, h =>
          obtain ⟨qx, hx, h1⟩ := exceptBind_ok _ _ _ h
          obtain ⟨qy, hy, h2⟩ := exceptBind_ok _ _ _ h1
          unfold clampCoord at hx hy
          by_cases hnx : pyIsNumber x
          · by_cases hny : pyIsNumber y
            · rw [if_pos hnx] at hx
              rw [if_pos hny] at hy
              injection hx with hx
              injection hy with hy
              have hv : v = .jarr [.jnum qx, .jnum qy] := by
                simpa [pure, Except.pure] using h2.symm
              subst hv
              have hcond : (pyIsNumber x && pyIsNumber y) = true := by
                rw [hnx, hny]; rfl
              show (if (pyIsNumber x && pyIsNumber y) = true then
                  some (JVal.jarr [.jnum ((⌊_clamp (pyNumVal x) 0 255⌋ : ℤ) : ℚ),
                    .jnum ((⌊_clamp (pyNumVal y) 0 255⌋ : ℤ) : ℚ)])
                else none) = _
              rw [if_pos hcond, hx, hy]
            · rw [if_neg hny] at hy; cases hy
          · rw [if_neg hnx] at hx; cases hx
      | [x], h => cases h
      | [], h => cases h
  | jnull => cases h
  | jbool _ => cases h
  | jnum _ => cases h
  | jstr _ => cases h
  | jobj _ => cases h

theorem sanitizePoint_isOk (p : JVal) (hkeep : keepPoint p = true)
    (hsafe : SafePoint p = true) : ∃ v, sanitizePoint p = .ok v := by
  cases p with
  | jarr xs =>
      match xs, hkeep, hsafe with
      | x :: y :: rest, _, hsafe =>
          simp only [SafePoint, Bool.and_eq_true] at hsafe
          have hx : clampCoord x = .ok ((⌊_clamp (pyNumVal x) 0 255⌋ : ℤ) : ℚ) := by
            simp [clampCoord, hsafe.1]
          have hy : clampCoord y = .ok ((⌊_clamp (pyNumVal y) 0 255⌋ : ℤ) : ℚ) := by
            simp [clampCoord, hsafe.2]
          refine ⟨.jarr [.jnum ((⌊_clamp (pyNumVal x) 0 255⌋ : ℤ) : ℚ),
            .jnum ((⌊_clamp (pyNumVal y) 0 255⌋ : ℤ) : ℚ)], ?_⟩
          show (clampCoord x >>= fun qx => clampCoord y >>= fun qy =>
            pure (JVal.jarr [.jnum qx, .jnum qy])) = _
          rw [hx]
          show (clampCoord y >>= fun qy =>
            pure (JVal.jarr [.jnum ((⌊_clamp (pyNumVal x) 0 255⌋ : ℤ) : ℚ), .jnum qy])) = _
          rw [hy]
          rfl
      | [x], hkeep, _ => simp [keepPoint] at hkeep
      | [], hkeep, _ => simp [keepPoint] at hkeep
  | jnull => simp [keepPoint] at hkeep
  | jbool _ => simp [keepPoint] at hkeep
  | jnum _ => simp [keepPoint] at hkeep
  | jstr _ => simp [keepPoint] at hkeep
  | jobj _ => simp [keepPoint] at hkeep

theorem mapM_points_ok (pts : List JVal) (l : List JVal)
    (h : (pts.filter keepPoint).mapM sanitizePoint = .ok l) :
    l = pts.filterMap sanitizePointSpec := by
  induction pts generalizing l with
  | nil =>
      rw [List.filter_nil, List.mapM_nil] at h
      cases h
      rfl
  | cons p rest ih =>
      rw [List.filter_cons] at h
      by_cases hk : keepPoint p
      · rw [if_pos (by simpa using hk)] at h
        rw [List.mapM_cons] at h
        obtain ⟨v, hv, h1⟩ := exceptBind_ok _ _ _ h
        obtain ⟨rest', hrest, h2⟩ := exceptBind_ok _ _ _ h1
        have hl : l = v :: rest' := by
          simpa [pure, Except.pure] using h2.symm
        subst hl
        rw [List.filterMap_cons, sanitizePoint_ok_spec p v hv, ih rest' hrest]
      · rw [if_neg (by simpa using hk)] at h
        rw [List.filterMap_cons]
        have hspec : sanitizePointSpec p = none := by
          cases p with
          | jarr xs =>
              cases xs with
              | nil => rfl
              | cons x xs' =>
                  cases xs' with
                  | nil => rfl
                  | cons y rest2 =>
                      exact absurd (by simp [keepPoint] : keepPoint (.jarr (x :: y :: rest2)) = true) hk
          | jnull => rfl
          | jbool _ => rfl
          | jnum _ => rfl
          | jstr _ => rfl
          | jobj _ => rfl
        rw [hspec]
        exact ih l h

theorem mapM_points_isOk (pts : List JVal) (hsafe : pts.all SafePoint = true) :
    ∃ l, (pts.filter keepPoint).mapM sanitizePoint = .ok l := by
  induction pts with
  | nil => exact ⟨[], rfl⟩
  | cons p rest ih =>
      rw [List.all_cons, Bool.and_eq_true] at hsafe
      obtain ⟨l, hl⟩ := ih hsafe.2
      rw [List.filter_cons]
      by_cases hk : keepPoint p
      · rw [if_pos (by simpa using hk)]
        obtain ⟨v, hv⟩ := sanitizePoint_isOk p hk hsafe.1
        refine ⟨v :: l, ?_⟩
        rw [List.mapM_cons, hv]
        show ((List.filter keepPoint rest).mapM sanitizePoint >>= fun l =>
          pure (v :: l)) = _
        rw [hl]
        rfl
      · rw [if_neg (by simpa using hk)]
        exact ⟨l, hl⟩

theorem sanitizeCurve_ok (tc tc' : Entries) (key : String)
    (h : sanitizeCurve tc key = .ok tc') :
    (∀ k, k ≠ key → jget tc' k = jget tc k) ∧
    (∀ pts, jget tc key = some (.jarr pts) →
      jget tc' key = some (.jarr (pts.filterMap sanitizePointSpec))) := by
  unfold sanitizeCurve at h
  cases hv : jget tc key with
  | none =>
      rw [hv] at h; cases h
      exact ⟨fun _ _ => rfl, fun pts hpts => by simp at hpts⟩
  | some x =>
      cases x with
      | jarr pts =>
          rw [hv] at h
          obtain ⟨l, hl, h1⟩ := exceptBind_ok _ _ _ h
          have htc' : tc' = jset tc key (.jarr l) := by
            simpa [pure, Except.pure] using h1.symm
          subst htc'
          refine ⟨fun k hk => jget_jset_other _ _ _ _ (fun he => hk he.symm), ?_⟩
          intro pts' hpts'
          injection hpts' with hpts'
          injection hpts' with hpts'
          subst hpts'
          rw [jget_jset_self, mapM_points_ok _ _ hl]
      | jnull => rw [hv] at h; cases h
                 exact ⟨fun _ _ => rfl, fun pts hpts => by simp at hpts⟩
      | jbool _ => rw [hv] at h; cases h
                   exact ⟨fun _ _ => rfl, fun pts hpts => by simp at hpts⟩
      | jnum _ => rw [hv] at h; cases h
                  exact ⟨fun _ _ => rfl, fun pts hpts => by simp at hpts⟩
      | jstr _ => rw [hv] at h; cases h
                  exact ⟨fun _ _ => rfl, fun pts hpts => by simp at hpts⟩
      | jobj _ => rw [hv] at h; cases h
                  exact ⟨fun _ _ => rfl, fun pts hpts => by simp at hpts⟩

theorem sanitizeCurve_isOk (tc : Entries) (key : String)
    (hsafe : curveSafe (jget tc key) = true) :
    ∃ tc', sanitizeCurve tc key = .ok tc' := by
  cases hv : jget tc key with
  | none => exact ⟨tc, by unfold sanitizeCurve; rw [hv]; rfl⟩
  | some x =>
      cases x with
      | jarr pts =>
          rw [hv] at hsafe
          obtain ⟨l, hl⟩ := mapM_points_isOk pts (by simpa [curveSafe] using hsafe)
          refine ⟨jset tc key (.jarr l), ?_⟩
          unfold sanitizeCurve
          rw [hv]
          show ((pts.filter keepPoint).mapM sanitizePoint >>= fun l =>
            pure (jset tc key (JVal.jarr l))) = _
          rw [hl]
          rfl
      | jnull => exact ⟨tc, by unfold sanitizeCurve; rw [hv]; rfl⟩
      | jbool _ => exact ⟨tc, by unfold sanitizeCurve; rw [hv]; rfl⟩
      | jnum _ => exact ⟨tc, by unfold sanitizeCurve; rw [hv]; rfl⟩
      | jstr _ => exact ⟨tc, by unfold sanitizeCurve; rw [hv]; rfl⟩
      | jobj _ => exact ⟨tc, by unfold sanitizeCurve; rw [hv]; rfl⟩

theorem sanitizeToneCurve_ok_other (r r' : Entries) (k : String)
    (h : sanitizeToneCurve r = .ok r') (hk : k ≠ "tone_curve") :
    jget r' k = jget r k := by
  unfold sanitizeToneCurve at h
  cases hv : jget r "tone_curve" with
  | none => rw [hv] at h; cases h; rfl
  | some x =>
      cases x with
      | jobj tc0 =>
          rw [hv] at h
          obtain ⟨tc1, _, h1⟩ := exceptBind_ok _ _ _ h
          obtain ⟨tc2, _, h2⟩ := exceptBind_ok _ _ _ h1
          obtain ⟨tc3, _, h3⟩ := exceptBind_ok _ _ _ h2
          obtain ⟨tc4, _, h4⟩ := exceptBind_ok _ _ _ h3
          have : r' = jset r "tone_curve" (.jobj tc4) := by
            simpa [pure, Except.pure] using h4.symm
          subst this
          exact jget_jset_other _ _ _ _ (fun he => hk he.symm)
      | jnull => rw [hv] at h; cases h; rfl
      | jbool _ => rw [hv] at h; cases h; rfl
      | jnum _ => rw [hv] at h; cases h; rfl
      | jstr _ => rw [hv] at h; cases h; rfl
      | jarr _ => rw [hv] at h; cases h; rfl

theorem sanitizeToneCurve_obj_ok (r r' : Entries) (tc0 : Entries)
    (hj : jget r "tone_curve" = some (.jobj tc0))
    (h : sanitizeToneCurve r = .ok r') :
    ∃ tc4, r' = jset r "tone_curve" (.jobj tc4) ∧
      (∀ pts, jget tc0 "points" = some (.jarr pts) →
        jget tc4 "points" = some (.jarr (pts.filterMap sanitizePointSpec))) ∧
      (∀ pts, jget tc0 "red" = some (.jarr pts) →
        jget tc4 "red" = some (.jarr (pts.filterMap sanitizePointSpec))) ∧
      (∀ pts, jget tc0 "green" = some (.jarr pts) →
        jget tc4 "green" = some (.jarr (pts.filterMap sanitizePointSpec))) ∧
      (∀ pts, jget tc0 "blue" = some (.jarr pts) →
        jget tc4 "blue" = some (.jarr (pts.filterMap sanitizePointSpec))) := by
  unfold sanitizeToneCurve at h
  rw [hj] at h
  obtain ⟨tc1, hk1, h1⟩ := exceptBind_ok _ _ _ h
  obtain ⟨tc2, hk2, h2⟩ := exceptBind_ok _ _ _ h1
  obtain ⟨tc3, hk3, h3⟩ := exceptBind_ok _ _ _ h2
  obtain ⟨tc4, hk4, h4⟩ := exceptBind_ok _ _ _ h3
  have hr' : r' = jset r "tone_curve" (.jobj tc4) := by
    simpa [pure, Except.pure] using h4.symm
  obtain ⟨hs1, hp1⟩ := sanitizeCurve_ok _ _ _ hk1
  obtain ⟨hs2, hp2⟩ := sanitizeCurve_ok _ _ _ hk2
  obtain ⟨hs3, hp3⟩ := sanitizeCurve_ok _ _ _ hk3
  obtain ⟨hs4, hp4⟩ := sanitizeCurve_ok _ _ _ hk4
  refine ⟨tc4, hr', ?_, ?_, ?_, ?_⟩
  · intro pts hpts
    rw [hs4 "points" (by decide), hs3 "points" (by decide), hs2 "points" (by decide)]
    exact hp1 pts hpts
  · intro pts hpts
    rw [hs4 "red" (by decide), hs3 "red" (by decide)]
    exact hp2 pts (by rw [hs1 "red" (by decide)]; exact hpts)
  · intro pts hpts
    rw [hs4 "green" (by decide)]
    exact hp3 pts (by rw [hs2 "green" (by decide), hs1 "green" (by decide)]; exact hpts)
  · exact fun pts hpts => hp4 pts
      (by rw [hs3 "blue" (by decide), hs2 "blue" (by decide), hs1 "blue" (by decide)]; exact hpts)

/-- Comparability of every kept point in all four curve arrays. -/
def tcFloatable : Option JVal → Bool
  | some (.jobj tc) => curveSafe (jget tc "points") && curveSafe (jget tc "red") &&
      curveSafe (jget tc "green") && curveSafe (jget tc "blue")
  | _ => true

theorem sanitizeToneCurve_isOk (r : Entries)
    (hsafe : tcFloatable (jget r "tone_curve") = true) :
    ∃ r', sanitizeToneCurve r = .ok r' := by
  cases hv : jget r "tone_curve" with
  | none => exact ⟨r, by unfold sanitizeToneCurve; rw [hv]; rfl⟩
  | some x =>
      cases x with
      | jobj tc0 =>
          rw [hv] at hsafe
          simp only [tcFloatable, Bool.and_eq_true] at hsafe
          obtain ⟨⟨⟨hP, hR⟩, hG⟩, hB⟩ := hsafe
          obtain ⟨tc1, hk1⟩ := sanitizeCurve_isOk tc0 "points" hP
          obtain ⟨hs1, _⟩ := sanitizeCurve_ok _ _ _ hk1
          obtain ⟨tc2, hk2⟩ := sanitizeCurve_isOk tc1 "red"
            (by rw [hs1 "red" (by decide)]; exact hR)
          obtain ⟨hs2, _⟩ := sanitizeCurve_ok _ _ _ hk2
          obtain ⟨tc3, hk3⟩ := sanitizeCurve_isOk tc2 "green"
            (by rw [hs2 "green" (by decide), hs1 "green" (by decide)]; exact hG)
          obtain ⟨hs3, _⟩ := sanitizeCurve_ok _ _ _ hk3
          obtain ⟨tc4, hk4⟩ := sanitizeCurve_isOk tc3 "blue"
            (by rw [hs3 "blue" (by decide), hs2 "blue" (by decide),
              hs1 "blue" (by decide)]; exact hB)
          refine ⟨jset r "tone_curve" (.jobj tc4), ?_⟩
          unfold sanitizeToneCurve
          rw [hv]
          show (sanitizeCurve tc0 "points" >>= fun tc1 =>
            sanitizeCurve tc1 "red" >>= fun tc2 =>
              sanitizeCurve tc2 "green" >>= fun tc3 =>
                sanitizeCurve tc3 "blue" >>= fun tc4 =>
                  pure (jset r "tone_curve" (JVal.jobj tc4))) = _
          rw [hk1]
          show (sanitizeCurve tc1 "red" >>= fun tc2 =>
            sanitizeCurve tc2 "green" >>= fun tc3 =>
              sanitizeCurve tc3 "blue" >>= fun tc4 =>
                pure (jset r "tone_curve" (JVal.jobj tc4))) = _
          rw [hk2]
          show (sanitizeCurve tc2 "green" >>= fun tc3 =>
            sanitizeCurve tc3 "blue" >>= fun tc4 =>
              pure (jset r "tone_curve" (JVal.jobj tc4))) = _
          rw [hk3]
          show (sanitizeCurve tc3 "blue" >>= fun tc4 =>
            pure (jset r "tone_curve" (JVal.jobj tc4))) = _
          rw [hk4]
          rfl
      | jnull => exact ⟨r, by unfold sanitizeToneCurve; rw [hv]; rfl⟩
      | jbool _ => exact ⟨r, by unfold sanitizeToneCurve; rw [hv]; rfl⟩
      | jnum _ => exact ⟨r, by unfold sanitizeToneCurve; rw [hv]; rfl⟩
      | jstr _ => exact ⟨r, by unfold sanitizeToneCurve; rw [hv]; rfl⟩
      | jarr _ => exact ⟨r, by unfold sanitizeToneCurve; rw [hv]; rfl⟩

/-! ## `ColorParams` construction (pydantic validation)

`ColorParams(**raw)` runs pydantic (v2, lax mode) validation over the field
declarations of `color_params.py`.  We model the outcome as the list of
violation kinds pydantic collects, in field order: `.range` for a
`ge`/`le` bound violation, `.typ` for a wrong-type / uncoercible input.
`ColorParams(**raw)` raises iff the list is nonempty, and raises a
range-validation error iff the list contains `.range`.

Lax-mode coercion rules used: a numeric field accepts `int`/`float` and a
`str` that coerces to a float (checked against the bounds after coercion —
including `inf`/`infinity`/`nan` spellings, which coerce under the default
`allow_inf_nan` and then fail the `ge`/`le` constraint as a *range* error:
`+inf` fails `le`, `-inf` fails `ge`, and every comparison with `nan` is
false); `bool` and everything else is a type error.  A missing field takes
its declared in-range default.  Unknown keys are ignored. -/

inductive VKind where
  | range : VKind
  | typ : VKind
deriving DecidableEq

/-- The value of a pydantic-coerced float string: a finite number, a signed
infinity, or NaN. -/
inductive PydFloat where
  | num (q : ℚ) : PydFloat
  | inf (neg : Bool) : PydFloat
  | nan : PydFloat
deriving DecidableEq

/-- Pydantic v2 lax `str -> float` coercion: trimmed, `_` separators
dropped (over-accepting Python's between-digits rule, which is the sound
direction for the range-error analysis), an optional sign, then a decimal
number or a case-insensitive `inf`/`infinity`/`nan` spelling. -/
def pydParseFloat (s : String) : Option PydFloat :=
  let cs := (((s.toList.dropWhile isWsChar).reverse.dropWhile isWsChar).reverse).filter
    (fun c => c ≠ '_')
  let body : List Char :=
    match cs with
    | '+' :: rest => rest
    | '-' :: rest => rest
    | rest => rest
  let neg : Bool :=
    match cs with
    | '-' :: _ => true
    | _ => false
  let low := body.map Char.toLower
  if low = ['i','n','f'] ∨ low = ['i','n','f','i','n','i','t','y'] then some (.inf neg)
  else if low = ['n','a','n'] then some .nan
  else
    match parseSignedBody cs with
    | some q => some (.num q)
    | none => none

/-- Validate one bounded numeric field (`Field(ge=lo, le=hi)`).  A coerced
string worth `±inf` or `nan` fails one of the two bounds (every field of
`color_params.py` declares both), a range error. -/
def checkNum (lo hi : ℚ) : Option JVal → List VKind
  | none => []
  | some (.jnum q) => if lo ≤ q ∧ q ≤ hi then [] else [.range]
  | some (.jstr s) =>
      match pydParseFloat s with
      | some (.num q) => if lo ≤ q ∧ q ≤ hi then [] else [.range]
      | some (.inf _) => [.range]
      | some .nan => [.range]
      | none => [.typ]
  | some _ => [.typ]

/-- Validate `version: str`. -/
def checkStr : Option JVal → List VKind
  | none => []
  | some (.jstr _) => []
  | some _ => [.typ]

/-- Validate an `int` inside a tone-curve point (no declared bounds, so a
bad value is always a type error, never a range error). -/
def checkInt : Option JVal → List VKind
  | none => []
  | some (.jnum q) => if q.den = 1 then [] else [.typ]
  | some (.jstr s) =>
      match pyParseFloat s with
      | some q => if q.den = 1 then [] else [.typ]
      | none => [.typ]
  | some _ => [.typ]

/-- Validate a `list[list[int]]` tone-curve array. -/
def checkCurve (allowNone : Bool) : Option JVal → List VKind
  | none => []
  | some .jnull => if allowNone then [] else [.typ]
  | some (.jarr rows) =>
      rows.flatMap fun row =>
        match row with
        | .jarr cells => cells.flatMap fun c => checkInt (some c)
        | _ => [.typ]
  | some _ => [.typ]

/-- Models `BasicParams`. -/
def checkBasic : Option JVal → List VKind
  | none => []
  | some (.jobj e) =>
      checkNum (-3) 3 (jget e "exposure") ++
      checkNum (-100) 100 (jget e "contrast") ++
      checkNum (-100) 100 (jget e "highlights") ++
      checkNum (-100) 100 (jget e "shadows") ++
      checkNum (-100) 100 (jget e "whites") ++
      checkNum (-100) 100 (jget e "blacks")
  | some _ => [.typ]

/-- Models `ColorAdjustParams`. -/
def checkColor : Option JVal → List VKind
  | none => []
  | some (.jobj e) =>
      checkNum 2000 12000 (jget e "temperature") ++
      checkNum (-100) 100 (jget e "tint") ++
      checkNum (-100) 100 (jget e "vibrance") ++
      checkNum (-100) 100 (jget e "saturation")
  | some _ => [.typ]

/-- Models `ToneCurveParams`. -/
def checkToneCurve : Option JVal → List VKind
  | none => []
  | some (.jobj e) =>
      checkCurve false (jget e "points") ++
      checkCurve true (jget e "red") ++
      checkCurve true (jget e "green") ++
      checkCurve true (jget e "blue")
  | some _ => [.typ]

/-- One `HSLChannel`. -/
def checkHSLChannel : Option JVal → List VKind
  | none => []
  | some (.jobj e) =>
      checkNum (-180) 180 (jget e "hue") ++
      checkNum (-100) 100 (jget e "saturation") ++
      checkNum (-100) 100 (jget e "luminance")
  | some _ => [.typ]

/-- Models `HSLParams` (eight named channels). -/
def checkHSL : Option JVal → List VKind
  | none => []
  | some (.jobj e) =>
      checkHSLChannel (jget e "red") ++
      checkHSLChannel (jget e "orange") ++
      checkHSLChannel (jget e "yellow") ++
      checkHSLChannel (jget e "green") ++
      checkHSLChannel (jget e "aqua") ++
      checkHSLChannel (jget e "blue") ++
      checkHSLChannel (jget e "purple") ++
      checkHSLChannel (jget e "magenta")
  | some _ => [.typ]

/-- One `SplitToneChannel`. -/
def checkSplitZone : Option JVal → List VKind
  | none => []
  | some (.jobj e) =>
      checkNum 0 360 (jget e "hue") ++
      checkNum 0 100 (jget e "saturation")
  | some _ => [.typ]

/-- Models `SplitToningParams`. -/
def checkSplitToning : Option JVal → List VKind
  | none => []
  | some (.jobj e) =>
      checkSplitZone (jget e "highlights") ++
      checkSplitZone (jget e "midtones") ++
      checkSplitZone (jget e "shadows") ++
      checkNum (-100) 100 (jget e "balance")
  | some _ => [.typ]

/-- Models `EffectsParams`. -/
def checkEffects : Option JVal → List VKind
  | none => []
  | some (.jobj e) =>
      checkNum (-100) 100 (jget e "clarity") ++
      checkNum (-100) 100 (jget e "dehaze") ++
      checkNum (-100) 100 (jget e "vignette") ++
      checkNum 0 100 (jget e "grain") ++
      checkNum (-100) 100 (jget e "texture") ++
      checkNum 0 100 (jget e "fade") ++
      checkNum 0 100 (jget e "sharpening") ++
      checkNum (1/2) 5 (jget e "sharpen_radius")
  | some _ => [.typ]

/-- Models `ColorParams(**raw)`: the violation kinds pydantic reports (empty ⇔ the
construction succeeds; containing `.range` ⇔ it raises a range-validation
error). -/
def validateColorParams (raw : Entries) : List VKind :=
  checkStr (jget raw "version") ++
  checkBasic (jget raw "basic") ++
  checkColor (jget raw "color") ++
  checkToneCurve (jget raw "tone_curve") ++
  checkHSL (jget raw "hsl") ++
  checkSplitToning (jget raw "split_toning") ++
  checkEffects (jget raw "effects")

/-! ### Putting sanitizer and validator together -/

theorem _clamp_le (v lo hi : ℚ) (hlh : lo ≤ hi) :
    lo ≤ _clamp v lo hi ∧ _clamp v lo hi ≤ hi := by
  unfold _clamp
  exact ⟨le_max_left _ _, max_le hlh (min_le_left _ _)⟩

theorem rulesPairs : ∀ r ∈ _CLAMP_RULES, (pySplitDot r.1).length = 2 := by decide

/-- Instantiating the fold characterization at a field matched by one rule. -/
theorem getPath2_rulesPass (raw : Entries) (a b dp : String) (lo hi : ℚ)
    (hm : matchingRules _CLAMP_RULES a b = [(dp, lo, hi)]) :
    getPath2 (rulesPass raw) a b = (getPath2 raw a b).map (clampStep lo hi) := by
  rw [rulesPass, getPath2_foldRules _ _ _ _ rulesPairs, foldRules_cond_eq_matching, hm]
  rfl

theorem jget_rulesPass_other (raw : Entries) (k : String)
    (hk : (_CLAMP_RULES.all fun r => (pySplitDot r.1).headD "" != k) = true) :
    jget (rulesPass raw) k = jget raw k := by
  apply jget_foldRules_other
  intro r hr
  obtain ⟨u, v, huv⟩ := List.length_eq_two.mp (rulesPairs r hr)
  refine ⟨u, v, huv, ?_⟩
  have hne := List.all_eq_true.mp hk r hr
  rw [huv] at hne
  exact fun he => bne_iff_ne.mp hne he.symm

theorem isObjO_rulesPass (raw : Entries) (k : String) :
    isObjO (jget (rulesPass raw) k) = isObjO (jget raw k) :=
  isObjO_jget_foldRules _ _ _ rulesPairs

/-- Models `sanitize_ai_params` succeeding decomposes into its four blocks. -/
theorem sanitize_ok_decomp (raw s : Entries) (h : sanitize_ai_params raw = .ok s) :
    ∃ r2 r3 r4, sanitizeEffects (rulesPass raw) = .ok r2 ∧ sanitizeHSL r2 = .ok r3 ∧
      sanitizeSplitToning r3 = .ok r4 ∧ sanitizeToneCurve r4 = .ok s := by
  unfold sanitize_ai_params at h
  obtain ⟨r2, h2, hrest⟩ := exceptBind_ok _ _ _ h
  obtain ⟨r3, h3, hrest2⟩ := exceptBind_ok _ _ _ hrest
  obtain ⟨r4, h4, h5⟩ := exceptBind_ok _ _ _ hrest2
  exact ⟨r2, r3, r4, h2, h3, h4, h5⟩

/-- Inverting the trivial (non-dict) arm of each block. -/
theorem sanitizeEffects_not_obj_inv (r r' : Entries) (h : sanitizeEffects r = .ok r')
    (hno : isObjO (jget r "effects") = false) : r' = r := by
  have := sanitizeEffects_not_obj r hno
  rw [h] at this
  injection this with this

theorem sanitizeHSL_not_obj (r : Entries) (h : isObjO (jget r "hsl") = false) :
    sanitizeHSL r = .ok r := by
  unfold sanitizeHSL
  cases hv : jget r "hsl" with
  | none => rfl
  | some x => cases x <;> first
      | rfl
      | (rw [hv] at h; simp [isObjO] at h)

theorem sanitizeHSL_not_obj_inv (r r' : Entries) (h : sanitizeHSL r = .ok r')
    (hno : isObjO (jget r "hsl") = false) : r' = r := by
  have := sanitizeHSL_not_obj r hno
  rw [h] at this
  injection this with this

theorem sanitizeSplitToning_not_obj (r : Entries)
    (h : isObjO (jget r "split_toning") = false) :
    sanitizeSplitToning r = .ok r := by
  unfold sanitizeSplitToning
  cases hv : jget r "split_toning" with
  | none => rfl
  | some x => cases x <;> first
      | rfl
      | (rw [hv] at h; simp [isObjO] at h)

theorem sanitizeSplitToning_not_obj_inv (r r' : Entries)
    (h : sanitizeSplitToning r = .ok r')
    (hno : isObjO (jget r "split_toning") = false) : r' = r := by
  have := sanitizeSplitToning_not_obj r hno
  rw [h] at this
  injection this with this

/-- No string at the field coerces (under pydantic lax `str -> float`) to a
value violating `[lo, hi]` — neither a finite number out of range nor an
`inf`/`nan` spelling, which fails the bounds by definition. -/
def StrOK (lo hi : ℚ) : Option JVal → Prop
  | some (.jstr s) =>
      ∀ r, pydParseFloat s = some r → ∃ q, r = .num q ∧ lo ≤ q ∧ q ≤ hi
  | _ => True

theorem checkNum_no_range_of_step (lo hi : ℚ) (hlh : lo ≤ hi) (o : Option JVal)
    (hstr : StrOK lo hi o) :
    VKind.range ∉ checkNum lo hi (o.map (clampStep lo hi)) := by
  cases o with
  | none => simp [checkNum]
  | some x =>
      cases x with
      | jnum q =>
          have : clampStep lo hi (.jnum q) = .jnum (_clamp q lo hi) := by
            simp [clampStep, pyIsNumber, pyNumVal]
          rw [Option.map_some', this]
          obtain ⟨h1, h2⟩ := _clamp_le q lo hi hlh
          simp [checkNum, h1, h2]
      | jbool b =>
          have : clampStep lo hi (.jbool b) =
              .jnum (_clamp (if b then 1 else 0) lo hi) := by
            simp [clampStep, pyIsNumber, pyNumVal]
          rw [Option.map_some', this]
          obtain ⟨h1, h2⟩ := _clamp_le (if b then 1 else 0) lo hi hlh
          simp [checkNum, h1, h2]
      | jstr str =>
          have : clampStep lo hi (.jstr str) = .jstr str := by
            simp [clampStep, pyIsNumber]
          rw [Option.map_some', this]
          simp only [checkNum]
          cases hp : pydParseFloat str with
          | none => simp
          | some r =>
              obtain ⟨q, hq, h1, h2⟩ := hstr r hp
              subst hq
              simp [h1, h2]
      | jnull =>
          have : clampStep lo hi .jnull = .jnull := by simp [clampStep, pyIsNumber]
          rw [Option.map_some', this]; simp [checkNum]
      | jarr xs =>
          have : clampStep lo hi (.jarr xs) = .jarr xs := by simp [clampStep, pyIsNumber]
          rw [Option.map_some', this]; simp [checkNum]
      | jobj e =>
          have : clampStep lo hi (.jobj e) = .jobj e := by simp [clampStep, pyIsNumber]
          rw [Option.map_some', this]; simp [checkNum]

theorem checkNum_no_range_of_clamped (lo hi lo' hi' : ℚ) (o : Option JVal)
    (hlo : lo' ≤ lo) (hhi : hi ≤ hi') (hlh : lo ≤ hi) (hfc : FieldClamped lo hi o) :
    VKind.range ∉ checkNum lo' hi' o := by
  rcases hfc with hnone | ⟨q, hq⟩
  · rw [hnone]; simp [checkNum]
  · rw [hq]
    obtain ⟨h1, h2⟩ := _clamp_le q lo hi hlh
    simp [checkNum, le_trans hlo h1, le_trans h2 hhi]

theorem checkInt_no_range (o : Option JVal) : VKind.range ∉ checkInt o := by
  cases o with
  | none => simp [checkInt]
  | some x =>
      cases x with
      | jnum q => by_cases h : q.den = 1 <;> simp [checkInt, h]
      | jstr s =>
          simp only [checkInt]
          cases hp : pyParseFloat s with
          | none => simp
          | some q => by_cases h : q.den = 1 <;> simp [h]
      | jnull => simp [checkInt]
      | jbool _ => simp [checkInt]
      | jarr _ => simp [checkInt]
      | jobj _ => simp [checkInt]

theorem checkCurve_no_range (b : Bool) (o : Option JVal) :
    VKind.range ∉ checkCurve b o := by
  cases o with
  | none => simp [checkCurve]
  | some x =>
      cases x with
      | jarr rows =>
          unfold checkCurve
          intro hmem
          rw [List.mem_flatMap] at hmem
          obtain ⟨row, _, hrow⟩ := hmem
          cases row with
          | jarr cells =>
              rw [List.mem_flatMap] at hrow
              obtain ⟨c, _, hc⟩ := hrow
              exact checkInt_no_range (some c) hc
          | jnull => simp at hrow
          | jbool _ => simp at hrow
          | jnum _ => simp at hrow
          | jstr _ => simp at hrow
          | jobj _ => simp at hrow
      | jnull => cases b <;> simp [checkCurve]
      | jbool _ => simp [checkCurve]
      | jnum _ => simp [checkCurve]
      | jstr _ => simp [checkCurve]
      | jobj _ => simp [checkCurve]

theorem checkToneCurve_no_range (o : Option JVal) : VKind.range ∉ checkToneCurve o := by
  cases o with
  | none => simp [checkToneCurve]
  | some x =>
      cases x with
      | jobj e =>
          unfold checkToneCurve
          intro hmem
          simp only [List.mem_append] at hmem
          rcases hmem with ((h | h) | h) | h
          · exact checkCurve_no_range _ _ h
          · exact checkCurve_no_range _ _ h
          · exact checkCurve_no_range _ _ h
          · exact checkCurve_no_range _ _ h
      | jnull => simp [checkToneCurve]
      | jbool _ => simp [checkToneCurve]
      | jnum _ => simp [checkToneCurve]
      | jstr _ => simp [checkToneCurve]
      | jarr _ => simp [checkToneCurve]

theorem checkStr_no_range (o : Option JVal) : VKind.range ∉ checkStr o := by
  cases o with
  | none => simp [checkStr]
  | some x => cases x <;> simp [checkStr]

theorem checkHSLChannel_no_range (o : Option JVal)
    (h : ∀ c', o = some (.jobj c') → ChannelOK c') :
    VKind.range ∉ checkHSLChannel o := by
  cases o with
  | none => simp [checkHSLChannel]
  | some x =>
      cases x with
      | jobj c' =>
          obtain ⟨h1, h2, h3⟩ := h c' rfl
          unfold checkHSLChannel
          intro hmem
          simp only [List.mem_append] at hmem
          rcases hmem with (hm | hm) | hm
          · exact checkNum_no_range_of_clamped _ _ _ _ _ le_rfl le_rfl (by norm_num) h1 hm
          · exact checkNum_no_range_of_clamped _ _ _ _ _ le_rfl le_rfl (by norm_num) h2 hm
          · exact checkNum_no_range_of_clamped _ _ _ _ _ le_rfl le_rfl (by norm_num) h3 hm
      | jnull => simp [checkHSLChannel]
      | jbool _ => simp [checkHSLChannel]
      | jnum _ => simp [checkHSLChannel]
      | jstr _ => simp [checkHSLChannel]
      | jarr _ => simp [checkHSLChannel]

theorem checkSplitZone_no_range (o : Option JVal)
    (h : ∀ ch, o = some (.jobj ch) →
      FieldClamped 0 360 (jget ch "hue") ∧ FieldClamped 0 100 (jget ch "saturation")) :
    VKind.range ∉ checkSplitZone o := by
  cases o with
  | none => simp [checkSplitZone]
  | some x =>
      cases x with
      | jobj ch =>
          obtain ⟨h1, h2⟩ := h ch rfl
          unfold checkSplitZone
          intro hmem
          simp only [List.mem_append] at hmem
          rcases hmem with hm | hm
          · exact checkNum_no_range_of_clamped _ _ _ _ _ le_rfl le_rfl (by norm_num) h1 hm
          · exact checkNum_no_range_of_clamped _ _ _ _ _ le_rfl le_rfl (by norm_num) h2 hm
      | jnull => simp [checkSplitZone]
      | jbool _ => simp [checkSplitZone]
      | jnum _ => simp [checkSplitZone]
      | jstr _ => simp [checkSplitZone]
      | jarr _ => simp [checkSplitZone]

theorem checkBasic_no_range (s : Entries)
    (h1 : VKind.range ∉ checkNum (-3) 3 (getPath2 s "basic" "exposure"))
    (h2 : VKind.range ∉ checkNum (-100) 100 (getPath2 s "basic" "contrast"))
    (h3 : VKind.range ∉ checkNum (-100) 100 (getPath2 s "basic" "highlights"))
    (h4 : VKind.range ∉ checkNum (-100) 100 (getPath2 s "basic" "shadows"))
    (h5 : VKind.range ∉ checkNum (-100) 100 (getPath2 s "basic" "whites"))
    (h6 : VKind.range ∉ checkNum (-100) 100 (getPath2 s "basic" "blacks")) :
    VKind.range ∉ checkBasic (jget s "basic") := by
  cases hb : jget s "basic" with
  | none => simp [checkBasic]
  | some x =>
      cases x with
      | jobj e =>
          rw [getPath2_eq_jget _ _ _ _ hb] at h1 h2 h3 h4 h5 h6
          unfold checkBasic
          intro hmem
          simp only [List.mem_append] at hmem
          rcases hmem with ((((hm | hm) | hm) | hm) | hm) | hm
          exacts [h1 hm, h2 hm, h3 hm, h4 hm, h5 hm, h6 hm]
      | jnull => simp [checkBasic]
      | jbool _ => simp [checkBasic]
      | jnum _ => simp [checkBasic]
      | jstr _ => simp [checkBasic]
      | jarr _ => simp [checkBasic]

theorem checkColor_no_range (s : Entries)
    (h1 : VKind.range ∉ checkNum 2000 12000 (getPath2 s "color" "temperature"))
    (h2 : VKind.range ∉ checkNum (-100) 100 (getPath2 s "color" "tint"))
    (h3 : VKind.range ∉ checkNum (-100) 100 (getPath2 s "color" "vibrance"))
    (h4 : VKind.range ∉ checkNum (-100) 100 (getPath2 s "color" "saturation")) :
    VKind.range ∉ checkColor (jget s "color") := by
  cases hb : jget s "color" with
  | none => simp [checkColor]
  | some x =>
      cases x with
      | jobj e =>
          rw [getPath2_eq_jget _ _ _ _ hb] at h1 h2 h3 h4
          unfold checkColor
          intro hmem
          simp only [List.mem_append] at hmem
          rcases hmem with ((hm | hm) | hm) | hm
          exacts [h1 hm, h2 hm, h3 hm, h4 hm]
      | jnull => simp [checkColor]
      | jbool _ => simp [checkColor]
      | jnum _ => simp [checkColor]
      | jstr _ => simp [checkColor]
      | jarr _ => simp [checkColor]

theorem checkEffects_no_range (s : Entries)
    (h1 : VKind.range ∉ checkNum (-100) 100 (getPath2 s "effects" "clarity"))
    (h2 : VKind.range ∉ checkNum (-100) 100 (getPath2 s "effects" "dehaze"))
    (h3 : VKind.range ∉ checkNum (-100) 100 (getPath2 s "effects" "vignette"))
    (h4 : VKind.range ∉ checkNum 0 100 (getPath2 s "effects" "grain"))
    (h5 : VKind.range ∉ checkNum (-100) 100 (getPath2 s "effects" "texture"))
    (h6 : VKind.range ∉ checkNum 0 100 (getPath2 s "effects" "fade"))
    (h7 : VKind.range ∉ checkNum 0 100 (getPath2 s "effects" "sharpening"))
    (h8 : VKind.range ∉ checkNum (1/2) 5 (getPath2 s "effects" "sharpen_radius")) :
    VKind.range ∉ checkEffects (jget s "effects") := by
  cases hb : jget s "effects" with
  | none => simp [checkEffects]
  | some x =>
      cases x with
      | jobj e =>
          rw [getPath2_eq_jget _ _ _ _ hb] at h1 h2 h3 h4 h5 h6 h7 h8
          unfold checkEffects
          intro hmem
          simp only [List.mem_append] at hmem
          rcases hmem with ((((((hm | hm) | hm) | hm) | hm) | hm) | hm) | hm
          exacts [h1 hm, h2 hm, h3 hm, h4 hm, h5 hm, h6 hm, h7 hm, h8 hm]
      | jnull => simp [checkEffects]
      | jbool _ => simp [checkEffects]
      | jnum _ => simp [checkEffects]
      | jstr _ => simp [checkEffects]
      | jarr _ => simp [checkEffects]

theorem checkHSL_no_range (s : Entries)
    (h : ∀ name, VKind.range ∉ checkHSLChannel (getPath2 s "hsl" name)) :
    VKind.range ∉ checkHSL (jget s "hsl") := by
  cases hb : jget s "hsl" with
  | none => simp [checkHSL]
  | some x =>
      cases x with
      | jobj e =>
          have hg : ∀ name, VKind.range ∉ checkHSLChannel (jget e name) := by
            intro name
            have := h name
            rwa [getPath2_eq_jget _ _ _ _ hb] at this
          unfold checkHSL
          intro hmem
          simp only [List.mem_append] at hmem
          rcases hmem with ((((((hm | hm) | hm) | hm) | hm) | hm) | hm) | hm
          exacts [hg "red" hm, hg "orange" hm, hg "yellow" hm, hg "green" hm,
            hg "aqua" hm, hg "blue" hm, hg "purple" hm, hg "magenta" hm]
      | jnull => simp [checkHSL]
      | jbool _ => simp [checkHSL]
      | jnum _ => simp [checkHSL]
      | jstr _ => simp [checkHSL]
      | jarr _ => simp [checkHSL]

theorem checkSplitToning_no_range (s : Entries)
    (h1 : VKind.range ∉ checkSplitZone (getPath2 s "split_toning" "highlights"))
    (h2 : VKind.range ∉ checkSplitZone (getPath2 s "split_toning" "midtones"))
    (h3 : VKind.range ∉ checkSplitZone (getPath2 s "split_toning" "shadows"))
    (h4 : VKind.range ∉ checkNum (-100) 100 (getPath2 s "split_toning" "balance")) :
    VKind.range ∉ checkSplitToning (jget s "split_toning") := by
  cases hb : jget s "split_toning" with
  | none => simp [checkSplitToning]
  | some x =>
      cases x with
      | jobj e =>
          rw [getPath2_eq_jget _ _ _ _ hb] at h1 h2 h3 h4
          unfold checkSplitToning
          intro hmem
          simp only [List.mem_append] at hmem
          rcases hmem with ((hm | hm) | hm) | hm
          exacts [h1 hm, h2 hm, h3 hm, h4 hm]
      | jnull => simp [checkSplitToning]
      | jbool _ => simp [checkSplitToning]
      | jnum _ => simp [checkSplitToning]
      | jstr _ => simp [checkSplitToning]
      | jarr _ => simp [checkSplitToning]

theorem getPath2_rulesPass_id (raw : Entries) (a b : String)
    (hm : matchingRules _CLAMP_RULES a b = []) :
    getPath2 (rulesPass raw) a b = getPath2 raw a b := by
  rw [rulesPass, getPath2_foldRules _ _ _ _ rulesPairs, foldRules_cond_eq_matching, hm]
  rfl

theorem isObjO_true_iff (o : Option JVal) :
    isObjO o = true ↔ ∃ e, o = some (.jobj e) := by
  cases o with
  | none => simp [isObjO]
  | some x => cases x <;> simp [isObjO]

theorem getPath2_none_of_not_obj (s : Entries) (a b : String)
    (h : isObjO (jget s a) = false) : getPath2 s a b = none := by
  unfold getPath2
  cases hv : jget s a with
  | none => rfl
  | some x =>
      cases x <;> first
        | rfl
        | (rw [hv] at h; simp [isObjO] at h)

theorem getPath2_congr (s t : Entries) (a b : String) (h : jget s a = jget t a) :
    getPath2 s a b = getPath2 t a b := by
  unfold getPath2
  rw [h]

theorem floatableOpt_map_clampStep (o : Option JVal) (lo hi : ℚ)
    (h : floatableOpt o = true) :
    floatableOpt (o.map (clampStep lo hi)) = true := by
  cases o with
  | none => rfl
  | some x =>
      cases x with
      | jnum q => simp [clampStep, pyIsNumber, floatableOpt, pyFloat, Except.isOk, Except.toBool]
      | jbool b => simp [clampStep, pyIsNumber, floatableOpt, pyFloat, Except.isOk, Except.toBool]
      | jstr str =>
          have : clampStep lo hi (.jstr str) = .jstr str := by simp [clampStep, pyIsNumber]
          rw [Option.map_some', this]
          exact h
      | jnull =>
          have : clampStep lo hi .jnull = .jnull := by simp [clampStep, pyIsNumber]
          rw [Option.map_some', this]
          exact h
      | jarr xs =>
          have : clampStep lo hi (.jarr xs) = .jarr xs := by simp [clampStep, pyIsNumber]
          rw [Option.map_some', this]
          exact h
      | jobj e =>
          have : clampStep lo hi (.jobj e) = .jobj e := by simp [clampStep, pyIsNumber]
          rw [Option.map_some', this]
          exact h

theorem FieldClamped_of_disj {eOld eNew : Entries} {key : String} {lo hi : ℚ}
    (h : (jget eOld key = none ∧ jget eNew key = none) ∨
      ∃ q, jget eNew key = some (.jnum (_clamp q lo hi))) :
    FieldClamped lo hi (jget eNew key) := by
  rcases h with ⟨_, hn⟩ | ⟨q, hq⟩
  · exact Or.inl hn
  · exact Or.inr ⟨q, hq⟩

/-- Composed stability of the four fallible blocks at an untouched key. -/
theorem sanitize_chain (raw r2 r3 r4 s : Entries)
    (h2 : sanitizeEffects (rulesPass raw) = .ok r2) (h3 : sanitizeHSL r2 = .ok r3)
    (h4 : sanitizeSplitToning r3 = .ok r4) (h5 : sanitizeToneCurve r4 = .ok s)
    (k : String) (hk1 : k ≠ "effects") (hk2 : k ≠ "hsl") (hk3 : k ≠ "split_toning")
    (hk4 : k ≠ "tone_curve") :
    jget s k = jget (rulesPass raw) k := by
  rw [sanitizeToneCurve_ok_other _ _ _ h5 hk4, sanitizeSplitToning_ok_other _ _ _ h4 hk3,
    sanitizeHSL_ok_other _ _ _ h3 hk2, sanitizeEffects_ok_other _ _ _ h2 hk1]

/-- The `_CLAMP_RULES` paths whose clamp is the only one applied to them: a
numeric string there survives sanitization untouched (the rule loop skips
non-`int`/`float` values) and is coerced by pydantic, where it is range
checked.  `effects.clarity` / `effects.dehaze` / `effects.grain` are excluded
because the `effects` block re-processes them whenever `effects` is a dict. -/
def leakFields : List (String × String × ℚ × ℚ) :=
  [("basic", "exposure", -3, 3),
   ("basic", "contrast", -100, 100),
   ("basic", "highlights", -100, 100),
   ("basic", "shadows", -100, 100),
   ("basic", "whites", -100, 100),
   ("basic", "blacks", -100, 100),
   ("color", "temperature", 2000, 12000),
   ("color", "tint", -100, 100),
   ("color", "vibrance", -100, 100),
   ("color", "saturation", -100, 100),
   ("effects", "vignette", -100, 100),
   ("effects", "texture", -100, 100),
   ("effects", "fade", 0, 100),
   ("effects", "sharpening", 0, 100),
   ("effects", "sharpen_radius", 1/2, 5),
   ("split_toning", "balance", -100, 100)]

/-- Claim **C3** (amended).  If `sanitize_ai_params(raw)` returns `s` and no value
at a singly-clamped parameter path is a string that pydantic's lax float
coercion turns into a value violating that path's declared bounds — a
numeric string out of range, or an `inf`/`infinity`/`nan` spelling, which
coerces and then fails the `ge`/`le` constraints — then `ColorParams(**s)`
raises no range-validation error: every numeric field that sanitization
clamps lands inside the corresponding declared `[lo, hi]` bounds, strings
at the re-clamped `effects`/`hsl`/`split_toning`/tone-curve paths are
converted and clamped by the sanitizer itself, and everything else can only
produce type errors. -/
theorem sanitize_then_validate_no_range_error (raw s : Entries)
    (hok : sanitize_ai_params raw = .ok s)
    (hstr : ∀ f ∈ leakFields, StrOK f.2.2.1 f.2.2.2 (getPath2 raw f.1 f.2.1)) :
    VKind.range ∉ validateColorParams s := by
  obtain ⟨r2, r3, r4, h2, h3, h4, h5⟩ := sanitize_ok_decomp raw s hok
  -- a singly-clamped field reachable through an untouched top-level key
  have leakFact : ∀ (a b dp : String) (lo hi : ℚ),
      jget s a = jget (rulesPass raw) a →
      matchingRules _CLAMP_RULES a b = [(dp, lo, hi)] →
      (a, b, lo, hi) ∈ leakFields → lo ≤ hi →
      VKind.range ∉ checkNum lo hi (getPath2 s a b) := by
    intro a b dp lo hi hchain hm hmem hlh
    rw [getPath2_congr _ _ _ _ hchain, getPath2_rulesPass raw a b dp lo hi hm]
    exact checkNum_no_range_of_step lo hi hlh _ (hstr _ hmem)
  have hbasic : jget s "basic" = jget (rulesPass raw) "basic" :=
    sanitize_chain raw r2 r3 r4 s h2 h3 h4 h5 "basic"
      (by decide) (by decide) (by decide) (by decide)
  have hcolor : jget s "color" = jget (rulesPass raw) "color" :=
    sanitize_chain raw r2 r3 r4 s h2 h3 h4 h5 "color"
      (by decide) (by decide) (by decide) (by decide)
  have heff : jget s "effects" = jget r2 "effects" := by
    rw [sanitizeToneCurve_ok_other _ _ _ h5 (by decide),
      sanitizeSplitToning_ok_other _ _ _ h4 (by decide),
      sanitizeHSL_ok_other _ _ _ h3 (by decide)]
  have hhsl : jget s "hsl" = jget r3 "hsl" := by
    rw [sanitizeToneCurve_ok_other _ _ _ h5 (by decide),
      sanitizeSplitToning_ok_other _ _ _ h4 (by decide)]
  have hsplit : jget s "split_toning" = jget r4 "split_toning" :=
    sanitizeToneCurve_ok_other _ _ _ h5 (by decide)
  -- basic group
  have hB : VKind.range ∉ checkBasic (jget s "basic") := by
    refine checkBasic_no_range s ?_ ?_ ?_ ?_ ?_ ?_
    · exact leakFact "basic" "exposure" "basic.exposure" (-3) 3 hbasic rfl (by decide) (by norm_num)
    · exact leakFact "basic" "contrast" "basic.contrast" (-100) 100 hbasic rfl (by decide) (by norm_num)
    · exact leakFact "basic" "highlights" "basic.highlights" (-100) 100 hbasic rfl (by decide) (by norm_num)
    · exact leakFact "basic" "shadows" "basic.shadows" (-100) 100 hbasic rfl (by decide) (by norm_num)
    · exact leakFact "basic" "whites" "basic.whites" (-100) 100 hbasic rfl (by decide) (by norm_num)
    · exact leakFact "basic" "blacks" "basic.blacks" (-100) 100 hbasic rfl (by decide) (by norm_num)
  -- color group
  have hC : VKind.range ∉ checkColor (jget s "color") := by
    refine checkColor_no_range s ?_ ?_ ?_ ?_
    · exact leakFact "color" "temperature" "color.temperature" 2000 12000 hcolor rfl (by decide) (by norm_num)
    · exact leakFact "color" "tint" "color.tint" (-100) 100 hcolor rfl (by decide) (by norm_num)
    · exact leakFact "color" "vibrance" "color.vibrance" (-100) 100 hcolor rfl (by decide) (by norm_num)
    · exact leakFact "color" "saturation" "color.saturation" (-100) 100 hcolor rfl (by decide) (by norm_num)
  -- effects group
  have hE : VKind.range ∉ checkEffects (jget s "effects") := by
    by_cases hobj : isObjO (jget (rulesPass raw) "effects") = true
    · obtain ⟨e1, he1⟩ := (isObjO_true_iff _).mp hobj
      obtain ⟨e3, hr2eq, hgrain, hothers, hcl, hdh⟩ :=
        sanitizeEffects_obj_ok _ _ _ he1 h2
      have hseff : jget s "effects" = some (.jobj e3) := by
        rw [heff, hr2eq, jget_jset_self]
      have hfield : ∀ f, f ≠ "grain" → f ≠ "clarity" → f ≠ "dehaze" →
          getPath2 s "effects" f = getPath2 (rulesPass raw) "effects" f := by
        intro f hg hc hd
        rw [getPath2_eq_jget _ _ _ _ hseff, hothers f hg hc hd,
          ← getPath2_eq_jget _ _ _ _ he1]
      have leakEff : ∀ (b dp : String) (lo hi : ℚ),
          b ≠ "grain" → b ≠ "clarity" → b ≠ "dehaze" →
          matchingRules _CLAMP_RULES "effects" b = [(dp, lo, hi)] →
          ("effects", b, lo, hi) ∈ leakFields → lo ≤ hi →
          VKind.range ∉ checkNum lo hi (getPath2 s "effects" b) := by
        intro b dp lo hi hg hc hd hm hmem hlh
        rw [hfield b hg hc hd, getPath2_rulesPass raw "effects" b dp lo hi hm]
        exact checkNum_no_range_of_step lo hi hlh _ (hstr _ hmem)
      refine checkEffects_no_range s ?_ ?_ ?_ ?_ ?_ ?_ ?_ ?_
      · rw [getPath2_eq_jget _ _ _ _ hseff]
        exact checkNum_no_range_of_clamped (-30) 30 (-100) 100 _
          (by norm_num) (by norm_num) (by norm_num) (FieldClamped_of_disj hcl)
      · rw [getPath2_eq_jget _ _ _ _ hseff]
        exact checkNum_no_range_of_clamped (-20) 25 (-100) 100 _
          (by norm_num) (by norm_num) (by norm_num) (FieldClamped_of_disj hdh)
      · exact leakEff "vignette" "effects.vignette" (-100) 100
          (by decide) (by decide) (by decide) rfl (by decide) (by norm_num)
      · rw [getPath2_eq_jget _ _ _ _ hseff, hgrain]
        simp [checkNum]
      · exact leakEff "texture" "effects.texture" (-100) 100
          (by decide) (by decide) (by decide) rfl (by decide) (by norm_num)
      · exact leakEff "fade" "effects.fade" 0 100
          (by decide) (by decide) (by decide) rfl (by decide) (by norm_num)
      · exact leakEff "sharpening" "effects.sharpening" 0 100
          (by decide) (by decide) (by decide) rfl (by decide) (by norm_num)
      · exact leakEff "sharpen_radius" "effects.sharpen_radius" (1/2) 5
          (by decide) (by decide) (by decide) rfl (by simp [leakFields]) (by norm_num)
    · have hfalse : isObjO (jget (rulesPass raw) "effects") = false := by
        simpa using hobj
      have hr2 : r2 = rulesPass raw := sanitizeEffects_not_obj_inv _ _ h2 hfalse
      have hnone : ∀ f, getPath2 s "effects" f = none := by
        intro f
        apply getPath2_none_of_not_obj
        rw [heff, hr2]
        exact hfalse
      refine checkEffects_no_range s ?_ ?_ ?_ ?_ ?_ ?_ ?_ ?_ <;>
        (rw [hnone]; simp [checkNum])
  -- hsl group
  have hH : VKind.range ∉ checkHSL (jget s "hsl") := by
    by_cases hobj : isObjO (jget r2 "hsl") = true
    · obtain ⟨hs0, hhs0⟩ := (isObjO_true_iff _).mp hobj
      obtain ⟨hs', hr3eq, hchan⟩ := sanitizeHSL_obj_ok _ _ _ hhs0 h3
      have hshsl : jget s "hsl" = some (.jobj hs') := by
        rw [hhsl, hr3eq, jget_jset_self]
      refine checkHSL_no_range s (fun name => ?_)
      rw [getPath2_eq_jget _ _ _ _ hshsl]
      exact checkHSLChannel_no_range _ (fun c' hc' => hchan name c' hc')
    · have hfalse : isObjO (jget r2 "hsl") = false := by simpa using hobj
      have hr3 : r3 = r2 := sanitizeHSL_not_obj_inv _ _ h3 hfalse
      refine checkHSL_no_range s (fun name => ?_)
      rw [getPath2_none_of_not_obj s "hsl" name (by rw [hhsl, hr3]; exact hfalse)]
      simp [checkHSLChannel]
  -- split-toning group
  have hS : VKind.range ∉ checkSplitToning (jget s "split_toning") := by
    by_cases hobj : isObjO (jget r3 "split_toning") = true
    · obtain ⟨st0, hst0⟩ := (isObjO_true_iff _).mp hobj
      obtain ⟨st3, hr4eq, hothers, hz1, hz2, hz3⟩ :=
        sanitizeSplitToning_obj_ok _ _ _ hst0 h4
      have hsst : jget s "split_toning" = some (.jobj st3) := by
        rw [hsplit, hr4eq, jget_jset_self]
      refine checkSplitToning_no_range s ?_ ?_ ?_ ?_
      · rw [getPath2_eq_jget _ _ _ _ hsst]
        exact checkSplitZone_no_range _ (fun ch hch => hz1 ch hch)
      · rw [getPath2_eq_jget _ _ _ _ hsst]
        exact checkSplitZone_no_range _ (fun ch hch => hz2 ch hch)
      · rw [getPath2_eq_jget _ _ _ _ hsst]
        exact checkSplitZone_no_range _ (fun ch hch => hz3 ch hch)
      · have hchain3 : jget r3 "split_toning" = jget (rulesPass raw) "split_toning" := by
          rw [sanitizeHSL_ok_other _ _ _ h3 (by decide),
            sanitizeEffects_ok_other _ _ _ h2 (by decide)]
        rw [getPath2_eq_jget _ _ _ _ hsst,
          hothers "balance" (by decide) (by decide) (by decide),
          ← getPath2_eq_jget _ _ _ _ hst0,
          getPath2_congr _ _ _ _ hchain3,
          getPath2_rulesPass raw "split_toning" "balance" "split_toning.balance"
            (-100) 100 rfl]
        exact checkNum_no_range_of_step _ _ (by norm_num) _
          (hstr ("split_toning", "balance", -100, 100) (by decide))
    · have hfalse : isObjO (jget r3 "split_toning") = false := by simpa using hobj
      have hr4 : r4 = r3 := sanitizeSplitToning_not_obj_inv _ _ h4 hfalse
      have hnone : ∀ b, getPath2 s "split_toning" b = none := fun b =>
        getPath2_none_of_not_obj s _ b (by rw [hsplit, hr4]; exact hfalse)
      refine checkSplitToning_no_range s ?_ ?_ ?_ ?_ <;> rw [hnone]
      · simp [checkSplitZone]
      · simp [checkSplitZone]
      · simp [checkSplitZone]
      · simp [checkNum]
  unfold validateColorParams
  intro hmem
  simp only [List.mem_append] at hmem
  rcases hmem with (((((hm | hm) | hm) | hm) | hm) | hm) | hm
  exacts [checkStr_no_range _ hm, hB hm, hC hm, checkToneCurve_no_range _ hm,
    hH hm, hS hm, hE hm]

/-- A non-dict value trivially satisfies each block's `float(...)` condition. -/
theorem effectsFloatable_of_not_obj (o : Option JVal) (h : isObjO o = false) :
    effectsFloatable o = true := by
  cases o with
  | none => rfl
  | some x => cases x <;> first | rfl | simp [isObjO] at h

theorem stFloatable_of_not_obj (o : Option JVal) (h : isObjO o = false) :
    stFloatable o = true := by
  cases o with
  | none => rfl
  | some x => cases x <;> first | rfl | simp [isObjO] at h

/-- The inputs on which every `float(...)` / comparison inside
`sanitize_ai_params` succeeds: `effects.clarity` / `effects.dehaze` and the
fields of dict-valued HSL channels and split-toning zones are numbers or
numeric strings (those go through `float(...)`, which accepts both), and
the first two coordinates of kept tone-curve points are actual numbers —
there the code runs `min(255, p[0])` directly, and a `min`/`max` comparison
between a `str` and an `int` raises `TypeError` even for numeric strings.
The `_CLAMP_RULES` loop itself never raises. -/
def SafeRaw (raw : Entries) : Bool :=
  effectsFloatable (jget raw "effects") && hslFloatable (jget raw "hsl") &&
  stFloatable (jget raw "split_toning") && tcFloatable (jget raw "tone_curve")

/-- Claim **C2** (amended).  `sanitize_ai_params` returns normally on every
dict in which, when present, `effects.clarity`/`effects.dehaze` and the
fields of dict-valued HSL channels and split-toning zones are numbers or
numeric strings (they pass through `float(...)`), and the first two
coordinates of kept tone-curve points are actual numbers — numeric strings
are *not* safe there, because the tone-curve clamp compares
`min(255, p[0])` directly and `min`/`max` between `str` and `int` raises
`TypeError`.  Non-numeric values at the primary `_CLAMP_RULES` paths are
silently skipped.  (As stated the claim is false: `float(...)` in the
`effects`/`hsl`/`split_toning` blocks raises on non-numeric values, and
the tone-curve comparison raises even on numeric strings — see the
counterexample.) -/
theorem sanitize_ai_params_ok_of_safe (raw : Entries)
    (hsafe : SafeRaw raw = true) : ∃ s, sanitize_ai_params raw = .ok s := by
  unfold SafeRaw at hsafe
  simp only [Bool.and_eq_true] at hsafe
  obtain ⟨⟨⟨heff, hhsl⟩, hst⟩, htc⟩ := hsafe
  obtain ⟨r2, h2⟩ : ∃ r2, sanitizeEffects (rulesPass raw) = .ok r2 := by
    apply sanitizeEffects_isOk
    by_cases hobj : isObjO (jget (rulesPass raw) "effects") = true
    · obtain ⟨e1, he1⟩ := (isObjO_true_iff _).mp hobj
      have hobj0 : isObjO (jget raw "effects") = true := by
        rw [← isObjO_rulesPass]; exact hobj
      obtain ⟨e0, he0⟩ := (isObjO_true_iff _).mp hobj0
      rw [he0] at heff
      simp only [effectsFloatable, Bool.and_eq_true] at heff
      have hcl : jget e1 "clarity" = (jget e0 "clarity").map (clampStep (-100) 100) := by
        rw [← getPath2_eq_jget _ _ _ _ he1,
          getPath2_rulesPass raw "effects" "clarity" "effects.clarity" (-100) 100 rfl,
          getPath2_eq_jget _ _ _ _ he0]
      have hdz : jget e1 "dehaze" = (jget e0 "dehaze").map (clampStep (-100) 100) := by
        rw [← getPath2_eq_jget _ _ _ _ he1,
          getPath2_rulesPass raw "effects" "dehaze" "effects.dehaze" (-100) 100 rfl,
          getPath2_eq_jget _ _ _ _ he0]
      rw [he1]
      simp only [effectsFloatable, Bool.and_eq_true]
      rw [hcl, hdz]
      exact ⟨floatableOpt_map_clampStep _ _ _ heff.1,
        floatableOpt_map_clampStep _ _ _ heff.2⟩
    · exact effectsFloatable_of_not_obj _ (by simpa using hobj)
  obtain ⟨r3, h3⟩ : ∃ r3, sanitizeHSL r2 = .ok r3 := by
    apply sanitizeHSL_isOk
    rw [sanitizeEffects_ok_other _ _ _ h2 (by decide),
      jget_rulesPass_other raw "hsl" (by decide)]
    exact hhsl
  obtain ⟨r4, h4⟩ : ∃ r4, sanitizeSplitToning r3 = .ok r4 := by
    apply sanitizeSplitToning_isOk
    have hchain : jget r3 "split_toning" = jget (rulesPass raw) "split_toning" := by
      rw [sanitizeHSL_ok_other _ _ _ h3 (by decide),
        sanitizeEffects_ok_other _ _ _ h2 (by decide)]
    rw [hchain]
    by_cases hobj : isObjO (jget raw "split_toning") = true
    · obtain ⟨st0, hst0⟩ := (isObjO_true_iff _).mp hobj
      have hobj1 : isObjO (jget (rulesPass raw) "split_toning") = true := by
        rw [isObjO_rulesPass]; exact hobj
      obtain ⟨st1, hst1⟩ := (isObjO_true_iff _).mp hobj1
      have hz : ∀ z, matchingRules _CLAMP_RULES "split_toning" z = [] →
          jget st1 z = jget st0 z := by
        intro z hm
        rw [← getPath2_eq_jget _ _ _ _ hst1, getPath2_rulesPass_id raw "split_toning" z hm,
          getPath2_eq_jget _ _ _ _ hst0]
      rw [hst0] at hst
      simp only [stFloatable, Bool.and_eq_true] at hst
      rw [hst1]
      simp only [stFloatable, Bool.and_eq_true]
      rw [hz "highlights" rfl, hz "midtones" rfl, hz "shadows" rfl]
      exact hst
    · have hfalse : isObjO (jget (rulesPass raw) "split_toning") = false := by
        rw [isObjO_rulesPass]; simpa using hobj
      exact stFloatable_of_not_obj _ hfalse
  obtain ⟨s, h5⟩ : ∃ s, sanitizeToneCurve r4 = .ok s := by
    apply sanitizeToneCurve_isOk
    rw [sanitizeSplitToning_ok_other _ _ _ h4 (by decide),
      sanitizeHSL_ok_other _ _ _ h3 (by decide),
      sanitizeEffects_ok_other _ _ _ h2 (by decide),
      jget_rulesPass_other raw "tone_curve" (by decide)]
    exact htc
  refine ⟨s, ?_⟩
  show (sanitizeEffects (rulesPass raw) >>= fun r2 => sanitizeHSL r2 >>= fun r3 =>
    sanitizeSplitToning r3 >>= fun r4 => sanitizeToneCurve r4) = .ok s
  rw [h2]
  show (sanitizeHSL r2 >>= fun r3 =>
    sanitizeSplitToning r3 >>= fun r4 => sanitizeToneCurve r4) = .ok s
  rw [h3]
  show (sanitizeSplitToning r3 >>= fun r4 => sanitizeToneCurve r4) = .ok s
  rw [h4]
  show sanitizeToneCurve r4 = .ok s
  exact h5

/-- Claim **C2** (counterexample).  `sanitize_ai_params` raises on
`{"effects": {"clarity": None}}`: the `effects` block calls
`float(effects["clarity"])` on a non-numeric value, a `TypeError` — the
claim's "values at known parameter paths are non-numeric (such values are
silently skipped)" fails at the `effects.clarity` path.  It also raises on
`{"tone_curve": {"points": [["10", 20]]}}`: the kept point's coordinate is
a numeric *string*, and `min(255, "10")` raises `TypeError`. -/
theorem sanitize_raises_on_null_clarity :
    sanitize_ai_params [("effects", .jobj [("clarity", .jnull)])] = .error () ∧
    sanitize_ai_params
      [("tone_curve", .jobj [("points", .jarr [.jarr [.jstr "10", .jnum 20]])])] =
      .error () :=
  ⟨rfl, rfl⟩

/-- Claim **C2** (witness). -/
theorem sanitize_ai_params_ok_of_safe_witness :
    SafeRaw [("effects", .jobj [("grain", .jnum 80), ("clarity", .jnum 90)])] = true ∧
    ∃ s, sanitize_ai_params [("effects", .jobj [("grain", .jnum 80), ("clarity", .jnum 90)])] =
      .ok s :=
  ⟨by decide, sanitize_ai_params_ok_of_safe _ (by decide)⟩

/-- Claim **C3** (counterexample).  On `{"basic": {"exposure": "500"}}` the
sanitizer returns successfully (the rule loop skips the non-`int`/`float`
string), yet `ColorParams(**s)` coerces `"500"` to `500.0` and raises a
range-validation error (`le=3` violated).  Likewise
`{"basic": {"exposure": "nan"}}` passes the sanitizer unchanged, coerces to
`float('nan')` under pydantic's default `allow_inf_nan`, and fails the
`le` comparison — a range error. -/
theorem sanitize_then_validate_range_error_cex :
    sanitize_ai_params [("basic", .jobj [("exposure", .jstr "500")])] =
      .ok [("basic", .jobj [("exposure", .jstr "500")])] ∧
    VKind.range ∈ validateColorParams [("basic", .jobj [("exposure", .jstr "500")])] ∧
    sanitize_ai_params [("basic", .jobj [("exposure", .jstr "nan")])] =
      .ok [("basic", .jobj [("exposure", .jstr "nan")])] ∧
    VKind.range ∈ validateColorParams [("basic", .jobj [("exposure", .jstr "nan")])] :=
  ⟨rfl, List.Mem.head _, rfl, List.Mem.head _⟩

/-- Claim **C3** (witness). -/
theorem sanitize_then_validate_no_range_error_witness :
    sanitize_ai_params [("basic", .jobj [("exposure", .jnum 999)])] =
      .ok [("basic", .jobj [("exposure", .jnum 3)])] ∧
    VKind.range ∉ validateColorParams [("basic", .jobj [("exposure", .jnum 3)])] :=
  ⟨rfl, sanitize_then_validate_no_range_error
    [("basic", .jobj [("exposure", .jnum 999)])]
    [("basic", .jobj [("exposure", .jnum 3)])] rfl
    (by intro f hf; fin_cases hf <;> exact trivial)⟩

/-- Claim **C4**.  After a successful `sanitize_ai_params(raw)` with a dict-valued
`raw["effects"]`: `grain` is exactly `0` regardless of its input value (or
absence); when present, `clarity` holds a number in `[-30, 30]` and `dehaze`
a number in `[-20, 25]`. -/
theorem sanitize_effects_postconditions (raw s e : Entries)
    (hj : jget raw "effects" = some (.jobj e))
    (hok : sanitize_ai_params raw = .ok s) :
    ∃ es, jget s "effects" = some (.jobj es) ∧
      jget es "grain" = some (.jnum 0) ∧
      (∀ v, jget es "clarity" = some v → ∃ q, v = .jnum q ∧ -30 ≤ q ∧ q ≤ 30) ∧
      (∀ v, jget es "dehaze" = some v → ∃ q, v = .jnum q ∧ -20 ≤ q ∧ q ≤ 25) := by
  obtain ⟨r2, r3, r4, h2, h3, h4, h5⟩ := sanitize_ok_decomp raw s hok
  have hobj1 : isObjO (jget (rulesPass raw) "effects") = true := by
    rw [isObjO_rulesPass, hj]; rfl
  obtain ⟨e1, he1⟩ := (isObjO_true_iff _).mp hobj1
  obtain ⟨e3, hr2eq, hgrain, _, hcl, hdh⟩ := sanitizeEffects_obj_ok _ _ _ he1 h2
  have heffchain : jget s "effects" = jget r2 "effects" := by
    rw [sanitizeToneCurve_ok_other _ _ _ h5 (by decide),
      sanitizeSplitToning_ok_other _ _ _ h4 (by decide),
      sanitizeHSL_ok_other _ _ _ h3 (by decide)]
  refine ⟨e3, by rw [heffchain, hr2eq, jget_jset_self], hgrain, ?_, ?_⟩
  · intro v hv
    rcases hcl with ⟨_, hnone⟩ | ⟨q, hq⟩
    · rw [hnone] at hv; cases hv
    · rw [hq] at hv
      injection hv with hv
      exact ⟨_clamp q (-30) 30, hv.symm, (_clamp_le q (-30) 30 (by norm_num)).1,
        (_clamp_le q (-30) 30 (by norm_num)).2⟩
  · intro v hv
    rcases hdh with ⟨_, hnone⟩ | ⟨q, hq⟩
    · rw [hnone] at hv; cases hv
    · rw [hq] at hv
      injection hv with hv
      exact ⟨_clamp q (-20) 25, hv.symm, (_clamp_le q (-20) 25 (by norm_num)).1,
        (_clamp_le q (-20) 25 (by norm_num)).2⟩

/-- Claim **C4** (witness): the spec's end-to-end scenario
`{"effects": {"grain": 80, "clarity": 90}}` — `grain` becomes `0`,
`clarity` becomes `30 ≤ 30`. -/
theorem sanitize_effects_postconditions_witness :
    sanitize_ai_params [("effects", .jobj [("grain", .jnum 80), ("clarity", .jnum 90)])] =
      .ok [("effects", .jobj [("grain", .jnum 0), ("clarity", .jnum 30)])] ∧
    ∃ es, jget [("effects", JVal.jobj [("grain", .jnum 0), ("clarity", .jnum 30)])]
        "effects" = some (.jobj es) ∧
      jget es "grain" = some (.jnum 0) ∧
      (∀ v, jget es "clarity" = some v → ∃ q, v = .jnum q ∧ -30 ≤ q ∧ q ≤ 30) ∧
      (∀ v, jget es "dehaze" = some v → ∃ q, v = .jnum q ∧ -20 ≤ q ∧ q ≤ 25) :=
  ⟨rfl, sanitize_effects_postconditions
    [("effects", .jobj [("grain", .jnum 80), ("clarity", .jnum 90)])]
    [("effects", .jobj [("grain", .jnum 0), ("clarity", .jnum 30)])]
    [("grain", .jnum 80), ("clarity", .jnum 90)] rfl rfl⟩

/-- Claim **C6** (counterexample).  The point `[1, 2, 3]` is not a 2-element
sequence, yet sanitization keeps it (the code keeps `len(p) >= 2`),
truncating it to its first two coordinates instead of dropping it. -/
theorem tone_curve_long_point_kept_cex :
    sanitize_ai_params
        [("tone_curve", .jobj [("points", .jarr [.jarr [.jnum 1, .jnum 2, .jnum 3]])])] =
      .ok [("tone_curve", .jobj [("points", .jarr [.jarr [.jnum 1, .jnum 2]])])] ∧
    JVal.jarr [JVal.jarr [.jnum 1, .jnum 2]] ≠ .jarr [] :=
  ⟨rfl, by simp⟩

/-- Claim **C6** (amended).  For each tone-curve array present as a list,
sanitization drops every point that is not a sequence of length ≥ 2 and maps
every kept point to its first two coordinates clamped to `[0, 255]` and
truncated to integers (`sanitizePointSpec`). -/
theorem tone_curve_array_sanitization (raw s tc : Entries) (key : String)
    (pts : List JVal)
    (hok : sanitize_ai_params raw = .ok s)
    (hj : jget raw "tone_curve" = some (.jobj tc))
    (hkey : key = "points" ∨ key = "red" ∨ key = "green" ∨ key = "blue")
    (hpts : jget tc key = some (.jarr pts)) :
    ∃ tc4, jget s "tone_curve" = some (.jobj tc4) ∧
      jget tc4 key = some (.jarr (pts.filterMap sanitizePointSpec)) := by
  obtain ⟨r2, r3, r4, h2, h3, h4, h5⟩ := sanitize_ok_decomp raw s hok
  have hr4tc : jget r4 "tone_curve" = some (.jobj tc) := by
    rw [sanitizeSplitToning_ok_other _ _ _ h4 (by decide),
      sanitizeHSL_ok_other _ _ _ h3 (by decide),
      sanitizeEffects_ok_other _ _ _ h2 (by decide),
      jget_rulesPass_other raw "tone_curve" (by decide)]
    exact hj
  obtain ⟨tc4, hseq, hP, hR, hG, hB⟩ := sanitizeToneCurve_obj_ok _ _ _ hr4tc h5
  refine ⟨tc4, by rw [hseq, jget_jset_self], ?_⟩
  rcases hkey with h | h | h | h <;> subst h
  exacts [hP pts hpts, hR pts hpts, hG pts hpts, hB pts hpts]

/-- Claim **C6** (witness). -/
theorem tone_curve_array_sanitization_witness :
    ∃ tc4,
      jget [("tone_curve", JVal.jobj [("points", .jarr [.jarr [.jnum 1, .jnum 2, .jnum 3]])])]
          "tone_curve" = some (.jobj [("points", JVal.jarr [.jarr [.jnum 1, .jnum 2, .jnum 3]])]) ∧
      jget
        (match sanitize_ai_params
            [("tone_curve", .jobj [("points", .jarr [.jarr [.jnum 1, .jnum 2, .jnum 3]])])] with
          | .ok s => s
          | .error _ => []) "tone_curve" = some (.jobj tc4) ∧
      jget tc4 "points" =
        some (.jarr ([JVal.jarr [.jnum 1, .jnum 2, .jnum 3]].filterMap sanitizePointSpec)) := by
  obtain ⟨tc4, h1, h2⟩ := tone_curve_array_sanitization
    [("tone_curve", .jobj [("points", .jarr [.jarr [.jnum 1, .jnum 2, .jnum 3]])])]
    [("tone_curve", .jobj [("points", .jarr [.jarr [.jnum 1, .jnum 2]])])]
    [("points", .jarr [.jarr [.jnum 1, .jnum 2, .jnum 3]])]
    "points" [.jarr [.jnum 1, .jnum 2, .jnum 3]]
    rfl rfl (Or.inl rfl) rfl
  exact ⟨tc4, rfl, h1, h2⟩

/-! ## `ai_provider.py`: JSON extraction and parsing

`json.loads` is modelled by a fuel-based recursive-descent parser over the
RFC 8259 grammar as CPython's `json` accepts it (whitespace = space, tab,
newline, carriage return; strict strings — raw control characters are
rejected; numbers without leading zeros; `\uXXXX` escapes are decoded to the
code unit, unpaired surrogates become `U+0000`).  CPython's non-standard
`NaN`/`Infinity` literals are not modelled; no claim exercises them. -/

def jsonWs (c : Char) : Bool := c = ' ' ∨ c = '\t' ∨ c = '\n' ∨ c = '\r'

def skipWs (cs : List Char) : List Char := cs.dropWhile jsonWs

def hexVal (c : Char) : Option ℕ :=
  if '0' ≤ c ∧ c ≤ '9' then some (c.toNat - '0'.toNat)
  else if 'a' ≤ c ∧ c ≤ 'f' then some (c.toNat - 'a'.toNat + 10)
  else if 'A' ≤ c ∧ c ≤ 'F' then some (c.toNat - 'A'.toNat + 10)
  else none

/-- One string escape after a backslash; returns the character and the rest. -/
def decodeEscape : List Char → Option (Char × List Char)
  | '"' :: rest => some ('"', rest)
  | '\\' :: rest => some ('\\', rest)
  | '/' :: rest => some ('/', rest)
  | 'b' :: rest => some ('\x08', rest)
  | 'f' :: rest => some ('\x0c', rest)
  | 'n' :: rest => some ('\n', rest)
  | 'r' :: rest => some ('\r', rest)
  | 't' :: rest => some ('\t', rest)
  | 'u' :: a :: b :: c :: d :: rest => do
      let va ← hexVal a
      let vb ← hexVal b
      let vc ← hexVal c
      let vd ← hexVal d
      pure (Char.ofNat (((va * 16 + vb) * 16 + vc) * 16 + vd), rest)
  | _ => none

/-- JSON number: `-?(0|[1-9][0-9]*)(.[0-9]+)?([eE][-+]?[0-9]+)?`, maximal
munch exactly as CPython's `NUMBER_RE`. -/
def parseJsonNumber (cs : List Char) : Option (ℚ × List Char) :=
  let (neg, cs1) : Bool × List Char :=
    match cs with
    | '-' :: r => (true, r)
    | _ => (false, cs)
  let base : Option (ℚ × List Char) :=
    match cs1 with
    | '0' :: rest => some (afterInt 0 rest)
    | c :: _ =>
        if c.isDigit ∧ c ≠ '0' then
          let ds := cs1.takeWhile Char.isDigit
          some (afterInt (digitsToNat ds) (cs1.dropWhile Char.isDigit))
        else none
    | [] => none
  base.map fun qr => (if neg then -qr.1 else qr.1, qr.2)
where
  afterInt (ip : ℕ) (rest : List Char) : ℚ × List Char :=
    let (m, rest2) : ℚ × List Char :=
      match rest with
      | '.' :: ds =>
          let fs := ds.takeWhile Char.isDigit
          if fs = [] then ((ip : ℚ), rest)
          else ((ip : ℚ) + (digitsToNat fs : ℚ) / (10 : ℚ) ^ fs.length,
            ds.dropWhile Char.isDigit)
      | _ => ((ip : ℚ), rest)
    match rest2 with
    | e :: sgn :: ds =>
        if e = 'e' ∨ e = 'E' then
          if sgn = '+' ∨ sgn = '-' then
            let es := ds.takeWhile Char.isDigit
            if es = [] then (m, rest2)
            else ((if sgn = '-' then m / (10 : ℚ) ^ digitsToNat es
                   else m * (10 : ℚ) ^ digitsToNat es), ds.dropWhile Char.isDigit)
          else
            let es := (sgn :: ds).takeWhile Char.isDigit
            if es = [] then (m, rest2)
            else (m * (10 : ℚ) ^ digitsToNat es, (sgn :: ds).dropWhile Char.isDigit)
        else (m, rest2)
    | [e] =>
        -- a bare trailing 'e' with no digits is not consumed
        (m, [e])
    | [] => (m, [])

mutual

/-- Parse one JSON value at the head of the input (no leading whitespace). -/
def parseVal : ℕ → List Char → Option (JVal × List Char)
  | 0, _ => none
  | fuel + 1, cs =>
      match cs with
      | '{' :: rest =>
          match skipWs rest with
          | '}' :: rest2 => some (.jobj [], rest2)
          | rest2 => do
              let (kvs, rest3) ← parseMembers fuel rest2
              pure (.jobj kvs, rest3)
      | '[' :: rest =>
          match skipWs rest with
          | ']' :: rest2 => some (.jarr [], rest2)
          | rest2 => do
              let (xs, rest3) ← parseElems fuel rest2
              pure (.jarr xs, rest3)
      | '"' :: rest => do
          let (s, rest2) ← parseStringBody fuel rest
          pure (.jstr (String.mk s), rest2)
      | 't' :: 'r' :: 'u' :: 'e' :: rest => some (.jbool true, rest)
      | 'f' :: 'a' :: 'l' :: 's' :: 'e' :: rest => some (.jbool false, rest)
      | 'n' :: 'u' :: 'l' :: 'l' :: rest => some (.jnull, rest)
      | _ => do
          let (q, rest) ← parseJsonNumber cs
          pure (.jnum q, rest)

/-- Object members, positioned at a key (or garbage). -/
def parseMembers : ℕ → List Char → Option (List (String × JVal) × List Char)
  | 0, _ => none
  | fuel + 1, cs =>
      match cs with
      | '"' :: rest => do
          let (k, rest2) ← parseStringBody fuel rest
          match skipWs rest2 with
          | ':' :: rest3 => do
              let (v, rest4) ← parseVal fuel (skipWs rest3)
              match skipWs rest4 with
              | ',' :: rest5 => do
                  let (kvs, rest6) ← parseMembers fuel (skipWs rest5)
                  pure ((String.mk k, v) :: kvs, rest6)
              | '}' :: rest5 => pure ([(String.mk k, v)], rest5)
              | _ => none
          | _ => none
      | _ => none

/-- Array elements, positioned at a value (or garbage). -/
def parseElems : ℕ → List Char → Option (List JVal × List Char)
  | 0, _ => none
  | fuel + 1, cs => do
      let (v, rest) ← parseVal fuel cs
      match skipWs rest with
      | ',' :: rest2 => do
          let (xs, rest3) ← parseElems fuel (skipWs rest2)
          pure (v :: xs, rest3)
      | ']' :: rest2 => pure ([v], rest2)
      | _ => none

/-- String body after the opening quote, up to the closing quote. -/
def parseStringBody : ℕ → List Char → Option (List Char × List Char)
  | 0, _ => none
  | fuel + 1, cs =>
      match cs with
      | [] => none
      | '"' :: rest => some ([], rest)
      | '\\' :: rest => do
          let (c, rest2) ← decodeEscape rest
          let (s, rest3) ← parseStringBody fuel rest2
          pure (c :: s, rest3)
      | c :: rest =>
          if c.toNat < 32 then none
          else do
            let (s, rest2) ← parseStringBody fuel rest
            pure (c :: s, rest2)

end

/-- Models `json.loads(s)`: parse one value surrounded only by whitespace. -/
def pyJsonParse (s : String) : Option JVal :=
  match parseVal (s.length + 1) (skipWs s.toList) with
  | some (v, rest) => if skipWs rest = [] then some v else none
  | none => none

/-- Python `str.strip()`. -/
def pyStrip (s : String) : String :=
  String.mk (((s.toList.dropWhile isWsChar).reverse.dropWhile isWsChar).reverse)

/-- Models `re.sub(r'^```(?:json)?\s*', '', text)`: remove one leading fence. -/
def stripLeadFence (s : String) : String :=
  match s.toList with
  | '`' :: '`' :: '`' :: rest =>
      let rest2 :=
        match rest with
        | 'j' :: 's' :: 'o' :: 'n' :: r => r
        | _ => rest
      String.mk (rest2.dropWhile isWsChar)
  | _ => s

/-- Models `re.sub(r'\s*```$', '', text)` on a pre-stripped string (no trailing
newline, so `$` is the end of the string). -/
def stripTrailFence (s : String) : String :=
  match s.toList.reverse with
  | '`' :: '`' :: '`' :: rest => String.mk (rest.dropWhile isWsChar).reverse
  | _ => s

/-- The fence-stripping prefix of `_extract_json`:
`strip`, drop fences, `strip` again. -/
def stripFences (text : String) : String :=
  pyStrip (stripTrailFence (stripLeadFence (pyStrip text)))

/-- Python `str.find` (first index of `c`, else `-1`). -/
def pyFind (cs : List Char) (c : Char) : Int :=
  match cs.findIdx? (· = c) with
  | some i => i
  | none => -1

/-- Python `str.rfind` (last index of `c`, else `-1`). -/
def pyRFind (cs : List Char) (c : Char) : Int :=
  match cs.reverse.findIdx? (· = c) with
  | some i => (cs.length - 1 - i : ℕ)
  | none => -1

/-- State of `_repair_truncated_json`'s brace-depth scan. -/
structure RepairState where
  depth : Int
  inString : Bool
  escapeNext : Bool
  lastEnd : Int

def repairStep (st : RepairState) (ic : ℕ × Char) : RepairState :=
  if st.escapeNext then { st with escapeNext := false }
  else if ic.2 = '\\' then
    if st.inString then { st with escapeNext := true } else st
  else if ic.2 = '"' then { st with inString := !st.inString }
  else if st.inString then st
  else if ic.2 = '{' then { st with depth := st.depth + 1 }
  else if ic.2 = '}' then
    let d := st.depth - 1
    if d = 0 then { st with depth := d, lastEnd := ic.1 }
    else { st with depth := d }
  else st

/-- Models `ai_provider._repair_truncated_json`. -/
def _repair_truncated_json (text : String) : String :=
  let text := pyStrip text
  match text.toList with
  | '[' :: _ =>
      let st := (text.toList.enum).foldl repairStep ⟨0, false, false, -1⟩
      if st.lastEnd > 0 then
        let kept := text.toList.take (st.lastEnd.toNat + 1)
        let repaired := String.mk
          (((kept.reverse.dropWhile isWsChar).dropWhile (· = ',')).reverse ++ ['\n', ']'])
        if (pyJsonParse repaired).isSome then repaired else text
      else text
  | _ => text

/-- The two bracket-delimited candidates (first `'['` to last `']'`, first
`'{'` to last `'}'`), keeping those that parse as JSON. -/
def bracketCandidates (cs : List Char) : List (List Char) :=
  [('[', ']'), ('{', '}')].filterMap fun p =>
    let start := pyFind cs p.1
    let stop := pyRFind cs p.2
    if start ≠ -1 ∧ stop ≠ -1 ∧ start < stop then
      let cand := (cs.drop start.toNat).take (stop.toNat + 1 - start.toNat)
      if (pyJsonParse (String.mk cand)).isSome then some cand else none
    else none

/-- Python `max(candidates, key=len)`: first candidate of maximal length. -/
def maxByLen : List (List Char) → Option (List Char)
  | [] => none
  | c :: rest => some (rest.foldl (fun best x => if x.length > best.length then x else best) c)

/-- Models `ai_provider._extract_json`. -/
def _extract_json (text : String) : String :=
  if text = "" then ""
  else
    let t := stripFences text
    if (pyJsonParse t).isSome then t
    else
      match maxByLen (bracketCandidates t.toList) with
      | some cand => String.mk cand
      | none =>
          let repaired := _repair_truncated_json t
          if repaired ≠ t then repaired else t

/-- The two ways `AIProvider._parse_json_response` raises `ValueError`. -/
inductive AIParseErr where
  | empty : AIParseErr
  | invalid : String → AIParseErr

/-- Models `AIProvider._parse_json_response`: empty response or unparseable JSON
raise (never returning default data); the parse error carries
`response[:300]` as its preview. -/
def _parse_json_response (response : String) : Except AIParseErr JVal :=
  if response = "" then .error .empty
  else
    match pyJsonParse (_extract_json response) with
    | some v => .ok v
    | none => .error (.invalid (String.mk (response.toList.take 300)))

/-- The specification's reading of "the longest valid bracket-delimited
(`[...]` or `{...}`) substring of the text": among all contiguous substrings
that start with `'['` or `'{'` and parse as JSON (hence end with the matching
bracket), the longest (first such on a tie).  Used to compare the spec's
words with the code's candidate construction. -/
def specLongestBracketSub (t : String) : Option (List Char) :=
  let cs := t.toList
  let n := cs.length
  maxByLen <| ((List.range (n + 1)).flatMap fun i =>
    (List.range (n + 1)).map fun j => (cs.drop i).take (j - i)).filter fun sub =>
      (match sub.head?, sub.getLast? with
       | some '[', some ']' => true
       | some '{', some '}' => true
       | _, _ => false) && (pyJsonParse (String.mk sub)).isSome

/-- Claim **C7** (amended).  `_extract_json` strips markdown fences and
returns the fence-stripped text when it parses directly; otherwise it
returns the longest *directly-parsing* candidate among the two
bracket-delimited candidates the code forms (first `'['` to last `']'`,
first `'{'` to last `'}'`) — not the longest valid bracket-delimited
substring of the text (see the counterexample); when neither candidate
parses, it applies truncation repair to the whole fence-stripped text and
returns the repaired string when that differs (the repair function only
returns a changed string when it parses), else the fence-stripped text
unchanged.  On the spec's example the extraction yields `[{"a":1}]`, which
parses to a one-element array containing `{"a": 1}`; on the truncated
`[{"a":1}, {"b": "x}y"` it returns the repaired `[{"a":1}\n]`. -/
theorem extract_json_behaviour :
    (∀ text : String, text ≠ "" → (pyJsonParse (stripFences text)).isSome = true →
      _extract_json text = stripFences text) ∧
    (∀ text : String, text ≠ "" → pyJsonParse (stripFences text) = none →
      ∀ c, maxByLen (bracketCandidates (stripFences text).toList) = some c →
      _extract_json text = String.mk c) ∧
    (∀ text : String, text ≠ "" → pyJsonParse (stripFences text) = none →
      maxByLen (bracketCandidates (stripFences text).toList) = none →
      _extract_json text =
        (if _repair_truncated_json (stripFences text) ≠ stripFences text then
          _repair_truncated_json (stripFences text)
        else stripFences text)) ∧
    _extract_json "Here:\n```json\n[\x7b\"a\":1\x7d]\n```\nthanks" = "[\x7b\"a\":1\x7d]" ∧
    pyJsonParse "[\x7b\"a\":1\x7d]" = some (.jarr [.jobj [("a", .jnum 1)]]) ∧
    _extract_json "[\x7b\"a\":1\x7d, \x7b\"b\": \"x\x7dy\"" = "[\x7b\"a\":1\x7d\n]" := by
  refine ⟨?_, ?_, ?_, rfl, rfl, rfl⟩
  · intro text hne hsome
    simp only [_extract_json, if_neg hne]
    rw [if_pos hsome]
  · intro text hne hnone c hmax
    have hns : ¬((pyJsonParse (stripFences text)).isSome = true) := by
      rw [hnone]; simp
    simp only [_extract_json, if_neg hne]
    rw [if_neg hns, hmax]
  · intro text hne hnone hmax
    have hns : ¬((pyJsonParse (stripFences text)).isSome = true) := by
      rw [hnone]; simp
    simp only [_extract_json, if_neg hne]
    rw [if_neg hns, hmax]

/-- Claim **C7** (counterexample).  On `"[1] [2]"` the longest valid
bracket-delimited substring is `"[1]"`, but `_extract_json` only tries the
span from the first `'['` to the last `']'` (invalid here); truncation
repair finds no complete top-level `{...}` object either (the scan tracks
brace depth only), so the text comes back unchanged. -/
theorem extract_json_not_longest_substring :
    specLongestBracketSub "[1] [2]" = some ['[', '1', ']'] ∧
    _extract_json "[1] [2]" = "[1] [2]" ∧
    ("[1] [2]" : String) ≠ "[1]" :=
  ⟨rfl, rfl, by decide⟩

/-- Claim **C7** (witness). -/
theorem extract_json_behaviour_witness :
    ("Here:\n```json\n[\x7b\"a\":1\x7d]\n```\nthanks" : String) ≠ "" ∧
    _extract_json "Here:\n```json\n[\x7b\"a\":1\x7d]\n```\nthanks" =
      String.mk ("[\x7b\"a\":1\x7d]" : String).toList :=
  ⟨by decide,
    extract_json_behaviour.2.1 "Here:\n```json\n[\x7b\"a\":1\x7d]\n```\nthanks"
      (by decide) rfl ("[\x7b\"a\":1\x7d]" : String).toList rfl⟩

/-- Claim **C8**.  `_parse_json_response` errors exactly when the response is empty
or no parseable JSON is found after fence-stripping / candidate extraction /
truncation repair (the error branch returns no data at all in the model —
never empty or default data), and the parse-failure error carries the
preview `response[:300]`, of length at most 300. -/
theorem parse_json_response_spec (response : String) :
    ((∃ e, _parse_json_response response = .error e) ↔
      (response = "" ∨ pyJsonParse (_extract_json response) = none)) ∧
    (∀ p, _parse_json_response response = .error (.invalid p) → p.length ≤ 300) := by
  constructor
  · constructor
    · rintro ⟨e, he⟩
      unfold _parse_json_response at he
      by_cases hr : response = ""
      · exact Or.inl hr
      · rw [if_neg hr] at he
        cases hp : pyJsonParse (_extract_json response) with
        | some v => rw [hp] at he; simp at he
        | none => exact Or.inr rfl
    · intro h
      unfold _parse_json_response
      by_cases hr : response = ""
      · rw [if_pos hr]; exact ⟨.empty, rfl⟩
      · rcases h with h | hp
        · exact absurd h hr
        · rw [if_neg hr, hp]
          exact ⟨_, rfl⟩
  · intro p hp
    unfold _parse_json_response at hp
    by_cases hr : response = ""
    · rw [if_pos hr] at hp; simp at hp
    · rw [if_neg hr] at hp
      cases hq : pyJsonParse (_extract_json response) with
      | some v => rw [hq] at hp; simp at hp
      | none =>
          rw [hq] at hp
          injection hp with hp
          injection hp with hp
          rw [← hp]
          show (response.toList.take 300).length ≤ 300
          rw [List.length_take]
          exact min_le_left _ _

/-- Claim **C8** (witness). -/
theorem parse_json_response_spec_witness :
    _parse_json_response "x" = .error (.invalid "x") ∧
    ("x" : String).length ≤ 300 ∧
    ((∃ e, _parse_json_response "x" = .error e) ↔
      (("x" : String) = "" ∨ pyJsonParse (_extract_json "x") = none)) :=
  ⟨rfl, (parse_json_response_spec "x").2 "x" rfl, (parse_json_response_spec "x").1⟩

/-! ## The image model (`src/backend/app/core/image_ops.py`,
`src/backend/app/services/image_processor.py`)

A float32 RGB image is a list of rows of RGB pixels with rational values; a
single-channel matrix (grayscale / mask) is a list of rows of rationals.
Transcendental numpy/OpenCV primitives (powers with non-integer exponents,
cosine, cubic-spline evaluation, Gaussian blur, the RNG, the uint8
grayscale conversion and the dark-channel atmospheric estimate) have no
rational closed form; they are collected in an `Env` of opaque function
parameters, and every theorem about the image pipeline quantifies over the
`Env`.  Everything else (clamping, luminance weights, HSL conversion
arithmetic, masks, blending) is translated concretely. -/

abbrev Pixel : Type := ℚ × ℚ × ℚ

abbrev Image : Type := List (List Pixel)

abbrev Mat : Type := List (List ℚ)

/-- The opaque numeric primitives of the pipeline.  `pow24 x` models
`x ** 2.4`, `powInv24 x` models `x ** (1/2.4)`, `pow2 ev` models
`2.0 ** ev`, `splineAt pts t` models evaluating the clamped
`CubicSpline` through `pts` at `t`, `deg2rad`/`cosRad` model
`np.deg2rad`/`np.cos`, `grayU8 img` models
`cv2.cvtColor((img*255).astype(uint8), COLOR_RGB2GRAY)`,
`gaussBlurSigma m s` models `cv2.GaussianBlur(m, (0,0), sigmaX=s)`,
`gaussBlurK m k` models `cv2.GaussianBlur(m, (k,k), 0)`,
`atmosOf img` models the top-0.1%%-of-dark-channel atmospheric light
estimate, and `noiseAt i j` models a standard-normal sample per pixel
(so `np.random.normal(0, s, shape)` is `s • noiseAt i j`).
The last four fields are the bodies of the four image operations that
`apply_params` calls but that are missing from `src/image_ops.py`
(`apply_split_toning_3way`, `adjust_texture`, `apply_fade`,
`apply_sharpening`); they are opaque apart from the spec-mandated
neutral-default short-circuit added in their wrappers below. -/
structure Env where
  pow24 : ℚ → ℚ
  powInv24 : ℚ → ℚ
  pow2 : ℚ → ℚ
  splineAt : List (ℚ × ℚ) → ℚ → ℚ
  deg2rad : ℚ → ℚ
  cosRad : ℚ → ℚ
  grayU8 : Image → Mat
  gaussBlurSigma : Mat → ℚ → Mat
  gaussBlurK : Mat → ℤ → Mat
  atmosOf : Image → ℚ × ℚ × ℚ
  noiseAt : ℕ → ℕ → ℚ × ℚ × ℚ
  splitTone3Body : Image → ℚ → ℚ → ℚ → ℚ → ℚ → ℚ → ℚ → Image
  textureBody : Image → ℚ → Image
  fadeBody : Image → ℚ → Image
  sharpenBody : Image → ℚ → ℚ → Image

/-- A concrete environment (identity-ish fillers), used by witnesses. -/
def trivEnv : Env :=
  ⟨id, id, fun _ => 1, fun _ _ => 0, id, id, fun _ => [], fun m _ => m,
   fun m _ => m, fun _ => (0, 0, 0), fun _ _ => (0, 0, 0),
   fun i _ _ _ _ _ _ _ => i, fun i _ => i, fun i _ => i, fun i _ _ => i⟩

/-- Map a per-pixel function over an image (numpy broadcasting). -/
def mapImg (f : Pixel → Pixel) (img : Image) : Image :=
  img.map (List.map f)

/-- Models `np.clip(img, 0.0, 1.0)` componentwise — image_ops' one-argument
`_clamp` (distinct from color_params' three-argument `_clamp` above). -/
def clampPx (p : Pixel) : Pixel := (clip01 p.1, clip01 p.2.1, clip01 p.2.2)

/-- Rec. 709 luminance `0.2126 r + 0.7152 g + 0.0722 b`. -/
def luminance (p : Pixel) : ℚ :=
  2126/10000 * p.1 + 7152/10000 * p.2.1 + 722/10000 * p.2.2

/-- Models `_srgb_to_linear` on a scalar:
`np.where(v <= 0.04045, v / 12.92, ((v + 0.055) / 1.055) ** 2.4)`. -/
def srgbToLinear (e : Env) (v : ℚ) : ℚ :=
  if v ≤ 4045/100000 then v / (1292/100)
  else e.pow24 ((v + 55/1000) / (1055/1000))

/-- Models `_linear_to_srgb` on a scalar:
`np.where(v <= 0.0031308, v * 12.92, 1.055 * max(v,0) ** (1/2.4) - 0.055)`. -/
def linearToSrgb (e : Env) (v : ℚ) : ℚ :=
  if v ≤ 31308/10000000 then v * (1292/100)
  else 1055/1000 * e.powInv24 (max v 0) - 55/1000

/-- Models `_rgb_to_hsl` on one pixel.  The three numpy mask assignments write
`h[mask_r]`, then `h[mask_g]`, then `h[mask_b]`, so where `cmax` ties the
later write wins: per pixel the effective priority is blue, then green,
then red. -/
def rgbToHsl (p : Pixel) : ℚ × ℚ × ℚ :=
  let r := p.1
  let g := p.2.1
  let b := p.2.2
  let cmax := max (max r g) b
  let cmin := min (min r g) b
  let delta := cmax - cmin
  let l := (cmax + cmin) / 2
  let s := if delta = 0 then 0 else delta / (1 - |2 * l - 1| + 1/10000000000)
  let h :=
    if cmax = b ∧ delta > 0 then 60 * ((r - g) / (delta + 1/10000000000) + 4)
    else if cmax = g ∧ delta > 0 then 60 * ((b - r) / (delta + 1/10000000000) + 2)
    else if cmax = r ∧ delta > 0 then 60 * qmod ((g - b) / (delta + 1/10000000000)) 6
    else 0
  (qmod h 360, s, l)

/-- Models `_hsl_to_rgb` on one pixel.  `h_sector = (h/60).astype(int) %% 6`
(numpy truncation toward zero, then nonnegative integer modulus); the six
sector masks are disjoint so the mask assignments are a plain case split,
with the `np.zeros_like` initial value in the unreachable default. -/
def hslToRgb (hsl : ℚ × ℚ × ℚ) : Pixel :=
  let h := hsl.1
  let s := hsl.2.1
  let l := hsl.2.2
  let c := (1 - |2 * l - 1|) * s
  let x := c * (1 - |qmod (h / 60) 2 - 1|)
  let m := l - c / 2
  let sector := pyTrunc (h / 60) % 6
  let rgb : ℚ × ℚ × ℚ :=
    if sector = 0 then (c, x, 0)
    else if sector = 1 then (x, c, 0)
    else if sector = 2 then (0, c, x)
    else if sector = 3 then (0, x, c)
    else if sector = 4 then (x, 0, c)
    else if sector = 5 then (c, 0, x)
    else (0, 0, 0)
  clampPx (rgb.1 + m, rgb.2.1 + m, rgb.2.2 + m)

/-- Models `adjust_exposure`. -/
def adjust_exposure (e : Env) (img : Image) (ev : ℚ) : Image :=
  if ev = 0 then img
  else
    mapImg (fun p =>
      let lin := (srgbToLinear e p.1, srgbToLinear e p.2.1, srgbToLinear e p.2.2)
      let f := e.pow2 ev
      clampPx (linearToSrgb e (lin.1 * f), linearToSrgb e (lin.2.1 * f),
               linearToSrgb e (lin.2.2 * f))) img

/-- Models `adjust_contrast`. -/
def adjust_contrast (img : Image) (amount : ℚ) : Image :=
  if amount = 0 then img
  else
    let factor := (amount + 100) / 100
    mapImg (fun p =>
      clampPx (1/2 + factor * (p.1 - 1/2), 1/2 + factor * (p.2.1 - 1/2),
               1/2 + factor * (p.2.2 - 1/2))) img

/-- Models `adjust_highlights`. -/
def adjust_highlights (img : Image) (amount : ℚ) : Image :=
  if amount = 0 then img
  else
    let strength := amount / 100
    mapImg (fun p =>
      let lum := luminance p
      let weight := clip01 ((lum - 1/2) * 2) ^ 2
      let adj := strength * weight * (1/2)
      clampPx (p.1 + adj, p.2.1 + adj, p.2.2 + adj)) img

/-- Models `adjust_shadows`. -/
def adjust_shadows (img : Image) (amount : ℚ) : Image :=
  if amount = 0 then img
  else
    let strength := amount / 100
    mapImg (fun p =>
      let lum := luminance p
      let weight := clip01 ((1/2 - lum) * 2) ^ 2
      let adj := strength * weight * (1/2)
      clampPx (p.1 + adj, p.2.1 + adj, p.2.2 + adj)) img

/-- Models `adjust_whites`. -/
def adjust_whites (img : Image) (amount : ℚ) : Image :=
  if amount = 0 then img
  else
    let strength := amount / 200
    mapImg (fun p =>
      let lum := luminance p
      let weight := clip01 ((lum - 7/10) * (33/10))
      clampPx (p.1 + strength * weight, p.2.1 + strength * weight,
               p.2.2 + strength * weight)) img

/-- Models `adjust_blacks`. -/
def adjust_blacks (img : Image) (amount : ℚ) : Image :=
  if amount = 0 then img
  else
    let strength := amount / 200
    mapImg (fun p =>
      let lum := luminance p
      let weight := clip01 ((3/10 - lum) * (33/10))
      clampPx (p.1 + strength * weight, p.2.1 + strength * weight,
               p.2.2 + strength * weight)) img

/-- Models `adjust_temperature` (neutral at 6500 K). -/
def adjust_temperature (img : Image) (kelvin : ℚ) : Image :=
  if kelvin = 6500 then img
  else
    let shift := (kelvin - 6500) / 5500
    let strength := shift * (15/100)
    mapImg (fun p => clampPx (p.1 + strength, p.2.1, p.2.2 - strength)) img

/-- Models `adjust_tint`. -/
def adjust_tint (img : Image) (amount : ℚ) : Image :=
  if amount = 0 then img
  else
    let strength := amount / 100 * (1/10)
    mapImg (fun p =>
      clampPx (p.1 + strength * (1/2), p.2.1 - strength,
               p.2.2 + strength * (1/2))) img

/-- Models `adjust_vibrance`. -/
def adjust_vibrance (img : Image) (amount : ℚ) : Image :=
  if amount = 0 then img
  else
    let strength := amount / 100
    mapImg (fun p =>
      let hsl := rgbToHsl p
      let boost := strength * (1 - hsl.2.1) * (1/2)
      hslToRgb (hsl.1, clip01 (hsl.2.1 + boost), hsl.2.2)) img

/-- Models `adjust_saturation`. -/
def adjust_saturation (img : Image) (amount : ℚ) : Image :=
  if amount = 0 then img
  else
    let factor := (amount + 100) / 100
    mapImg (fun p =>
      let gray := luminance p
      clampPx (gray + factor * (p.1 - gray), gray + factor * (p.2.1 - gray),
               gray + factor * (p.2.2 - gray))) img

/-- Models `(v * 255).astype(np.uint8)` on a scalar (wraps modulo 256). -/
def u8of (v : ℚ) : ℕ := ((pyTrunc (v * 255)) % 256).toNat

/-- Models `_build_lut` as a lookup function: index `i ∈ [0,255]` to LUT value.
`sorted(pts, key=lambda p: p[0])` is a stable sort on the first coordinate
(`p[0]`/`p[1]` modelled with default `0`, unreachable for the validated
2-element points the pipeline passes); fewer than two points gives the
identity `np.linspace(0,1,256)` table, else the clamped cubic spline
through the points, clipped to `[0,1]`. -/
def buildLut (e : Env) (pts : List (List ℤ)) (i : ℕ) : ℚ :=
  let ptsSorted := pts.mergeSort (fun p q => p.headD 0 ≤ q.headD 0)
  let xs := ptsSorted.map (fun p => (p.headD 0 : ℚ) / 255)
  let ys := ptsSorted.map (fun p => (((p[1]?).getD 0 : ℤ) : ℚ) / 255)
  if xs.length < 2 then (i : ℚ) / 255
  else clip01 (e.splineAt (xs.zip ys) ((i : ℚ) / 255))

/-- Models `apply_tone_curve`. -/
def apply_tone_curve (e : Env) (img : Image) (points : List (List ℤ))
    (red green blue : Option (List (List ℤ))) : Image :=
  let default_pts : List (List ℤ) := [[0,0],[64,64],[128,128],[192,192],[255,255]]
  if points = default_pts ∧ red = none ∧ green = none ∧ blue = none then img
  else
    let master := buildLut e points
    let rlut := match red with | some p => buildLut e p | none => master
    let glut := match green with | some p => buildLut e p | none => master
    let blut := match blue with | some p => buildLut e p | none => master
    mapImg (fun p =>
      clampPx (rlut (u8of p.1), glut (u8of p.2.1), blut (u8of p.2.2))) img

/-- Models `_HSL_RANGES`: hue band centres and half-widths. -/
def _HSL_RANGES : List (String × ℚ × ℚ) :=
  [("red", 0, 30), ("orange", 30, 30), ("yellow", 60, 30), ("green", 120, 60),
   ("aqua", 180, 30), ("blue", 240, 40), ("purple", 280, 30), ("magenta", 320, 30)]

structure HSLChannel where
  hue : ℚ
  saturation : ℚ
  luminance : ℚ
deriving DecidableEq

/-- Models `hsl_params.get(color_name, {})` followed by `.get("hue", 0)` etc.:
a missing channel behaves as the all-zero channel. -/
def getHSLChannel (ps : List (String × HSLChannel)) (name : String) : HSLChannel :=
  ((ps.find? (fun q => q.1 == name)).map Prod.snd).getD ⟨0, 0, 0⟩

/-- Models `adjust_hsl` over a channel-name-to-deltas dict. -/
def adjust_hsl (img : Image) (hsl_params : List (String × HSLChannel)) : Image :=
  let has_adjustment := hsl_params.any (fun q =>
    decide (q.2.hue ≠ 0) || decide (q.2.saturation ≠ 0) || decide (q.2.luminance ≠ 0))
  if has_adjustment = false then img
  else
    mapImg (fun p =>
      let hsl0 := rgbToHsl p
      let res := _HSL_RANGES.foldl (fun (acc : ℚ × ℚ × ℚ) cr =>
        let ch := getHSLChannel hsl_params cr.1
        if ch.hue = 0 ∧ ch.saturation = 0 ∧ ch.luminance = 0 then acc
        else
          let center := cr.2.1
          let width := cr.2.2
          let hue_dist := min |acc.1 - center| (360 - |acc.1 - center|)
          let weight := clip01 (1 - hue_dist / width)
          (acc.1 + ch.hue * weight,
           clip01 (acc.2.1 + ch.saturation / 100 * weight),
           clip01 (acc.2.2 + ch.luminance / 100 * weight * (1/2)))) hsl0
      hslToRgb (qmod res.1 360, res.2.1, res.2.2)) img

/-- Models `apply_split_toning` (the two-zone version defined in image_ops.py).
The per-zone loop updates `result` twice; `luminance` is computed once
from the input pixel. -/
def apply_split_toning (e : Env) (img : Image) (highlights_hue highlights_sat
    shadows_hue shadows_sat balance : ℚ) : Image :=
  if highlights_sat = 0 ∧ shadows_sat = 0 then img
  else
    let midpoint := 1/2 + balance / 200
    mapImg (fun p =>
      let lum := luminance p
      let step := fun (res : Pixel) (hue sat : ℚ) (is_high : Bool) =>
        if sat = 0 then res
        else
          let hr := e.deg2rad hue
          let tr := 1/2 + 1/2 * e.cosRad hr
          let tg := 1/2 + 1/2 * e.cosRad (hr - 2094/1000)
          let tb := 1/2 + 1/2 * e.cosRad (hr + 2094/1000)
          let strength := sat / 100 * (3/10)
          let weight :=
            if is_high then clip01 ((lum - midpoint) / (1 - midpoint + 1/10000000000))
            else clip01 ((midpoint - lum) / (midpoint + 1/10000000000))
          (res.1 + strength * weight * (tr - 1/2),
           res.2.1 + strength * weight * (tg - 1/2),
           res.2.2 + strength * weight * (tb - 1/2))
      clampPx (step (step p highlights_hue highlights_sat true)
                    shadows_hue shadows_sat false)) img

/-- Pointwise combination of two matrices (`numpy` elementwise ops). -/
def zipMat (f : ℚ → ℚ → ℚ) (a b : Mat) : Mat :=
  List.zipWith (List.zipWith f) a b

/-- Combine an image with a per-pixel scalar matrix (broadcast `[..., None]`). -/
def zipImgMat (f : Pixel → ℚ → Pixel) (img : Image) (m : Mat) : Image :=
  List.zipWith (List.zipWith f) img m

/-- Models `adjust_clarity` — unsharp mask on the (opaque) uint8 luminance. -/
def adjust_clarity (e : Env) (img : Image) (amount : ℚ) : Image :=
  if amount = 0 then img
  else
    let strength := amount / 100
    let gray := e.grayU8 img
    let blurred := e.gaussBlurSigma gray 20
    let high_pass := zipMat (fun g bl =>
      let d := (g - bl) / 255
      if |d| < 2/100 then 0 else d) gray blurred
    zipImgMat (fun p hp =>
      clampPx (p.1 + strength * (3/10) * hp, p.2.1 + strength * (3/10) * hp,
               p.2.2 + strength * (3/10) * hp)) img high_pass

/-- Models `adjust_dehaze` — dark-channel-prior recovery with opaque atmospheric
estimate. -/
def adjust_dehaze (e : Env) (img : Image) (amount : ℚ) : Image :=
  if amount = 0 then img
  else
    let strength := amount / 100
    let a0 := e.atmosOf img
    let A : Pixel := (max a0.1 (2/10), max a0.2.1 (2/10), max a0.2.2 (2/10))
    mapImg (fun p =>
      let n := (p.1 / A.1, p.2.1 / A.2.1, p.2.2 / A.2.2)
      let t := max (1 - strength * (7/10) * min (min n.1 n.2.1) n.2.2) (3/10)
      clampPx ((p.1 - A.1) / t + A.1, (p.2.1 - A.2.1) / t + A.2.1,
               (p.2.2 - A.2.2) / t + A.2.2)) img

/-- Indexed map over rows and columns of an image. -/
def mapIdxRow (f : ℕ → Pixel → Pixel) : ℕ → List Pixel → List Pixel
  | _, [] => []
  | j, p :: ps => f j p :: mapIdxRow f (j + 1) ps

def mapIdxImg (f : ℕ → ℕ → Pixel → Pixel) : ℕ → Image → Image
  | _, [] => []
  | i, row :: rows => mapIdxRow (f i) 0 row :: mapIdxImg f (i + 1) rows

/-- Models `apply_vignette`.  `dist = sqrt((x-cx)^2 + (y-cy)^2) / max_dist` only
enters squared, so `dist ** 2` is the exact rational
`((x-cx)^2 + (y-cy)^2) / (cx^2 + cy^2)`. -/
def apply_vignette (img : Image) (amount : ℚ) : Image :=
  if amount = 0 then img
  else
    let h := img.length
    let w := (img.headD []).length
    let cy : ℚ := (h : ℚ) / 2
    let cx : ℚ := (w : ℚ) / 2
    let strength := amount / 100
    mapIdxImg (fun i j p =>
      let dist2 := (((j : ℚ) - cx) ^ 2 + ((i : ℚ) - cy) ^ 2) / (cx ^ 2 + cy ^ 2)
      let vm := 1 + strength * dist2
      clampPx (p.1 * vm, p.2.1 * vm, p.2.2 * vm)) 0 img

/-- Models `apply_grain`.  `np.random.normal(0, s, shape)` is modelled as `s`
times a standard-normal sample per position (`Env.noiseAt`). -/
def apply_grain (e : Env) (img : Image) (amount : ℚ) : Image :=
  if amount = 0 then img
  else
    let strength := min (amount / 100) (5/100) * (1/10)
    mapIdxImg (fun i j p =>
      let nz := e.noiseAt i j
      clampPx (p.1 + strength * nz.1, p.2.1 + strength * nz.2.1,
               p.2.2 + strength * nz.2.2)) 0 img

/-- Modelled from the spec: `apply_split_toning_3way` is called by
`apply_params` (stage 5, "Color grading (3-way split toning)") but is
missing from `src/image_ops.py`.  Spec §4.2/§4.3 require every operation
to short-circuit to a no-op at its neutral default — for split toning,
all zone saturations zero; the non-neutral body is opaque. -/
def apply_split_toning_3way (e : Env) (img : Image) (hh hs mh ms sh ss
    balance : ℚ) : Image :=
  if hs = 0 ∧ ms = 0 ∧ ss = 0 then img
  else e.splitTone3Body img hh hs mh ms sh ss balance

/-- Modelled from the spec: `adjust_texture` (effects stage) is called by
`apply_params` but missing from `src/image_ops.py`; neutral default 0
short-circuits, body opaque. -/
def adjust_texture (e : Env) (img : Image) (amount : ℚ) : Image :=
  if amount = 0 then img else e.textureBody img amount

/-- Modelled from the spec: `apply_fade` (effects stage) is called by
`apply_params` but missing from `src/image_ops.py`; neutral default 0
short-circuits, body opaque. -/
def apply_fade (e : Env) (img : Image) (amount : ℚ) : Image :=
  if amount = 0 then img else e.fadeBody img amount

/-- Modelled from the spec: `apply_sharpening` (effects stage) is called
by `apply_params` but missing from `src/image_ops.py`; neutral default
amount 0 short-circuits (the radius is irrelevant then), body opaque. -/
def apply_sharpening (e : Env) (img : Image) (amount radius : ℚ) : Image :=
  if amount = 0 then img else e.sharpenBody img amount radius

/-! ## ColorParams (validated model) and the processing pipeline -/

structure BasicParams where
  exposure : ℚ
  contrast : ℚ
  highlights : ℚ
  shadows : ℚ
  whites : ℚ
  blacks : ℚ

structure ColorAdjustParams where
  temperature : ℚ
  tint : ℚ
  vibrance : ℚ
  saturation : ℚ

structure ToneCurveParams where
  points : List (List ℤ)
  red : Option (List (List ℤ))
  green : Option (List (List ℤ))
  blue : Option (List (List ℤ))

structure HSLParams where
  red : HSLChannel
  orange : HSLChannel
  yellow : HSLChannel
  green : HSLChannel
  aqua : HSLChannel
  blue : HSLChannel
  purple : HSLChannel
  magenta : HSLChannel

structure SplitToneChannel where
  hue : ℚ
  saturation : ℚ

structure SplitToningParams where
  highlights : SplitToneChannel
  midtones : SplitToneChannel
  shadows : SplitToneChannel
  balance : ℚ

structure EffectsParams where
  clarity : ℚ
  dehaze : ℚ
  vignette : ℚ
  grain : ℚ
  texture : ℚ
  fade : ℚ
  sharpening : ℚ
  sharpen_radius : ℚ

structure ColorParams where
  version : String
  basic : BasicParams
  color : ColorAdjustParams
  tone_curve : ToneCurveParams
  hsl : HSLParams
  split_toning : SplitToningParams
  effects : EffectsParams

/-- ColorParams.identity(): the all-defaults instance (pydantic field
defaults from color_params.py). -/
def ColorParams.identity : ColorParams :=
  ⟨"1.0",
   ⟨0, 0, 0, 0, 0, 0⟩,
   ⟨6500, 0, 0, 0⟩,
   ⟨[[0,0],[64,64],[128,128],[192,192],[255,255]], none, none, none⟩,
   ⟨⟨0,0,0⟩, ⟨0,0,0⟩, ⟨0,0,0⟩, ⟨0,0,0⟩, ⟨0,0,0⟩, ⟨0,0,0⟩, ⟨0,0,0⟩, ⟨0,0,0⟩⟩,
   ⟨⟨0,0⟩, ⟨0,0⟩, ⟨0,0⟩, 0⟩,
   ⟨0, 0, 0, 0, 0, 0, 0, 1⟩⟩

/-- params.hsl.model_dump(): the channel dict in field order. -/
def hslModelDump (h : HSLParams) : List (String × HSLChannel) :=
  [("red", h.red), ("orange", h.orange), ("yellow", h.yellow),
   ("green", h.green), ("aqua", h.aqua), ("blue", h.blue),
   ("purple", h.purple), ("magenta", h.magenta)]

/-- ImageProcessor.apply_params: the fixed-order pipeline, ending in
`np.clip(result, 0.0, 1.0)`. -/
def apply_params (e : Env) (img : Image) (params : ColorParams) : Image :=
  let b := params.basic
  let r1 := adjust_exposure e img b.exposure
  let r2 := adjust_contrast r1 b.contrast
  let r3 := adjust_highlights r2 b.highlights
  let r4 := adjust_shadows r3 b.shadows
  let r5 := adjust_whites r4 b.whites
  let r6 := adjust_blacks r5 b.blacks
  let c := params.color
  let r7 := adjust_temperature r6 c.temperature
  let r8 := adjust_tint r7 c.tint
  let r9 := adjust_vibrance r8 c.vibrance
  let r10 := adjust_saturation r9 c.saturation
  let tc := params.tone_curve
  let r11 := apply_tone_curve e r10 tc.points tc.red tc.green tc.blue
  let r12 := adjust_hsl r11 (hslModelDump params.hsl)
  let st := params.split_toning
  let r13 := apply_split_toning_3way e r12 st.highlights.hue
    st.highlights.saturation st.midtones.hue st.midtones.saturation
    st.shadows.hue st.shadows.saturation st.balance
  let ef := params.effects
  let r14 := adjust_clarity e r13 ef.clarity
  let r15 := adjust_texture e r14 ef.texture
  let r16 := adjust_dehaze e r15 ef.dehaze
  let r17 := apply_fade e r16 ef.fade
  let r18 := apply_sharpening e r17 ef.sharpening ef.sharpen_radius
  let r19 := apply_vignette r18 ef.vignette
  let r20 := apply_grain e r19 ef.grain
  mapImg clampPx r20

/-! ## Selection masks and local blending
(`ImageProcessor.create_selection_mask` / `apply_local_adjustments`) -/

/-- np.zeros((h, w)). -/
def npzeros (h w : ℕ) : Mat := List.replicate h (List.replicate w 0)

/-- Python slice-bound normalization for an index `v` against length `n`:
negative indices count from the end (floored at 0), positive ones are
capped at `n`. -/
def sliceIdx (v : ℤ) (n : ℕ) : ℕ :=
  if v < 0 then (v + n).toNat else min v.toNat n

/-- Starting from np.zeros and assigning `1.0` under a boolean selection
gives the indicator matrix of the selection. -/
def indicatorMask (h w : ℕ) (pred : ℕ → ℕ → Bool) : Mat :=
  (List.range h).map (fun i => (List.range w).map (fun j => if pred i j then 1 else 0))

/-- Feathering step: `cv2.GaussianBlur(mask, (k, k), 0)` with
`k = max(int(feather/100 * min(h,w) * 0.1), 1) * 2 + 1`, applied only when
`feather > 0`. -/
def featherMask (e : Env) (feather : ℚ) (h w : ℕ) (mask : Mat) : Mat :=
  if feather > 0 then
    e.gaussBlurK mask (max (pyTrunc (feather / 100 * ((min h w : ℕ) : ℚ) * (1/10))) 1 * 2 + 1)
  else mask

/-- ImageProcessor.create_selection_mask.  Note the degenerate-ellipse
branch (`rx < 1 or ry < 1`) returns the zero mask *before* feathering. -/
def create_selection_mask (e : Env) (h w : ℕ) (region_type : String)
    (x y width height feather : ℚ) : Mat :=
  let px := pyTrunc (x * w)
  let py := pyTrunc (y * h)
  let pw := pyTrunc (width * w)
  let ph := pyTrunc (height * h)
  if region_type = "rect" then
    featherMask e feather h w (indicatorMask h w (fun i j =>
      decide (sliceIdx py h ≤ i ∧ i < sliceIdx (py + ph) h) &&
      decide (sliceIdx px w ≤ j ∧ j < sliceIdx (px + pw) w)))
  else if region_type = "ellipse" then
    let cy : ℚ := (py : ℚ) + (ph : ℚ) / 2
    let cx : ℚ := (px : ℚ) + (pw : ℚ) / 2
    let ry : ℚ := (ph : ℚ) / 2
    let rx : ℚ := (pw : ℚ) / 2
    if rx < 1 ∨ ry < 1 then npzeros h w
    else
      featherMask e feather h w (indicatorMask h w (fun i j =>
        decide ((((j : ℚ) - cx) / rx) ^ 2 + (((i : ℚ) - cy) / ry) ^ 2 ≤ 1)))
  else featherMask e feather h w (npzeros h w)

/-- Three-way zip used for the mask blend. -/
def zip3With {α β γ δ : Type} (f : α → β → γ → δ) : List α → List β → List γ → List δ
  | a :: as, b :: bs, c :: cs => f a b c :: zip3With f as bs cs
  | _, _, _ => []

/-- One pixel of the local-adjustment blend:
`mask * local_result + (1 - mask) * result`. -/
def blendPx (m : ℚ) (lp rp : Pixel) : Pixel :=
  (m * lp.1 + (1 - m) * rp.1, m * lp.2.1 + (1 - m) * rp.2.1,
   m * lp.2.2 + (1 - m) * rp.2.2)

def blendRow (mrow : List ℚ) (lrow rrow : List Pixel) : List Pixel :=
  zip3With blendPx mrow lrow rrow

/-- The local-adjustment blend of apply_local_adjustments:
`mask_3d * local_result + (1 - mask_3d) * result`, componentwise. -/
def blendLocal (mask : Mat) (localRes result : Image) : Image :=
  zip3With blendRow mask localRes result

/-! ## Pipeline predicates -/

/-- All three components of a pixel lie in [0, 1]. -/
def pxIn01 (p : Pixel) : Prop :=
  (0 ≤ p.1 ∧ p.1 ≤ 1) ∧ (0 ≤ p.2.1 ∧ p.2.1 ≤ 1) ∧ (0 ≤ p.2.2 ∧ p.2.2 ≤ 1)

instance (p : Pixel) : Decidable (pxIn01 p) := by unfold pxIn01; infer_instance

/-- Every pixel of the image lies in [0, 1]³. -/
def imgIn01 (img : Image) : Prop := ∀ row ∈ img, ∀ p ∈ row, pxIn01 p

instance (img : Image) : Decidable (imgIn01 img) := by
  unfold imgIn01; exact List.decidableBAll _ img

/-- Row lengths of a matrix (the shape (h, w) is `shapeOf m = replicate h w`). -/
def shapeOf (m : Mat) : List ℕ := m.map List.length

/-- Row lengths of an image. -/
def imgShapeOf (img : Image) : List ℕ := img.map List.length

/-- Every matrix entry lies in [0, 1]. -/
def maskIn01 (m : Mat) : Prop := ∀ row ∈ m, ∀ v ∈ row, 0 ≤ v ∧ v ≤ 1

/-- Every matrix entry is zero. -/
def maskZero (m : Mat) : Prop := ∀ row ∈ m, ∀ v ∈ row, v = 0

/-! ## Helper lemmas for the image pipeline -/

theorem clip01_of_in01 {v : ℚ} (h0 : 0 ≤ v) (h1 : v ≤ 1) : clip01 v = v := by
  unfold clip01
  rw [min_eq_right h1, max_eq_right h0]

theorem clampPx_of_in01 {p : Pixel} (h : pxIn01 p) : clampPx p = p := by
  obtain ⟨⟨a, b⟩, ⟨c, d⟩, ⟨f, g⟩⟩ := h
  unfold clampPx
  rw [clip01_of_in01 a b, clip01_of_in01 c d, clip01_of_in01 f g]

theorem clip01_in01 (v : ℚ) : 0 ≤ clip01 v ∧ clip01 v ≤ 1 := by
  unfold clip01
  exact ⟨le_max_left 0 _, max_le (by norm_num) (min_le_left 1 v)⟩

theorem pxIn01_clampPx (p : Pixel) : pxIn01 (clampPx p) :=
  ⟨clip01_in01 p.1, clip01_in01 p.2.1, clip01_in01 p.2.2⟩

theorem map_self_of_id {α : Type} (l : List α) (f : α → α)
    (h : ∀ a ∈ l, f a = a) : l.map f = l := by
  induction l with
  | nil => rfl
  | cons a as ih =>
      simp only [List.map_cons]
      rw [h a (List.mem_cons_self a as), ih (fun x hx => h x (List.mem_cons_of_mem a hx))]

theorem mapImg_clampPx_id (img : Image) (h : imgIn01 img) :
    mapImg clampPx img = img := by
  unfold mapImg
  refine map_self_of_id _ _ (fun row hrow => ?_)
  exact map_self_of_id _ _ (fun p hp => clampPx_of_in01 (h row hrow p hp))

theorem imgIn01_mapImg (f : Pixel → Pixel) (img : Image)
    (hf : ∀ p, pxIn01 (f p)) : imgIn01 (mapImg f img) := by
  intro row hrow p hp
  unfold mapImg at hrow
  obtain ⟨r0, _, rfl⟩ := List.mem_map.mp hrow
  obtain ⟨p0, _, rfl⟩ := List.mem_map.mp hp
  exact hf p0

theorem adjust_exposure_zero (e : Env) (img : Image) :
    adjust_exposure e img 0 = img := by
  simp [adjust_exposure]

theorem adjust_contrast_zero (img : Image) : adjust_contrast img 0 = img := by
  simp [adjust_contrast]

theorem adjust_highlights_zero (img : Image) : adjust_highlights img 0 = img := by
  simp [adjust_highlights]

theorem adjust_shadows_zero (img : Image) : adjust_shadows img 0 = img := by
  simp [adjust_shadows]

theorem adjust_whites_zero (img : Image) : adjust_whites img 0 = img := by
  simp [adjust_whites]

theorem adjust_blacks_zero (img : Image) : adjust_blacks img 0 = img := by
  simp [adjust_blacks]

theorem adjust_temperature_neutral (img : Image) :
    adjust_temperature img 6500 = img := by
  simp [adjust_temperature]

theorem adjust_tint_zero (img : Image) : adjust_tint img 0 = img := by
  simp [adjust_tint]

theorem adjust_vibrance_zero (img : Image) : adjust_vibrance img 0 = img := by
  simp [adjust_vibrance]

theorem adjust_saturation_zero (img : Image) : adjust_saturation img 0 = img := by
  simp [adjust_saturation]

theorem apply_tone_curve_default (e : Env) (img : Image) :
    apply_tone_curve e img [[0,0],[64,64],[128,128],[192,192],[255,255]]
      none none none = img := by
  simp [apply_tone_curve]

theorem adjust_hsl_zero (img : Image) (ps : List (String × HSLChannel))
    (h : ∀ c ∈ ps, c.2.hue = 0 ∧ c.2.saturation = 0 ∧ c.2.luminance = 0) :
    adjust_hsl img ps = img := by
  have hany : ps.any (fun q =>
      decide (q.2.hue ≠ 0) || decide (q.2.saturation ≠ 0) ||
      decide (q.2.luminance ≠ 0)) = false := by
    rw [List.any_eq_false]
    intro q hq
    obtain ⟨h1, h2, h3⟩ := h q hq
    simp [h1, h2, h3]
  unfold adjust_hsl
  rw [hany]
  rfl

theorem apply_split_toning_zero (e : Env) (img : Image) (hh sh bal : ℚ) :
    apply_split_toning e img hh 0 sh 0 bal = img := by
  simp [apply_split_toning]

theorem apply_split_toning_3way_zero (e : Env) (img : Image) (hh mh sh bal : ℚ) :
    apply_split_toning_3way e img hh 0 mh 0 sh 0 bal = img := by
  simp [apply_split_toning_3way]

theorem adjust_clarity_zero (e : Env) (img : Image) :
    adjust_clarity e img 0 = img := by
  simp [adjust_clarity]

theorem adjust_texture_zero (e : Env) (img : Image) :
    adjust_texture e img 0 = img := by
  simp [adjust_texture]

theorem adjust_dehaze_zero (e : Env) (img : Image) :
    adjust_dehaze e img 0 = img := by
  simp [adjust_dehaze]

theorem apply_fade_zero (e : Env) (img : Image) : apply_fade e img 0 = img := by
  simp [apply_fade]

theorem apply_sharpening_zero (e : Env) (img : Image) (radius : ℚ) :
    apply_sharpening e img 0 radius = img := by
  simp [apply_sharpening]

theorem apply_vignette_zero (img : Image) : apply_vignette img 0 = img := by
  simp [apply_vignette]

theorem apply_grain_zero (e : Env) (img : Image) : apply_grain e img 0 = img := by
  simp [apply_grain]

theorem adjust_hsl_defaultDump (img : Image) :
    adjust_hsl img (hslModelDump ⟨⟨0,0,0⟩, ⟨0,0,0⟩, ⟨0,0,0⟩, ⟨0,0,0⟩,
      ⟨0,0,0⟩, ⟨0,0,0⟩, ⟨0,0,0⟩, ⟨0,0,0⟩⟩) = img := by
  refine adjust_hsl_zero img _ (fun c hc => ?_)
  simp only [hslModelDump] at hc
  fin_cases hc <;> exact ⟨rfl, rfl, rfl⟩

theorem map_const_eq_replicate {α β : Type} (l : List α) (b : β) (f : α → β)
    (h : ∀ a ∈ l, f a = b) : l.map f = List.replicate l.length b := by
  induction l with
  | nil => rfl
  | cons a as ih =>
      simp only [List.map_cons, List.length_cons, List.replicate_succ]
      rw [h a (List.mem_cons_self a as), ih (fun x hx => h x (List.mem_cons_of_mem a hx))]

theorem shapeOf_npzeros (h w : ℕ) : shapeOf (npzeros h w) = List.replicate h w := by
  unfold shapeOf npzeros
  rw [List.map_replicate, List.length_replicate]

theorem shapeOf_indicatorMask (h w : ℕ) (pred : ℕ → ℕ → Bool) :
    shapeOf (indicatorMask h w pred) = List.replicate h w := by
  unfold shapeOf indicatorMask
  rw [List.map_map]
  have := map_const_eq_replicate (List.range h) w
    (List.length ∘ fun i => (List.range w).map (fun j => if pred i j then (1:ℚ) else 0))
    (fun a _ => by simp)
  rw [this, List.length_range]

theorem maskZero_npzeros (h w : ℕ) : maskZero (npzeros h w) := by
  intro row hrow v hv
  rw [List.eq_of_mem_replicate hrow] at hv
  exact List.eq_of_mem_replicate hv

theorem maskIn01_npzeros (h w : ℕ) : maskIn01 (npzeros h w) := by
  intro row hrow v hv
  rw [List.eq_of_mem_replicate hrow] at hv
  rw [List.eq_of_mem_replicate hv]
  norm_num

theorem maskIn01_indicatorMask (h w : ℕ) (pred : ℕ → ℕ → Bool) :
    maskIn01 (indicatorMask h w pred) := by
  intro row hrow v hv
  unfold indicatorMask at hrow
  obtain ⟨i, _, rfl⟩ := List.mem_map.mp hrow
  obtain ⟨j, _, rfl⟩ := List.mem_map.mp hv
  split <;> norm_num

theorem shapeOf_featherMask (e : Env) (feather : ℚ) (h w : ℕ) (m : Mat)
    (hB : ∀ m k, shapeOf (e.gaussBlurK m k) = shapeOf m) :
    shapeOf (featherMask e feather h w m) = shapeOf m := by
  unfold featherMask
  split
  · exact hB _ _
  · rfl

theorem maskIn01_featherMask (e : Env) (feather : ℚ) (h w : ℕ) (m : Mat)
    (hB : ∀ m k, maskIn01 m → maskIn01 (e.gaussBlurK m k)) (hm : maskIn01 m) :
    maskIn01 (featherMask e feather h w m) := by
  unfold featherMask
  split
  · exact hB _ _ hm
  · exact hm

theorem maskZero_featherMask (e : Env) (feather : ℚ) (h w : ℕ) (m : Mat)
    (hB : ∀ m k, maskZero m → maskZero (e.gaussBlurK m k)) (hm : maskZero m) :
    maskZero (featherMask e feather h w m) := by
  unfold featherMask
  split
  · exact hB _ _ hm
  · exact hm

theorem blendRow_zero (mrow : List ℚ) (lrow rrow : List Pixel)
    (hm : ∀ v ∈ mrow, v = 0) (hlm : mrow.length = rrow.length)
    (hll : lrow.length = rrow.length) :
    blendRow mrow lrow rrow = rrow := by
  induction rrow generalizing mrow lrow with
  | nil =>
      rw [List.length_eq_zero.mp hlm, List.length_eq_zero.mp hll]
      rfl
  | cons rp rps ih =>
      cases mrow with
      | nil => simp at hlm
      | cons m ms =>
          cases lrow with
          | nil => simp at hll
          | cons lp lps =>
              have hm0 : m = 0 := hm m (List.mem_cons_self m ms)
              show blendPx m lp rp :: blendRow ms lps rps = rp :: rps
              rw [ih ms lps (fun v hv => hm v (List.mem_cons_of_mem m hv))
                    (by simpa using hlm) (by simpa using hll)]
              unfold blendPx
              rw [hm0]
              norm_num

theorem blendLocal_of_maskZero (mask : Mat) (localRes result : Image)
    (hz : maskZero mask) (hlm : shapeOf mask = imgShapeOf result)
    (hll : imgShapeOf localRes = imgShapeOf result) :
    blendLocal mask localRes result = result := by
  induction result generalizing mask localRes with
  | nil =>
      unfold shapeOf at hlm
      unfold imgShapeOf at hlm hll
      simp only [List.map_nil, List.map_eq_nil_iff] at hlm hll
      rw [hlm, hll]
      rfl
  | cons rrow rrows ih =>
      cases mask with
      | nil => simp [shapeOf, imgShapeOf] at hlm
      | cons mrow mrows =>
          cases localRes with
          | nil => simp [shapeOf, imgShapeOf] at hll
          | cons lrow lrows =>
              simp only [shapeOf, imgShapeOf, List.map_cons, List.cons.injEq] at hlm hll
              show blendRow mrow lrow rrow :: blendLocal mrows lrows rrows = rrow :: rrows
              rw [blendRow_zero mrow lrow rrow
                    (fun v hv => hz mrow (List.mem_cons_self mrow mrows) v hv)
                    hlm.1 hll.1,
                  ih mrows lrows
                    (fun r hr v hv => hz r (List.mem_cons_of_mem mrow hr) v hv)
                    hlm.2 hll.2]

/-- Claim **C5**.  Every image operation returns its input unchanged at its
neutral parameter: exposure at ev=0; contrast, highlights, shadows,
whites, blacks, tint, vibrance, saturation, clarity, dehaze, vignette and
grain at amount=0; temperature at 6500 K; the tone curve at the default
five-point diagonal master curve with no per-channel overrides; HSL when
all channel deltas are 0; split toning when both zone saturations are 0 —
for every environment of opaque numeric primitives. -/
theorem image_ops_neutral_identity :
    (∀ (e : Env) (img : Image), adjust_exposure e img 0 = img) ∧
    (∀ img : Image, adjust_contrast img 0 = img) ∧
    (∀ img : Image, adjust_highlights img 0 = img) ∧
    (∀ img : Image, adjust_shadows img 0 = img) ∧
    (∀ img : Image, adjust_whites img 0 = img) ∧
    (∀ img : Image, adjust_blacks img 0 = img) ∧
    (∀ img : Image, adjust_temperature img 6500 = img) ∧
    (∀ img : Image, adjust_tint img 0 = img) ∧
    (∀ img : Image, adjust_vibrance img 0 = img) ∧
    (∀ img : Image, adjust_saturation img 0 = img) ∧
    (∀ (e : Env) (img : Image), adjust_clarity e img 0 = img) ∧
    (∀ (e : Env) (img : Image), adjust_dehaze e img 0 = img) ∧
    (∀ img : Image, apply_vignette img 0 = img) ∧
    (∀ (e : Env) (img : Image), apply_grain e img 0 = img) ∧
    (∀ (e : Env) (img : Image),
      apply_tone_curve e img [[0,0],[64,64],[128,128],[192,192],[255,255]]
        none none none = img) ∧
    (∀ (e : Env) (img : Image) (hh sh bal : ℚ),
      apply_split_toning e img hh 0 sh 0 bal = img) ∧
    (∀ (img : Image) (ps : List (String × HSLChannel)),
      (∀ c ∈ ps, c.2.hue = 0 ∧ c.2.saturation = 0 ∧ c.2.luminance = 0) →
      adjust_hsl img ps = img) :=
  ⟨adjust_exposure_zero, adjust_contrast_zero, adjust_highlights_zero,
   adjust_shadows_zero, adjust_whites_zero, adjust_blacks_zero,
   adjust_temperature_neutral, adjust_tint_zero, adjust_vibrance_zero,
   adjust_saturation_zero, adjust_clarity_zero, adjust_dehaze_zero,
   apply_vignette_zero, apply_grain_zero, apply_tone_curve_default,
   apply_split_toning_zero, adjust_hsl_zero⟩

/-- Claim **C5** (witness). -/
theorem image_ops_neutral_identity_witness :
    adjust_hsl [[((0:ℚ), (0:ℚ), (0:ℚ))]] [("red", ⟨0, 0, 0⟩)] =
      [[((0:ℚ), (0:ℚ), (0:ℚ))]] :=
  image_ops_neutral_identity.2.2.2.2.2.2.2.2.2.2.2.2.2.2.2.2
    [[(0, 0, 0)]] [("red", ⟨0, 0, 0⟩)]
    (by intro c hc; fin_cases hc; exact ⟨rfl, rfl, rfl⟩)

/-- Claim **C1**.  For every input image with values in [0,1] and
params = ColorParams.identity() (the all-defaults instance),
ImageProcessor.apply_params returns the input image exactly: every
pipeline stage short-circuits at its default parameter and the final
np.clip(result, 0, 1) is the identity on in-range values.  Holds for
every environment of opaque numeric primitives (the four operations
missing from src/image_ops.py are spec-modelled with the §4.3
neutral-default short-circuit). -/
theorem apply_params_identity (e : Env) (img : Image) (h : imgIn01 img) :
    apply_params e img ColorParams.identity = img := by
  simp only [apply_params, ColorParams.identity]
  rw [adjust_exposure_zero, adjust_contrast_zero, adjust_highlights_zero,
      adjust_shadows_zero, adjust_whites_zero, adjust_blacks_zero,
      adjust_temperature_neutral, adjust_tint_zero, adjust_vibrance_zero,
      adjust_saturation_zero, apply_tone_curve_default, adjust_hsl_defaultDump,
      apply_split_toning_3way_zero, adjust_clarity_zero, adjust_texture_zero,
      adjust_dehaze_zero, apply_fade_zero, apply_sharpening_zero,
      apply_vignette_zero, apply_grain_zero, mapImg_clampPx_id img h]

/-- Claim **C1** (witness). -/
theorem apply_params_identity_witness :
    apply_params trivEnv [[((0:ℚ), (1:ℚ), (0:ℚ))]] ColorParams.identity =
      [[((0:ℚ), (1:ℚ), (0:ℚ))]] :=
  apply_params_identity trivEnv [[(0, 1, 0)]] (by decide)

/-- Claim **C9**.  For every input image with all values in [0,1] and every
ev ∈ [-3, 3], adjust_exposure(image, ev) returns values in [0,1]: at
ev=0 it is the input; otherwise every output component passes through
the final np.clip(..., 0, 1).  Holds for every environment (in
particular for any behaviour of the transcendental gamma and 2**ev
primitives). -/
theorem adjust_exposure_range (e : Env) (img : Image) (ev : ℚ)
    (himg : imgIn01 img) (hlo : -3 ≤ ev) (hhi : ev ≤ 3) :
    imgIn01 (adjust_exposure e img ev) := by
  unfold adjust_exposure
  split
  · exact himg
  · exact imgIn01_mapImg _ img (fun p => pxIn01_clampPx _)

/-- Claim **C9** (witness). -/
theorem adjust_exposure_range_witness :
    imgIn01 [[((0:ℚ), (0:ℚ), (0:ℚ))]] ∧ (-3 : ℚ) ≤ 3 ∧ (3 : ℚ) ≤ 3 ∧
    imgIn01 (adjust_exposure trivEnv [[(0, 0, 0)]] 3) :=
  ⟨by decide, by norm_num, le_refl 3,
   adjust_exposure_range trivEnv [[(0, 0, 0)]] 3 (by decide) (by norm_num)
     (le_refl 3)⟩

/-- Claim **C10**.  For every h, w and arguments, create_selection_mask returns
a mask of shape (h, w) with every value in [0, 1]; when the region type
is neither "rect" nor "ellipse" the mask is identically zero (nothing is
selected, no exception), so the apply_local_adjustments blend
mask * local + (1 - mask) * result returns result unchanged.  The
Gaussian-blur primitive is assumed to preserve shape, the [0,1] range
and the zero mask — true of cv2.GaussianBlur, whose kernel is a convex
combination. -/
theorem create_selection_mask_spec (e : Env)
    (hBshape : ∀ m k, shapeOf (e.gaussBlurK m k) = shapeOf m)
    (hBrange : ∀ m k, maskIn01 m → maskIn01 (e.gaussBlurK m k))
    (hBzero : ∀ m k, maskZero m → maskZero (e.gaussBlurK m k))
    (h w : ℕ) (region_type : String) (x y width height feather : ℚ) :
    shapeOf (create_selection_mask e h w region_type x y width height feather) =
      List.replicate h w ∧
    maskIn01 (create_selection_mask e h w region_type x y width height feather) ∧
    (region_type ≠ "rect" → region_type ≠ "ellipse" →
      maskZero (create_selection_mask e h w region_type x y width height feather) ∧
      ∀ localRes result : Image,
        imgShapeOf localRes = List.replicate h w →
        imgShapeOf result = List.replicate h w →
        blendLocal (create_selection_mask e h w region_type x y width height feather)
          localRes result = result) := by
  simp only [create_selection_mask]
  by_cases hr : region_type = "rect"
  · rw [if_pos hr]
    refine ⟨?_, ?_, fun hne _ => absurd hr hne⟩
    · rw [shapeOf_featherMask e _ h w _ hBshape, shapeOf_indicatorMask]
    · exact maskIn01_featherMask _ _ _ _ _ hBrange (maskIn01_indicatorMask _ _ _)
  · rw [if_neg hr]
    by_cases he : region_type = "ellipse"
    · rw [if_pos he]
      split
      · exact ⟨shapeOf_npzeros h w, maskIn01_npzeros h w,
          fun _ hne => absurd he hne⟩
      · refine ⟨?_, ?_, fun _ hne => absurd he hne⟩
        · rw [shapeOf_featherMask e _ h w _ hBshape, shapeOf_indicatorMask]
        · exact maskIn01_featherMask _ _ _ _ _ hBrange (maskIn01_indicatorMask _ _ _)
    · rw [if_neg he]
      have hz : maskZero (featherMask e feather h w (npzeros h w)) :=
        maskZero_featherMask _ _ _ _ _ hBzero (maskZero_npzeros h w)
      have hsh : shapeOf (featherMask e feather h w (npzeros h w)) =
          List.replicate h w := by
        rw [shapeOf_featherMask e _ h w _ hBshape, shapeOf_npzeros]
      refine ⟨hsh,
        maskIn01_featherMask _ _ _ _ _ hBrange (maskIn01_npzeros h w),
        fun _ _ => ⟨hz, fun localRes result hl hres => ?_⟩⟩
      exact blendLocal_of_maskZero _ _ _ hz (by rw [hsh, hres]) (by rw [hl, hres])

/-- Claim **C10** (witness). -/
theorem create_selection_mask_spec_witness :
    shapeOf (create_selection_mask trivEnv 2 2 "glow" 0 0 1 1 20) =
      List.replicate 2 2 ∧
    maskIn01 (create_selection_mask trivEnv 2 2 "glow" 0 0 1 1 20) ∧
    (("glow" : String) ≠ "rect" → ("glow" : String) ≠ "ellipse" →
      maskZero (create_selection_mask trivEnv 2 2 "glow" 0 0 1 1 20) ∧
      ∀ localRes result : Image,
        imgShapeOf localRes = List.replicate 2 2 →
        imgShapeOf result = List.replicate 2 2 →
        blendLocal (create_selection_mask trivEnv 2 2 "glow" 0 0 1 1 20)
          localRes result = result) :=
  create_selection_mask_spec trivEnv (fun _ _ => rfl) (fun _ _ hm => hm)
    (fun _ _ hm => hm) 2 2 "glow" 0 0 1 1 20

end ColorTune
